import Mathlib

/-!
# Attribute descriptions of slapd (`servers/slapd/ad.c`)

A shallow embedding of the attribute-description routines of slapd and the
properties of them that the specification states.

Conventions of the embedding.

* A C `char` is a natural number (its byte value); a C string is the list of
  its bytes before the terminating NUL.  `cstr` cuts a byte list at its first
  NUL, so every string function below reads a list the way the C function
  reads memory.
* A `struct berval` handed to `slap_bv2ad` is the list of its `bv_len` bytes;
  `bv_val[bv_len]` is the terminating NUL, which is how `slap_str2ad` builds
  the value (`bv_len = strlen (str)`).  The bytes may contain a NUL.
* The singly linked intern list hanging off `sat_ad` is a Lean list, head
  first; `ad_next` is the list structure.  A node carries the address of the
  block `ch_malloc` returned for it (`ad_addr`): two handles are identical
  exactly when the nodes are equal.
* The schema (`at_find`, `is_at_subtype`, `slap_syntax_is_binary`,
  `slap_schema.si_at_undefined`) is not part of `ad.c`; it is a parameter.
-/

namespace Slapd

/-! ## Bytes and C strings -/

/-- Bytes of an ASCII literal. -/
def cs (s : String) : List Nat := s.toList.map Char.toNat

/-- The C string stored at the start of a byte list: the bytes before the
first NUL. -/
def cstr (s : List Nat) : List Nat := s.takeWhile (fun c => c != 0)

/-- Length of the C string, `strlen`. -/
def strlen (s : List Nat) : Nat := (cstr s).length

/-- Modelled from the spec: the macros `ASCII_ALPHA`, `ASCII_DIGIT` and
`AD_CHAR` of `slap.h` are missing; the attribute-description character class is
ASCII letters, digits, hyphen and semicolon. -/
def AD_CHAR (c : Nat) : Bool :=
  (97 ≤ c && c ≤ 122) || (65 ≤ c && c ≤ 90) || (48 ≤ c && c ≤ 57) || c == 45 || c == 59

/-- `TOLOWER` of the C locale: `A..Z` go to `a..z`, every other byte stays. -/
def TOLOWER (c : Nat) : Nat := if 65 ≤ c ∧ c ≤ 90 then c + 32 else c

/-- `TOUPPER` of the C locale: `a..z` go to `A..Z`, every other byte stays. -/
def TOUPPER (c : Nat) : Nat := if 97 ≤ c ∧ c ≤ 122 then c - 32 else c

/-- `ldap_pvt_str2lower`: lower-cases the C string in place; the bytes from the
NUL on are left alone. -/
def ldap_pvt_str2lower : List Nat → List Nat
  | [] => []
  | x :: xs => if x = 0 then x :: xs else TOLOWER x :: ldap_pvt_str2lower xs

/-- `ldap_pvt_str2upper`: upper-cases the C string in place. -/
def ldap_pvt_str2upper : List Nat → List Nat
  | [] => []
  | x :: xs => if x = 0 then x :: xs else TOUPPER x :: ldap_pvt_str2upper xs

/-- `strncasecmp (s1, s2, n)`: compares at most `n` bytes of two C strings,
ignoring ASCII case; reading past the end of a list reads the NUL. -/
def strncasecmp : List Nat → List Nat → Nat → Int
  | _, _, 0 => 0
  | s1, s2, n + 1 =>
    let c1 := TOLOWER (s1.headD 0)
    let c2 := TOLOWER (s2.headD 0)
    if c1 ≠ c2 then (c1 : Int) - (c2 : Int)
    else if c1 = 0 then 0
    else strncasecmp s1.tail s2.tail n

/-- `strcasecmp (s1, s2)`: `strncasecmp` without a bound (the bound below is
never reached: one of the strings ends first). -/
def strcasecmp (s1 s2 : List Nat) : Int :=
  strncasecmp s1 s2 (strlen s1 + 1)

/-- `strcmp (s1, s2)`: byte-wise comparison of two C strings. -/
def strcmp : List Nat → List Nat → Int
  | [], s2 => - ((s2.headD 0 : Nat) : Int)
  | x :: xs, s2 =>
    if x ≠ s2.headD 0 then (x : Int) - ((s2.headD 0 : Nat) : Int)
    else if x = 0 then 0
    else strcmp xs s2.tail

/-! ## Data model -/

/-- `struct berval`: a length and a pointer.  `bv_val` holds the bytes the
pointer addresses (a NULL pointer is the empty list; the source reads no NULL
`bv_val`, every read is guarded by `bv_len`). -/
structure berval where
  bv_len : Nat
  bv_val : List Nat
deriving DecidableEq, Repr

/-- The immutable part of `AttributeType`: its object identifier (the identity
of the type), canonical name and syntax.  The mutable field `sat_ad` lives in
`Registry`. -/
structure AttributeType where
  sat_oid : List Nat
  sat_cname : List Nat
  sat_syntax : Nat
deriving DecidableEq, Repr

/-- `AttributeDescription`.  `ad_addr` is the address of the allocated block
(the handle); `ad_next` is the tail of the list the node sits in. -/
structure AttributeDescription where
  ad_addr : Nat
  ad_type : AttributeType
  ad_cname : berval
  ad_lang : berval
  ad_flags : Nat
deriving DecidableEq, Repr

/-- The schema interface `ad.c` calls into. -/
structure Schema where
  at_find : List Nat → Option AttributeType
  is_at_subtype : AttributeType → AttributeType → Bool
  slap_syntax_is_binary : Nat → Bool
  si_at_undefined : AttributeType

/-- The mutable state: the `sat_ad` list of every attribute type and the
number of blocks `ch_malloc` has handed out (the next fresh address). -/
structure Registry where
  brk : Nat
  sat_ad : AttributeType → List AttributeDescription

/-- The registry before any description is interned. -/
def Registry.empty : Registry := { brk := 0, sat_ad := fun _ => [] }

/-- Modelled from the spec: result codes of `ldap.h` (missing). -/
def LDAP_SUCCESS : Nat := 0

/-- Modelled from the spec: result code `UndefinedType` of `ldap.h` (missing). -/
def LDAP_UNDEFINED_TYPE : Nat := 17

/-- Modelled from the spec: the flags bitset of `slap.h` (missing) has one bit,
binary transfer requested. -/
def SLAP_DESC_NONE : Nat := 0

/-- Modelled from the spec: the binary-transfer bit of the flags of `slap.h`. -/
def SLAP_DESC_BINARY : Nat := 1

/-- Modelled from the spec: the macro `slap_ad_is_binary` of `slap.h`
(missing) tests the binary-transfer bit. -/
def slap_ad_is_binary (ad : AttributeDescription) : Bool :=
  (ad.ad_flags &&& SLAP_DESC_BINARY) != 0

/-- What a resolve call leaves behind: the return code, `*text` (set only on
failure), `*ad` (set only on success) and the registry. -/
structure Resolved where
  rtn : Nat
  text : Option String
  ad : Option AttributeDescription
  reg : Registry

/-! ## `ad_keystring` -/

/-- The loop of `ad_keystring` over `bv_val[1 .. bv_len)`. -/
def ad_keystring_loop : List Nat → Nat
  | [] => 0
  | c :: rest => if !AD_CHAR c then 1 else ad_keystring_loop rest

/-- `ad_keystring`: 1 when a byte of the value is outside `AD_CHAR`, else 0.
`bv_val[0]` is read first, whatever `bv_len` is; on the empty value it is the
terminating NUL. -/
def ad_keystring (bv : List Nat) : Nat :=
  if !AD_CHAR (bv.headD 0) then 1 else ad_keystring_loop bv.tail

/-! ## `slap_bv2ad` -/

/-- The in-place split of a description at its semicolons, the repeated
`strchr (name, ';')` of the source.  The first component is the text before
the first `;` (the whole string when there is none): it has length
`options - name`, respectively `strlen (name)`.  The second lists the texts
between the later semicolons, one per round of the option loop, each of
length `i`. -/
def ad_split : List Nat → List Nat × List (List Nat)
  | [] => ([], [])
  | c :: rest =>
    if c = 59 then ([], (ad_split rest).1 :: (ad_split rest).2)
    else (c :: (ad_split rest).1, (ad_split rest).2)

/-- A failed call: code `LDAP_UNDEFINED_TYPE` (`rtn` is never changed before
`done`), the diagnostic, `*ad` as it was and the registry untouched. -/
def Resolved.fail (reg : Registry) (ad : Option AttributeDescription) (text : String) :
    Resolved :=
  { rtn := LDAP_UNDEFINED_TYPE, text := some text, ad := ad, reg := reg }

/-- The option loop of `slap_bv2ad` (lines 107-144).  `name` is the option text
of the round, `i` its length.  `desc.ad_lang.bv_val` points into the caller's
buffer; the model keeps its `bv_len` bytes, the only ones the source reads
(`strncasecmp` and `strncpy` are bounded by `ad_lang.bv_len`). -/
def slap_bv2ad_options (S : Schema) :
    AttributeDescription → List (List Nat) → Except String AttributeDescription
  | desc, [] => .ok desc
  | desc, name :: rest =>
    let i := name.length
    if i = 6 ∧ strncasecmp name [98, 105, 110, 97, 114, 121] i = 0 then
      if slap_ad_is_binary desc then
        .error "option \"binary\" specified multiple times"
      else if !S.slap_syntax_is_binary ( AttributeType.sat_syntax desc.ad_type) then
        .error "option \"binary\" with type not supported"
      else
        slap_bv2ad_options S { desc with ad_flags := desc.ad_flags ||| SLAP_DESC_BINARY } rest
    else if i ≥ 6 ∧ strncasecmp name [108, 97, 110, 103, 45] 5 = 0 then
      if desc.ad_lang.bv_len ≠ 0 then
        .error "multiple language tag options specified"
      else
        slap_bv2ad_options S { desc with ad_lang := { bv_len := i, bv_val := name } } rest
    else
      .error "unrecognized option"

/-- The search of the intern list (lines 147-157, repeated at 168-178): the
first node with the same flags and the same language tag, compared ignoring
case. -/
def slap_bv2ad_find (desc : AttributeDescription) :
    List AttributeDescription → Option AttributeDescription
  | [] => none
  | d2 :: rest =>
    if d2.ad_flags ≠ desc.ad_flags then slap_bv2ad_find desc rest
    else if d2.ad_lang.bv_len ≠ desc.ad_lang.bv_len then slap_bv2ad_find desc rest
    else if d2.ad_lang.bv_len = 0 then some d2
    else if strncasecmp d2.ad_lang.bv_val desc.ad_lang.bv_val desc.ad_lang.bv_len = 0 then
      some d2
    else slap_bv2ad_find desc rest

/-- A store of `bytes` at offset `off` of the memory that follows the
allocated structure.  `buf` lists the cells up to the last one written so far;
a cell skipped by a store is uninitialised heap (kept as 0; no read of the
source reaches such a cell before it is written). -/
def poke (buf : List Nat) (off : Nat) (bytes : List Nat) : List Nat :=
  buf.take off ++ List.replicate (off - buf.length) 0 ++ bytes ++ buf.drop (off + bytes.length)

/-- The bytes `strcpy` stores: the C string and its NUL. -/
def strcpy (src : List Nat) : List Nat := cstr src ++ [0]

/-- The bytes `strncpy (dst, src, n)` stores: `n` bytes, the C string padded
with NULs when it is shorter. -/
def strncpy (src : List Nat) (n : Nat) : List Nat :=
  (cstr src).take n ++ List.replicate (n - strlen src) 0

/-- The size `dlen` of the name buffer (lines 190-198). -/
def slap_bv2ad_dlen (desc : AttributeDescription) : Nat :=
  if desc.ad_lang.bv_len ≠ 0 ∨ desc.ad_flags ≠ SLAP_DESC_NONE then
    (if desc.ad_lang.bv_len ≠ 0 then desc.ad_lang.bv_len + 1 else 0)
      + (strlen desc.ad_type.sat_cname + 1)
      + (if slap_ad_is_binary desc then 7 else 0)
  else 0

/-- The node built for a description that is not interned yet (lines
200-226); `addr` is the block `ch_malloc` returns.  The display string is
assembled in the memory after the structure by stores at `ad_cname.bv_len`,
which starts as the length of the type name the caller wrote.  The node keeps
the C strings found at `ad_cname.bv_val` and `ad_lang.bv_val` (the memory is
not written again).  The memory is not bounded by `dlen`: when the caller's
type name is longer than the canonical name, the stores of the source run
over the end of the block, and the model records what they would write.  With
a flag but no language tag the source leaves `ad_lang.bv_val` unset; the model
keeps the empty list (`bv_len` is 0 and guards every read). -/
def slap_bv2ad_new (addr : Nat) (desc : AttributeDescription) : AttributeDescription :=
  if slap_bv2ad_dlen desc = 0 then
    { ad_addr := addr, ad_type := desc.ad_type, ad_flags := desc.ad_flags,
      ad_cname := { bv_len := desc.ad_cname.bv_len, bv_val := cstr desc.ad_type.sat_cname },
      ad_lang := { bv_len := desc.ad_lang.bv_len, bv_val := [] } }
  else
    let buf0 := poke [] 0 (strcpy desc.ad_type.sat_cname)
    let len0 := desc.ad_cname.bv_len
    let buf1 := if slap_ad_is_binary desc then poke buf0 len0 (strcpy [59, 98, 105, 110, 97, 114, 121])
      else buf0
    let len1 := if slap_ad_is_binary desc then len0 + 7 else len0
    if desc.ad_lang.bv_len ≠ 0 then
      let buf2 := poke buf1 len1 [59]
      let off := len1 + 1
      let buf3 := poke buf2 off (strncpy desc.ad_lang.bv_val desc.ad_lang.bv_len)
      let buf4 := poke buf3 (off + desc.ad_lang.bv_len) [0]
      let buf5 := buf4.take off ++ ldap_pvt_str2lower (buf4.drop off)
      { ad_addr := addr, ad_type := desc.ad_type, ad_flags := desc.ad_flags,
        ad_cname := { bv_len := off + desc.ad_lang.bv_len, bv_val := cstr buf5 },
        ad_lang := { bv_len := desc.ad_lang.bv_len, bv_val := cstr (buf5.drop off) } }
    else
      { ad_addr := addr, ad_type := desc.ad_type, ad_flags := desc.ad_flags,
        ad_cname := { bv_len := len1, bv_val := cstr buf1 },
        ad_lang := { bv_len := 0, bv_val := [] } }

/-- Linking a new node (lines 231-237): in front when the list is empty or the
node is bare (`dlen == 0`), else right behind the head. -/
def slap_bv2ad_link (dlen : Nat) (d2 : AttributeDescription) :
    List AttributeDescription → List AttributeDescription
  | [] => [d2]
  | h :: t => if dlen = 0 then d2 :: h :: t else h :: d2 :: t

/-- The second half of `slap_bv2ad` (lines 146-247): look the parsed
description up in the intern list of its type, create and link a node when it
is absent, hand the node out.  The source asserts `*ad == NULL` on entry, so
`*ad = d2` is the assignment taken.  The mutex and the second search matter
only between threads; `ch_malloc` does not return NULL, so the `while` body
runs at most once. -/
def slap_bv2ad_intern (reg : Registry) (desc : AttributeDescription) : Resolved :=
  match slap_bv2ad_find desc (reg.sat_ad desc.ad_type) with
  | some d2 => { rtn := LDAP_SUCCESS, text := none, ad := some d2, reg := reg }
  | none =>
    let d2 := slap_bv2ad_new reg.brk desc
    { rtn := LDAP_SUCCESS, text := none, ad := some d2,
      reg := { brk := reg.brk + 1,
               sat_ad := fun u =>
                 if u = desc.ad_type then
                   slap_bv2ad_link (slap_bv2ad_dlen desc) d2 (reg.sat_ad desc.ad_type)
                 else reg.sat_ad u } }

/-- The local `desc` before the option loop (lines 90-105): the type found,
`ad_cname.bv_len` set to the length of the type name as the caller wrote it,
no flags, no language tag.  The source leaves `desc.ad_cname.bv_val` unset and
never reads it; `desc` lives on the stack and has no block address. -/
def slap_bv2ad_desc (t : AttributeType) (len : Nat) : AttributeDescription :=
  { ad_addr := 0, ad_type := t,
    ad_cname := { bv_len := len, bv_val := [] },
    ad_flags := SLAP_DESC_NONE,
    ad_lang := { bv_len := 0, bv_val := [] } }

/-- The first half of `slap_bv2ad` (lines 75-144): validation, lookup of the
attribute type and the option loop.  It does not touch the registry. -/
def slap_bv2ad_parse (S : Schema) (bv : Option (List Nat)) :
    Except String AttributeDescription :=
  match bv with
  | none => .error "empty attribute description"
  | some bv =>
    if bv.length = 0 then .error "empty attribute description"
    else if ad_keystring bv ≠ 0 then
      .error "attribute description contains inappropriate characters"
    else
      let name := cstr bv
      match S.at_find (ad_split name).1 with
      | none => .error "attribute type undefined"
      | some t =>
        slap_bv2ad_options S (slap_bv2ad_desc t (ad_split name).1.length) (ad_split name).2

/-- `slap_bv2ad (bv, ad, text)` with `*ad == NULL` on entry; `bv = none` is the
NULL pointer. -/
def slap_bv2ad (S : Schema) (reg : Registry) (bv : Option (List Nat)) : Resolved :=
  match slap_bv2ad_parse S bv with
  | .error text => Resolved.fail reg none text
  | .ok desc => slap_bv2ad_intern reg desc

/-- `slap_str2ad (str, ad, text)`: the berval of the C string `str`. -/
def slap_str2ad (S : Schema) (reg : Registry) (str : List Nat) : Resolved :=
  slap_bv2ad S reg (some (cstr str))

/-! ## `slap_bv2undef_ad` -/

/-- The search of the undefined pool (lines 332-336): the first node whose
display string has the length of the name and equals it ignoring case. -/
def slap_bv2undef_ad_find (bv : List Nat) :
    List AttributeDescription → Option AttributeDescription
  | [] => none
  | desc :: rest =>
    if desc.ad_cname.bv_len = bv.length ∧ strcasecmp desc.ad_cname.bv_val bv = 0 then some desc
    else slap_bv2undef_ad_find bv rest

/-- `slap_bv2undef_ad (bv, ad, text)`; `ad` is `*ad` on entry (`none` is
NULL).  When `*ad` is not NULL the node is copied into the caller's structure,
which keeps its own address. -/
def slap_bv2undef_ad (S : Schema) (reg : Registry) (bv : Option (List Nat))
    (ad : Option AttributeDescription) : Resolved :=
  match bv with
  | none => Resolved.fail reg ad "empty attribute description"
  | some bv =>
    if bv.length = 0 then Resolved.fail reg ad "empty attribute description"
    else if ad_keystring bv ≠ 0 then
      Resolved.fail reg ad "attribute description contains inappropriate characters"
    else
      let found := slap_bv2undef_ad_find bv (reg.sat_ad S.si_at_undefined)
      let desc : AttributeDescription :=
        match found with
        | some desc => desc
        | none =>
          { ad_addr := reg.brk, ad_type := S.si_at_undefined, ad_flags := SLAP_DESC_NONE,
            ad_lang := { bv_len := 0, bv_val := [] },
            ad_cname := { bv_len := bv.length,
                          bv_val := cstr (ldap_pvt_str2upper (poke [] 0 (strcpy bv))) } }
      let reg1 : Registry :=
        match found with
        | some _ => reg
        | none =>
          { brk := reg.brk + 1,
            sat_ad := fun u =>
              if u = S.si_at_undefined then desc :: reg.sat_ad S.si_at_undefined
              else reg.sat_ad u }
      { rtn := LDAP_SUCCESS, text := none,
        ad := match ad with
          | none => some desc
          | some a => some { desc with ad_addr := a.ad_addr },
        reg := reg1 }

/-! ## `is_ad_subtype` -/

/-- `is_ad_subtype (sub, super)`. -/
def is_ad_subtype (S : Schema) (sub super : AttributeDescription) : Nat :=
  if !S.is_at_subtype sub.ad_type super.ad_type then 0
  else if super.ad_flags ≠ 0 ∧ super.ad_flags ≠ sub.ad_flags then 0
  else if super.ad_lang.bv_len ≠ 0 ∧
      (sub.ad_lang.bv_len ≠ super.ad_lang.bv_len ∨
        strcmp super.ad_lang.bv_val sub.ad_lang.bv_val ≠ 0) then 0
  else 1

/-! ## Descriptions written from their parts -/

/-- The description `t;o1;o2;...` with type name `t` and the given options. -/
def ad_join (t : List Nat) : List (List Nat) → List Nat
  | [] => t
  | o :: rest => t ++ 59 :: ad_join o rest

/-- The first option form of the specification: `binary`, ignoring case. -/
def Spec.is_binary_option (o : List Nat) : Bool :=
  o.map TOLOWER == [98, 105, 110, 97, 114, 121]

/-- The second option form of the specification: `lang-`, ignoring case,
followed by at least one character. -/
def Spec.is_lang_option (o : List Nat) : Bool :=
  decide (6 ≤ o.length) && ((o.take 5).map TOLOWER == [108, 97, 110, 103, 45])

/-- The display string of the specification: the canonical type name, then
`;binary` when the binary flag is set, then `;` and the lower-cased language
option when one is given. -/
def Spec.display_string (sat_cname : List Nat) (binary : Bool) (lang : List Nat) : List Nat :=
  cstr sat_cname ++ (if binary then [59, 98, 105, 110, 97, 114, 121] else []) ++
    (if lang = [] then [] else 59 :: lang.map TOLOWER)

/-! ## Sequences of calls -/

/-- The registry after resolving the given values one after the other with
`slap_bv2ad`, whatever each call returns. -/
def slap_bv2ad_seq (S : Schema) (reg : Registry) : List (Option (List Nat)) → Registry
  | [] => reg
  | bv :: rest => slap_bv2ad_seq S (slap_bv2ad S reg bv).reg rest

/-- The handles the calls of such a sequence return, in order (`none` for a
call that fails). -/
def slap_bv2ad_handles (S : Schema) (reg : Registry) :
    List (Option (List Nat)) → List (Option AttributeDescription)
  | [] => []
  | bv :: rest =>
    (slap_bv2ad S reg bv).ad :: slap_bv2ad_handles S (slap_bv2ad S reg bv).reg rest

/-! ## Predicates on nodes and registries -/

/-- A bare description: no flags and no language tag. -/
def ad_bare (a : AttributeDescription) : Bool :=
  a.ad_flags == 0 && a.ad_lang.bv_len == 0

/-- The test of one node in the search of the intern list. -/
def ad_match (desc d2 : AttributeDescription) : Bool :=
  d2.ad_flags == desc.ad_flags && d2.ad_lang.bv_len == desc.ad_lang.bv_len &&
    (d2.ad_lang.bv_len == 0 ||
      strncasecmp d2.ad_lang.bv_val desc.ad_lang.bv_val desc.ad_lang.bv_len == 0)

/-- Every node sits in the list of its own type, and carries the binary bit
only when the syntax of that type is binary. -/
def BinaryOk (S : Schema) (reg : Registry) : Prop :=
  ∀ U a, a ∈ reg.sat_ad U →
    a.ad_type = U ∧
      (slap_ad_is_binary a = true →
        S.slap_syntax_is_binary ( AttributeType.sat_syntax U) = true)

/-- A bare node, when the list has one, is the head of the list. -/
def HeadOk (l : List AttributeDescription) : Prop :=
  ∀ a ∈ l, ad_bare a = true → l.head? = some a

/-! ## A small schema for the worked examples -/

namespace Sample

/-- The type `name`. -/
def at_name : AttributeType :=
  { sat_oid := cs "2.5.4.41", sat_cname := cs "name", sat_syntax := 15 }

/-- The type `cn`, also known as `commonName`, a subtype of `name`. -/
def at_cn : AttributeType :=
  { sat_oid := cs "2.5.4.3", sat_cname := cs "cn", sat_syntax := 15 }

/-- The type `userCertificate`, whose syntax is transferred in binary. -/
def at_userCertificate : AttributeType :=
  { sat_oid := cs "2.5.4.36", sat_cname := cs "userCertificate", sat_syntax := 8 }

/-- The type `facsimileTelephoneNumber`, also known as `fax`. -/
def at_fax : AttributeType :=
  { sat_oid := cs "2.5.4.23", sat_cname := cs "facsimileTelephoneNumber", sat_syntax := 22 }

/-- The distinguished undefined type. -/
def at_undefined : AttributeType :=
  { sat_oid := cs "1.1.1", sat_cname := cs "UNDEFINED", sat_syntax := 0 }

/-- Lookup by name, ignoring case. -/
def at_find (name : List Nat) : Option AttributeType :=
  if name.map TOLOWER = cs "cn" ∨ name.map TOLOWER = cs "commonname" then some at_cn
  else if name.map TOLOWER = cs "name" then some at_name
  else if name.map TOLOWER = cs "usercertificate" then some at_userCertificate
  else if name.map TOLOWER = cs "facsimiletelephonenumber" ∨ name.map TOLOWER = cs "fax" then
    some at_fax
  else none

/-- The sample schema: `cn` below `name`, only syntax 8 is binary. -/
def schema : Schema :=
  { at_find := at_find,
    is_at_subtype := fun a b => a = b || (a = at_cn && b = at_name),
    slap_syntax_is_binary := fun s => s == 8,
    si_at_undefined := at_undefined }

/-- Resolve `sub`, then `super`, from the empty registry and test
`is_ad_subtype` on the two handles. -/
def is_subtype (sub super : String) : Option Nat :=
  match (slap_bv2ad schema Registry.empty (some (cs sub))).ad,
    (slap_bv2ad schema (slap_bv2ad schema Registry.empty (some (cs sub))).reg
      (some (cs super))).ad with
  | some a, some b => some (is_ad_subtype schema a b)
  | _, _ => none

/-- The bare description of `cn`, as the first call on the empty registry
creates it. -/
def ad_cn : AttributeDescription :=
  { ad_addr := 0, ad_type := at_cn, ad_cname := { bv_len := 2, bv_val := cs "cn" },
    ad_lang := { bv_len := 0, bv_val := [] }, ad_flags := 0 }

/-- The description `cn;lang-en`, as the second allocation creates it. -/
def ad_cn_lang_en : AttributeDescription :=
  { ad_addr := 1, ad_type := at_cn,
    ad_cname := { bv_len := 10, bv_val := cs "cn;lang-en" },
    ad_lang := { bv_len := 7, bv_val := cs "lang-en" }, ad_flags := 0 }

/-- The bare description of `name`. -/
def ad_name : AttributeDescription :=
  { ad_addr := 1, ad_type := at_name, ad_cname := { bv_len := 4, bv_val := cs "name" },
    ad_lang := { bv_len := 0, bv_val := [] }, ad_flags := 0 }

end Sample

/-! ## `ad_inlist` -/

/-- `ad_inlist (desc, attrs)`: `attrs` is the NULL-terminated array of C
strings.  Every name is resolved with `slap_str2ad`, which may intern a new
description, so the registry is threaded through the scan.  A successful
`slap_str2ad` always sets `*ad`; the last branch is not reached. -/
def ad_inlist (S : Schema) (reg : Registry) (desc : AttributeDescription) :
    List (List Nat) → Nat × Registry
  | [] => (0, reg)
  | a :: rest =>
    if (slap_str2ad S reg a).rtn ≠ LDAP_SUCCESS then
      ad_inlist S (slap_str2ad S reg a).reg desc rest
    else
      match (slap_str2ad S reg a).ad with
      | some ad =>
        if is_ad_subtype S desc ad ≠ 0 then (1, (slap_str2ad S reg a).reg)
        else ad_inlist S (slap_str2ad S reg a).reg desc rest
      | none => ad_inlist S (slap_str2ad S reg a).reg desc rest

/-- The registry after `slap_str2ad` has resolved the given names in turn. -/
def slap_str2ad_seq (S : Schema) (reg : Registry) : List (List Nat) → Registry
  | [] => reg
  | a :: rest => slap_str2ad_seq S (slap_str2ad S reg a).reg rest

/-! ## Mixed sequences of resolve calls -/

/-- One call into the registry: `slap_bv2ad`, or `slap_bv2undef_ad` with the
value of `*ad` on entry. -/
inductive AdCall where
  | bv2ad (bv : Option (List Nat))
  | bv2undef_ad (bv : Option (List Nat)) (ad : Option AttributeDescription)

/-- The registry after the given calls, in order. -/
def ad_calls (S : Schema) (reg : Registry) : List AdCall → Registry
  | [] => reg
  | AdCall.bv2ad bv :: rest => ad_calls S (slap_bv2ad S reg bv).reg rest
  | AdCall.bv2undef_ad bv ad :: rest => ad_calls S (slap_bv2undef_ad S reg bv ad).reg rest

/-- The undefined pool holds only nodes of the undefined type without flags
and language tag, whose display string is an upper-case NUL-free string of the
stored length. -/
def UndefPoolOk (S : Schema) (reg : Registry) : Prop :=
  ∀ a ∈ reg.sat_ad S.si_at_undefined,
    a.ad_type = S.si_at_undefined ∧ a.ad_flags = 0 ∧ a.ad_lang = { bv_len := 0, bv_val := [] } ∧
    a.ad_cname.bv_val.length = a.ad_cname.bv_len ∧
    (∀ c ∈ a.ad_cname.bv_val, c ≠ 0) ∧
    a.ad_cname.bv_val.map TOUPPER = a.ad_cname.bv_val

/-! # Identity mapping and authorization (`servers/slapd/saslauthz.c`)

The file is modelled as it is compiled with `HAVE_CYRUS_SASL`.  The regular
expression engine, DN normalisation, URL parsing, the filter parser and the
backends are not part of `saslauthz.c`; they are the fields of `Env`.
-/

namespace Sasl

/-- `struct berval` with its pointer told apart from its contents:
`bv_val = none` is the NULL pointer, `some s` points to the C string `s`.
(`saslauthz.c` tests the pointer, so NULL and the empty string differ here.) -/
structure berval where
  bv_len : Nat
  bv_val : Option (List Nat)
deriving DecidableEq, Repr

/-- Modelled from the spec: result code `OperationsError` of `ldap.h` (missing);
the number is that of the LDAP protocol. -/
def LDAP_OPERATIONS_ERROR : Nat := 1

/-- Modelled from the spec: result code `ProtocolError` of `ldap.h` (missing). -/
def LDAP_PROTOCOL_ERROR : Nat := 2

/-- Modelled from the spec: result code `InappropriateAuth` of `ldap.h`
(missing). -/
def LDAP_INAPPROPRIATE_AUTH : Nat := 48

/-- Modelled from the spec: the search scope *base* of `ldap.h` (missing). -/
def LDAP_SCOPE_BASE : Int := 0

/-- Modelled from the spec: the `BadScheme` outcome of `ldap_url_parse`, from
`ldap.h` (missing). -/
def LDAP_URL_ERR_BADSCHEME : Nat := 3

/-- Modelled from the spec: the cap on placeholders, `SASLREGEX_REPLACE` of
`slap.h` (missing), is 10. -/
def SASLREGEX_REPLACE : Nat := 10

/-- The compile flag `REG_EXTENDED` of `regex.h`. -/
def REG_EXTENDED : Nat := 1

/-- The compile flag `REG_ICASE` of `regex.h`. -/
def REG_ICASE : Nat := 2

/-- The compile flag `REG_NOSUB` of `regex.h`. -/
def REG_NOSUB : Nat := 8

/-- `regmatch_t`: start and end offset of a match, both -1 for a group that
did not take part. -/
structure regmatch_t where
  rm_so : Int
  rm_eo : Int
deriving DecidableEq, Repr

/-- A compiled pattern, `regex_t`: it stands for the pattern and the flags
it was compiled from. -/
structure regex_t where
  re_pattern : List Nat
  re_cflags : Nat
deriving DecidableEq, Repr

/-- Modelled from the spec: `SaslRegexp_t` of `slap.h` (missing), a rewrite
rule: the match pattern, the replace template, the compiled pattern, and
`sr_offset`, the index of the placeholders, an array of `SASLREGEX_REPLACE + 2`
integers.  `sr_offset` lists the entries written so far, in index order (the
source writes index 0, 1, 2, ... once each).  `sr_strings`, the scratch array
`regexec` fills, is the list `regexec` returns. -/
structure SaslRegexp_t where
  sr_match : List Nat
  sr_replace : List Nat
  sr_workspace : regex_t
  sr_offset : List Int
deriving DecidableEq, Repr

/-- The fields of `LDAPURLDesc` that `saslauthz.c` reads. -/
structure LDAPURLDesc where
  lud_dn : List Nat
  lud_scope : Int
  lud_filter : Option (List Nat)
deriving DecidableEq, Repr

/-- The field of `Entry` that `saslauthz.c` reads: the normalized DN. -/
structure Entry where
  e_nname : berval
deriving DecidableEq, Repr

/-- The arguments of a `be_search` call: the backend, the identity of the
operation (`op.o_ndn`), base, scope, alias dereferencing, size limit, time
limit and the compiled filter (a handle, `none` for NULL). -/
structure SearchArgs where
  be : Nat
  o_ndn : berval
  nbase : berval
  scope : Int
  deref : Nat
  sizelimit : Nat
  timelimit : Nat
  filter : Option Nat
deriving DecidableEq, Repr

/-- The collaborators of `saslauthz.c`.
* `regcomp pattern cflags` is the return code of `regcomp` (0 on success).
* `regexec preg string nmatch` is `none` for no match and the filled `pmatch`
  array for a match.
* `dnNormalize2 bv` is the return code and the value left in `*out`.
* `ldap_url_parse` gives the descriptor or the error code.
* `str2filter` gives a filter handle or NULL.
* `select_backend` gives a backend that has a `be_search`, or `none`.
* `be_search` lists the entries the backend hands to the `sc_sendentry`
  callback, in order, as long as the callback does not abort the search.
* `backend_attribute` is the return code and the values.
* `dn_match` is the macro of `slap.h`.
* The last two fields are the attribute names `SASL_AUTHZ_SOURCE_ATTR` and
  `SASL_AUTHZ_DEST_ATTR` of `slap.h`. -/
structure Env where
  regcomp : List Nat → Nat → Nat
  regexec : regex_t → List Nat → Nat → Option (List regmatch_t)
  dnNormalize2 : berval → Nat × berval
  ldap_url_parse : List Nat → Except Nat LDAPURLDesc
  str2filter : List Nat → Option Nat
  select_backend : berval → Option Nat
  suffix_alias : Nat → berval → berval
  be_search : SearchArgs → List Entry
  backend_attribute : berval → AttributeDescription → Nat × List berval
  dn_match : berval → berval → Bool
  SASL_AUTHZ_SOURCE_ATTR : List Nat
  SASL_AUTHZ_DEST_ATTR : List Nat

/-! ## `slap_parseURI` -/

/-- What `slap_parseURI` leaves behind: the return code, `*searchbase`,
`*scope` and `*filter`. -/
structure ParsedURI where
  rc : Nat
  searchbase : berval
  scope : Int
  filter : Option Nat
deriving DecidableEq, Repr

/-- `strspn (s, " ")`: the number of leading blanks. -/
def strspn_blank : List Nat → Nat
  | [] => 0
  | c :: rest => if c = 32 then strspn_blank rest + 1 else 0

/-- The label `is_dn` of `slap_parseURI` (lines 61-66): `bv.bv_val` is
`uri->bv_val + skip`, `filter` is still NULL. -/
def slap_parseURI_is_dn (E : Env) (uri : berval) (skip : Nat) : ParsedURI :=
  let r := E.dnNormalize2
    { bv_len := uri.bv_len - skip, bv_val := some ((uri.bv_val.getD []).drop skip) }
  { rc := r.1, searchbase := r.2,
    scope := if r.1 = LDAP_SUCCESS then LDAP_SCOPE_BASE else -1,
    filter := none }

/-- `slap_parseURI (uri, searchbase, scope, filter)`; the source asserts that
`uri->bv_val` is not NULL. -/
def slap_parseURI (E : Env) (uri : berval) : ParsedURI :=
  if strncasecmp (uri.bv_val.getD []) [100, 110, 58] 3 = 0 then
    slap_parseURI_is_dn E uri (3 + strspn_blank ((uri.bv_val.getD []).drop 3))
  else
    match E.ldap_url_parse (uri.bv_val.getD []) with
    | .error rc =>
      if rc = LDAP_URL_ERR_BADSCHEME then slap_parseURI_is_dn E uri 0
      else { rc := LDAP_PROTOCOL_ERROR, searchbase := { bv_len := 0, bv_val := none },
             scope := -1, filter := none }
    | .ok ludp =>
      match ludp.lud_filter with
      | none =>
        { rc := (E.dnNormalize2 { bv_len := strlen ludp.lud_dn, bv_val := some ludp.lud_dn }).1,
          searchbase :=
            (E.dnNormalize2 { bv_len := strlen ludp.lud_dn, bv_val := some ludp.lud_dn }).2,
          scope := ludp.lud_scope, filter := none }
      | some f =>
        match E.str2filter f with
        | none =>
          { rc := LDAP_PROTOCOL_ERROR, searchbase := { bv_len := 0, bv_val := none },
            scope := ludp.lud_scope, filter := none }
        | some flt =>
          { rc := (E.dnNormalize2
              { bv_len := strlen ludp.lud_dn, bv_val := some ludp.lud_dn }).1,
            searchbase := (E.dnNormalize2
              { bv_len := strlen ludp.lud_dn, bv_val := some ludp.lud_dn }).2,
            scope := ludp.lud_scope, filter := some flt }

/-! ## `slap_sasl_regexp_config` -/

/-- The scan of the replace template (lines 166-195).  `pos` is `c -
reg->sr_replace`, `off` the entries of `sr_offset` written so far, so `n` is
`off.length`.  A backslash followed by a character skips that character; a
`$` stores its position, unless `n == SASLREGEX_REPLACE`, which fails
(`none`).  At the end the length of the template and -1 are stored. -/
def slap_sasl_regexp_scan : List Nat → Nat → List Int → Option (List Int)
  | [], pos, off => some (off ++ [(pos : Int), -1])
  | [c], pos, off =>
    if c = 36 then
      if off.length = SASLREGEX_REPLACE then none
      else slap_sasl_regexp_scan [] (pos + 1) (off ++ [(pos : Int)])
    else slap_sasl_regexp_scan [] (pos + 1) off
  | c :: x :: rest, pos, off =>
    if c = 92 then slap_sasl_regexp_scan rest (pos + 2) off
    else if c = 36 then
      if off.length = SASLREGEX_REPLACE then none
      else slap_sasl_regexp_scan (x :: rest) (pos + 1) (off ++ [(pos : Int)])
    else slap_sasl_regexp_scan (x :: rest) (pos + 1) off

/-- `slap_sasl_regexp_config (match, replace)`: the return code and the rule
array `SaslRegexp` afterwards (`nSaslRegexp` is its length; a failed call
leaves it alone). -/
def slap_sasl_regexp_config (E : Env) (SaslRegexp : List SaslRegexp_t)
    (mtch replace : List Nat) : Nat × List SaslRegexp_t :=
  if (E.dnNormalize2 { bv_len := strlen mtch, bv_val := some (cstr mtch) }).1 ≠ 0 then
    ((E.dnNormalize2 { bv_len := strlen mtch, bv_val := some (cstr mtch) }).1, SaslRegexp)
  else if (E.dnNormalize2 { bv_len := strlen replace, bv_val := some (cstr replace) }).1 ≠ 0 then
    ((E.dnNormalize2 { bv_len := strlen replace, bv_val := some (cstr replace) }).1, SaslRegexp)
  else
    let sr_match := cstr
      ((E.dnNormalize2 { bv_len := strlen mtch, bv_val := some (cstr mtch) }).2.bv_val.getD [])
    let sr_replace := cstr
      ((E.dnNormalize2
        { bv_len := strlen replace, bv_val := some (cstr replace) }).2.bv_val.getD [])
    if E.regcomp sr_match (REG_EXTENDED ||| REG_ICASE) ≠ 0 then
      (LDAP_OPERATIONS_ERROR, SaslRegexp)
    else
      match slap_sasl_regexp_scan sr_replace 0 [-2] with
      | none => (LDAP_OPERATIONS_ERROR, SaslRegexp)
      | some sr_offset =>
        (LDAP_SUCCESS,
          SaslRegexp ++ [{ sr_match := sr_match, sr_replace := sr_replace,
                           sr_workspace := { re_pattern := sr_match,
                                             re_cflags := REG_EXTENDED ||| REG_ICASE },
                           sr_offset := sr_offset }])

/-! ## `slap_sasl_regexp` -/

/-- The loop over the rules (lines 229-233): the first rule whose pattern
matches, with the `sr_strings` that `regexec` filled. -/
def slap_sasl_regexp_find (E : Env) (saslname : List Nat) :
    List SaslRegexp_t → Option (SaslRegexp_t × List regmatch_t)
  | [] => none
  | reg :: rest =>
    match E.regexec reg.sr_workspace saslname SASLREGEX_REPLACE with
    | some sr_strings => some (reg, sr_strings)
    | none => slap_sasl_regexp_find E saslname rest

/-- The entry `sr_strings[i]`; an entry `regexec` did not list is unused. -/
def sr_string (sr_strings : List regmatch_t) (i : Nat) : regmatch_t :=
  sr_strings.getD i { rm_so := -1, rm_eo := -1 }

/-- The first pass (lines 247-259), the length of the result.  `prev` is
`sr_offset[n-1]`, the list holds `sr_offset[n]`, `sr_offset[n+1]`, ...;
`none` stands for a read outside `sr_offset` or outside `sr_strings`. -/
def slap_sasl_regexp_len (sr_replace : List Nat) (sr_strings : List regmatch_t) :
    Int → List Int → Int → Option Int
  | _, [], _ => none
  | prev, cur :: rest, len =>
    if cur < 0 then some len
    else
      match rest with
      | [] => none
      | next :: _ =>
        if next < 0 then some (len + (cur - prev - 2))
        else if (sr_replace.getD (cur.toNat + 1) 0 : Int) - 48 < 0 ∨
            (SASLREGEX_REPLACE : Int) ≤ (sr_replace.getD (cur.toNat + 1) 0 : Int) - 48 then none
        else
          slap_sasl_regexp_len sr_replace sr_strings cur rest
            (len + (cur - prev - 2)
              + ((sr_string sr_strings (sr_replace.getD (cur.toNat + 1) 0 - 48)).rm_eo
                - (sr_string sr_strings (sr_replace.getD (cur.toNat + 1) 0 - 48)).rm_so))

/-- The second pass (lines 264-281), the bytes written to `out->bv_val`, in
order (`insert` is the length of `out`).  `none` stands for a read outside
`sr_offset` or `sr_strings`, or a `strncpy` with a negative length. -/
def slap_sasl_regexp_fill (sr_replace saslname : List Nat) (sr_strings : List regmatch_t) :
    Int → List Int → List Nat → Option (List Nat)
  | _, [], _ => none
  | prev, cur :: rest, out =>
    if cur < 0 then some out
    else if cur - prev - 2 < 0 then none
    else
      match rest with
      | [] => none
      | next :: _ =>
        if next < 0 then
          some (out ++ strncpy (sr_replace.drop (prev + 2).toNat) (cur - prev - 2).toNat)
        else if (sr_replace.getD (cur.toNat + 1) 0 : Int) - 48 < 0 ∨
            (SASLREGEX_REPLACE : Int) ≤ (sr_replace.getD (cur.toNat + 1) 0 : Int) - 48 then none
        else if (sr_string sr_strings (sr_replace.getD (cur.toNat + 1) 0 - 48)).rm_eo
            - (sr_string sr_strings (sr_replace.getD (cur.toNat + 1) 0 - 48)).rm_so < 0 then none
        else
          slap_sasl_regexp_fill sr_replace saslname sr_strings cur rest
            (out ++ strncpy (sr_replace.drop (prev + 2).toNat) (cur - prev - 2).toNat
              ++ strncpy
                (saslname.drop
                  (sr_string sr_strings (sr_replace.getD (cur.toNat + 1) 0 - 48)).rm_so.toNat)
                ((sr_string sr_strings (sr_replace.getD (cur.toNat + 1) 0 - 48)).rm_eo
                  - (sr_string sr_strings (sr_replace.getD (cur.toNat + 1) 0 - 48)).rm_so).toNat)

/-- The expansion of the rule that matched (lines 245-292): return code 1 and
`*out`, with `bv_len` from the first pass and the bytes of the second. -/
def slap_sasl_regexp_expand (reg : SaslRegexp_t) (saslname : List Nat)
    (sr_strings : List regmatch_t) : Option (Nat × berval) :=
  match reg.sr_offset with
  | [] => none
  | off0 :: offs =>
    match slap_sasl_regexp_len reg.sr_replace sr_strings off0 offs 0,
      slap_sasl_regexp_fill reg.sr_replace saslname sr_strings off0 offs [] with
    | some len, some out => some (1, { bv_len := len.toNat, bv_val := some out })
    | _, _ => none

/-- `slap_sasl_regexp (in, out)`: the return code and `*out`; `none` stands
for a run that reads outside an array. -/
def slap_sasl_regexp (E : Env) (SaslRegexp : List SaslRegexp_t) (inp : berval) :
    Option (Nat × berval) :=
  match inp.bv_val with
  | none => some (0, { bv_len := 0, bv_val := none })
  | some saslname =>
    if SaslRegexp.length = 0 then some (0, { bv_len := 0, bv_val := none })
    else
      match slap_sasl_regexp_find E (cstr saslname) SaslRegexp with
      | none => some (0, { bv_len := 0, bv_val := none })
      | some (reg, sr_strings) => slap_sasl_regexp_expand reg (cstr saslname) sr_strings

/-! ## `slap_sasl2dn` -/

/-- Modelled from the spec: `ber_dupbv` of liblber is missing; it copies the
value (a NULL value gives the empty berval). -/
def ber_dupbv (src : berval) : berval :=
  match src.bv_val with
  | none => { bv_len := 0, bv_val := none }
  | some s => { bv_len := src.bv_len, bv_val := some s }

/-- `sasl_sc_sasl2dn`: the return value and `*ndn` (the `sc_private` of the
callback) afterwards. -/
def sasl_sc_sasl2dn (ndn : berval) (e : Entry) : Int × berval :=
  match ndn.bv_val with
  | some _ => (-1, { ndn with bv_val := none })
  | none => (0, ber_dupbv e.e_nname)

/-- The backend hands its entries to the callback one by one and stops when
the callback returns a negative value. -/
def be_search_deliver {σ : Type} (cb : σ → Entry → Int × σ) : σ → List Entry → σ
  | st, [] => st
  | st, e :: rest => if (cb st e).1 < 0 then (cb st e).2 else be_search_deliver cb (cb st e).2 rest

/-- What `slap_sasl2dn` leaves behind: `*dn` and the `be_search` calls made. -/
structure Sasl2dn where
  dn : berval
  searches : List SearchArgs
deriving DecidableEq, Repr

/-- `slap_sasl2dn (saslname, dn)`; `none` when `slap_sasl_regexp` reads outside
an array. -/
def slap_sasl2dn (E : Env) (SaslRegexp : List SaslRegexp_t) (saslname : berval) :
    Option Sasl2dn :=
  match slap_sasl_regexp E SaslRegexp saslname with
  | none => none
  | some (r, uri) =>
    if r = 0 then some { dn := { bv_len := 0, bv_val := none }, searches := [] }
    else if (slap_parseURI E uri).rc ≠ 0 then
      some { dn := { bv_len := 0, bv_val := none }, searches := [] }
    else if (slap_parseURI E uri).scope = LDAP_SCOPE_BASE then
      some { dn := (slap_parseURI E uri).searchbase, searches := [] }
    else
      match E.select_backend (slap_parseURI E uri).searchbase with
      | none => some { dn := { bv_len := 0, bv_val := none }, searches := [] }
      | some be =>
        some
          { dn := be_search_deliver sasl_sc_sasl2dn { bv_len := 0, bv_val := none }
              (E.be_search
                { be := be, o_ndn := saslname,
                  nbase := E.suffix_alias be (slap_parseURI E uri).searchbase,
                  scope := (slap_parseURI E uri).scope, deref := 1, sizelimit := 1,
                  timelimit := 0, filter := (slap_parseURI E uri).filter }),
            searches :=
              [{ be := be, o_ndn := saslname,
                 nbase := E.suffix_alias be (slap_parseURI E uri).searchbase,
                 scope := (slap_parseURI E uri).scope, deref := 1, sizelimit := 1,
                 timelimit := 0, filter := (slap_parseURI E uri).filter }] }

/-! ## `slap_sasl_match` and `slap_sasl_authorized` -/

/-- `smatch_info`: the DN looked for and the flag. -/
structure smatch_info where
  dn : berval
  mtch : Int
deriving DecidableEq, Repr

/-- `sasl_sc_smatch`: the return value and `*sm` afterwards. -/
def sasl_sc_smatch (E : Env) (sm : smatch_info) (e : Entry) : Int × smatch_info :=
  if E.dn_match sm.dn e.e_nname then (-1, { sm with mtch := 1 }) else (1, sm)

/-- `slap_sasl_match (rule, assertDN, authc)`: the return code and the
`be_search` calls made. -/
def slap_sasl_match (E : Env) (rule assertDN authc : berval) : Nat × List SearchArgs :=
  if (slap_parseURI E rule).rc ≠ LDAP_SUCCESS then ((slap_parseURI E rule).rc, [])
  else if (slap_parseURI E rule).scope = LDAP_SCOPE_BASE then
    if E.regcomp ((slap_parseURI E rule).searchbase.bv_val.getD [])
        (REG_EXTENDED ||| REG_ICASE ||| REG_NOSUB) = 0 then
      match E.regexec
          { re_pattern := (slap_parseURI E rule).searchbase.bv_val.getD [],
            re_cflags := REG_EXTENDED ||| REG_ICASE ||| REG_NOSUB }
          (assertDN.bv_val.getD []) 0 with
      | some _ => (LDAP_SUCCESS, [])
      | none => (LDAP_INAPPROPRIATE_AUTH, [])
    else (LDAP_INAPPROPRIATE_AUTH, [])
  else
    match E.select_backend (slap_parseURI E rule).searchbase with
    | none => (LDAP_INAPPROPRIATE_AUTH, [])
    | some be =>
      (if (be_search_deliver (sasl_sc_smatch E) { dn := assertDN, mtch := 0 }
            (E.be_search
              { be := be, o_ndn := authc,
                nbase := E.suffix_alias be (slap_parseURI E rule).searchbase,
                scope := (slap_parseURI E rule).scope, deref := 1, sizelimit := 0,
                timelimit := 0, filter := (slap_parseURI E rule).filter })).mtch ≠ 0
        then LDAP_SUCCESS else LDAP_INAPPROPRIATE_AUTH,
       [{ be := be, o_ndn := authc,
          nbase := E.suffix_alias be (slap_parseURI E rule).searchbase,
          scope := (slap_parseURI E rule).scope, deref := 1, sizelimit := 0,
          timelimit := 0, filter := (slap_parseURI E rule).filter }])

/-- What the authorization functions do besides returning: reads of a rule
attribute (`backend_attribute`) and searches (`be_search`). -/
inductive Event where
  | attribute (searchDN : berval) (ad : AttributeDescription)
  | search (args : SearchArgs)
deriving DecidableEq, Repr

/-- The loop over the rule values (lines 578-583): the return code and the
searches made. -/
def slap_sasl_check_authz_loop (E : Env) (assertDN authc : berval) :
    List berval → Nat × List SearchArgs
  | [] => (LDAP_INAPPROPRIATE_AUTH, [])
  | v :: rest =>
    if (slap_sasl_match E v assertDN authc).1 = LDAP_SUCCESS then
      (LDAP_SUCCESS, (slap_sasl_match E v assertDN authc).2)
    else
      ((slap_sasl_check_authz_loop E assertDN authc rest).1,
        (slap_sasl_match E v assertDN authc).2
          ++ (slap_sasl_check_authz_loop E assertDN authc rest).2)

/-- The outcome of an authorization function: the return code, the registry
of attribute descriptions (`slap_bv2ad` may intern the rule attribute) and the
events in order. -/
structure Authz where
  rc : Nat
  reg : Registry
  events : List Event

/-- `slap_sasl_check_authz (searchDN, assertDN, attr, authc)`.  A successful
`slap_bv2ad` always sets `*ad`, so the branch for a NULL `ad` is never taken. -/
def slap_sasl_check_authz (S : Schema) (E : Env) (reg : Registry)
    (searchDN assertDN : berval) (attr : List Nat) (authc : berval) : Authz :=
  if (slap_bv2ad S reg (some attr)).rtn ≠ LDAP_SUCCESS then
    { rc := (slap_bv2ad S reg (some attr)).rtn, reg := (slap_bv2ad S reg (some attr)).reg,
      events := [] }
  else
    match (slap_bv2ad S reg (some attr)).ad with
    | none =>
      { rc := (slap_bv2ad S reg (some attr)).rtn, reg := (slap_bv2ad S reg (some attr)).reg,
        events := [] }
    | some ad =>
      if (E.backend_attribute searchDN ad).1 ≠ LDAP_SUCCESS then
        { rc := (E.backend_attribute searchDN ad).1, reg := (slap_bv2ad S reg (some attr)).reg,
          events := [Event.attribute searchDN ad] }
      else
        { rc := (slap_sasl_check_authz_loop E assertDN authc
            (E.backend_attribute searchDN ad).2).1,
          reg := (slap_bv2ad S reg (some attr)).reg,
          events := Event.attribute searchDN ad ::
            (slap_sasl_check_authz_loop E assertDN authc
              (E.backend_attribute searchDN ad).2).2.map Event.search }

/-- `slap_sasl_authorized (authcDN, authzDN)`, as built with
`HAVE_CYRUS_SASL`; `authzDN = none` is the NULL pointer. -/
def slap_sasl_authorized (S : Schema) (E : Env) (reg : Registry)
    (authcDN : berval) (authzDN : Option berval) : Authz :=
  match authzDN with
  | none => { rc := LDAP_SUCCESS, reg := reg, events := [] }
  | some authzDN =>
    if E.dn_match authcDN authzDN then { rc := LDAP_SUCCESS, reg := reg, events := [] }
    else if (slap_sasl_check_authz S E reg authcDN authzDN
        (cstr E.SASL_AUTHZ_SOURCE_ATTR) authcDN).rc = LDAP_SUCCESS then
      slap_sasl_check_authz S E reg authcDN authzDN (cstr E.SASL_AUTHZ_SOURCE_ATTR) authcDN
    else if (slap_sasl_check_authz S E
        (slap_sasl_check_authz S E reg authcDN authzDN
          (cstr E.SASL_AUTHZ_SOURCE_ATTR) authcDN).reg
        authzDN authcDN (cstr E.SASL_AUTHZ_DEST_ATTR) authcDN).rc = LDAP_SUCCESS then
      { rc := LDAP_SUCCESS,
        reg := (slap_sasl_check_authz S E
          (slap_sasl_check_authz S E reg authcDN authzDN
            (cstr E.SASL_AUTHZ_SOURCE_ATTR) authcDN).reg
          authzDN authcDN (cstr E.SASL_AUTHZ_DEST_ATTR) authcDN).reg,
        events := (slap_sasl_check_authz S E reg authcDN authzDN
            (cstr E.SASL_AUTHZ_SOURCE_ATTR) authcDN).events
          ++ (slap_sasl_check_authz S E
            (slap_sasl_check_authz S E reg authcDN authzDN
              (cstr E.SASL_AUTHZ_SOURCE_ATTR) authcDN).reg
            authzDN authcDN (cstr E.SASL_AUTHZ_DEST_ATTR) authcDN).events }
    else
      { rc := LDAP_INAPPROPRIATE_AUTH,
        reg := (slap_sasl_check_authz S E
          (slap_sasl_check_authz S E reg authcDN authzDN
            (cstr E.SASL_AUTHZ_SOURCE_ATTR) authcDN).reg
          authzDN authcDN (cstr E.SASL_AUTHZ_DEST_ATTR) authcDN).reg,
        events := (slap_sasl_check_authz S E reg authcDN authzDN
            (cstr E.SASL_AUTHZ_SOURCE_ATTR) authcDN).events
          ++ (slap_sasl_check_authz S E
            (slap_sasl_check_authz S E reg authcDN authzDN
              (cstr E.SASL_AUTHZ_SOURCE_ATTR) authcDN).reg
            authzDN authcDN (cstr E.SASL_AUTHZ_DEST_ATTR) authcDN).events }

end Sasl

/-! ## A small environment for the worked examples -/

namespace Sasl.Sample

/-- The first position at which `pat` occurs in `s`, both already case
folded. -/
def find_sub (pat : List Nat) : List Nat → Nat → Option Nat
  | [], i => if pat = [] then some i else none
  | c :: rest, i => if pat.isPrefixOf (c :: rest) then some i else find_sub pat rest (i + 1)

/-- A regular expression engine for the examples.  On the one pattern with a
group it knows the one principal of the example; every other pattern is taken
as a literal, which is what a pattern without special characters is, and
searched for anywhere in the string, ignoring case. -/
def regexec (preg : regex_t) (s : List Nat) (_nmatch : Nat) : Option (List regmatch_t) :=
  if preg.re_pattern = cs "uid=([^,]+),cn=EXAMPLE,cn=AUTH" then
    if s = cs "uid=bob,cn=EXAMPLE,cn=AUTH" then
      some [{ rm_so := 0, rm_eo := 26 }, { rm_so := 4, rm_eo := 7 }]
    else none
  else
    match find_sub (preg.re_pattern.map TOLOWER) (s.map TOLOWER) 0 with
    | some i => some [{ rm_so := (i : Int), rm_eo := (i : Int) + preg.re_pattern.length }]
    | none => none

/-- A URL parser for the examples: `ldap:///<dn>??base`, `ldap:///<dn>??sub`,
and anything without the scheme `ldap://` is a bad scheme. -/
def ldap_url_parse (s : List Nat) : Except Nat LDAPURLDesc :=
  if s.take 8 = cs "ldap:///" then
    if (s.drop 8).reverse.take 6 = (cs "??base").reverse then
      .ok { lud_dn := (s.drop 8).take ((s.drop 8).length - 6), lud_scope := 0, lud_filter := none }
    else if (s.drop 8).reverse.take 5 = (cs "??sub").reverse then
      .ok { lud_dn := (s.drop 8).take ((s.drop 8).length - 5), lud_scope := 2, lud_filter := none }
    else .error 2
  else .error LDAP_URL_ERR_BADSCHEME

/-- The environment of the examples: normalisation leaves a DN as it is,
every pattern compiles, no entry has rule attributes, no search finds an
entry, `dn_match` is equality. -/
def env : Env :=
  { regcomp := fun _ _ => 0,
    regexec := regexec,
    dnNormalize2 := fun bv => (0, bv),
    ldap_url_parse := ldap_url_parse,
    str2filter := fun _ => some 0,
    select_backend := fun _ => some 0,
    suffix_alias := fun _ bv => bv,
    be_search := fun _ => [],
    backend_attribute := fun _ _ => (32, []),
    dn_match := fun a b => a == b,
    SASL_AUTHZ_SOURCE_ATTR := cs "saslAuthzTo",
    SASL_AUTHZ_DEST_ATTR := cs "saslAuthzFrom" }

/-- The berval of an ASCII literal. -/
def bv (s : String) : berval := { bv_len := (cs s).length, bv_val := some (cs s) }

end Sasl.Sample

/-! ## The template as the specification reads it -/

namespace Sasl

/-- The positions, counted from `pos`, of the `$` of a template that are not
escaped: a backslash followed by a character escapes that character, a
backslash that is the last character escapes nothing. -/
def Spec.placeholders : List Nat → Nat → List Nat
  | [], _ => []
  | [c], pos => if c = 36 then [pos] else []
  | c :: x :: rest, pos =>
    if c = 92 then Spec.placeholders rest (pos + 2)
    else if c = 36 then pos :: Spec.placeholders (x :: rest) (pos + 1)
    else Spec.placeholders (x :: rest) (pos + 1)

/-- Every unescaped `$` of the template is followed by a digit. -/
def Spec.digits_follow : List Nat → Bool
  | [] => true
  | [c] => c != 36
  | c :: x :: rest =>
    if c = 92 then Spec.digits_follow rest
    else if c = 36 then (decide (48 ≤ x) && decide (x ≤ 57)) && Spec.digits_follow rest
    else Spec.digits_follow (x :: rest)

/-- The principal substring captured by group `d`; empty when the group did
not take part in the match. -/
def Spec.group (saslname : List Nat) (sr_strings : List regmatch_t) (d : Nat) : List Nat :=
  if (sr_string sr_strings d).rm_so < 0 then []
  else (saslname.drop (sr_string sr_strings d).rm_so.toNat).take
    ((sr_string sr_strings d).rm_eo - (sr_string sr_strings d).rm_so).toNat

/-- The template with every unescaped `$d` replaced by group `d` and every
other character copied in order. -/
def Spec.expand (group : Nat → List Nat) : List Nat → List Nat
  | [] => []
  | [c] => [c]
  | c :: x :: rest =>
    if c = 92 then c :: x :: Spec.expand group rest
    else if c = 36 then group (x - 48) ++ Spec.expand group rest
    else c :: Spec.expand group (x :: rest)

/-- The match array is as `regexec` fills it: a group that did not take part
has both offsets -1, any other lies inside the string. -/
def Spec.match_ok (saslname : List Nat) (sr_strings : List regmatch_t) : Prop :=
  ∀ d, ((sr_string sr_strings d).rm_so = -1 ∧ (sr_string sr_strings d).rm_eo = -1) ∨
    (0 ≤ (sr_string sr_strings d).rm_so ∧
      (sr_string sr_strings d).rm_so ≤ (sr_string sr_strings d).rm_eo ∧
      (sr_string sr_strings d).rm_eo ≤ (saslname.length : Int))

end Sasl

/-! # Chaining of referrals (`servers/slapd/back-ldap/chain.c`)

The overlay is modelled on the fields of `Operation` and `SlapReply` that
`chain.c` reads or writes.  Pointers that the code only saves, compares and
restores are tags; the entry points of the remote client (`lback`), the URL
library and the frontend are collaborators, taken as functions that may change
`*op` and `*rs`.  Every call of a collaborator that acts on the operation is
recorded, in order, with the arguments it was given. -/

namespace Chain

/-- Modelled from the spec: the outcome code `Referral` of `ldap.h` (missing);
the number is that of the LDAP protocol. -/
def LDAP_REFERRAL : Int := 10

/-- Modelled from the spec: the return value `Continue` of a callback,
`SLAP_CB_CONTINUE` of `slap.h` (missing). -/
def SLAP_CB_CONTINUE : Int := 32768

/-- Modelled from the spec: `SLAPD_ABANDON` of `slap.h` (missing). -/
def SLAPD_ABANDON : Int := -1

/-- Modelled from the spec: `LDAP_SCOPE_DEFAULT` of `ldap.h` (missing). -/
def LDAP_SCOPE_DEFAULT : Int := -1

/-- Modelled from the spec: the tag of a bind request, from `ldap.h` (missing);
the tags have the numbers of the LDAP protocol. -/
def LDAP_REQ_BIND : Nat := 96

/-- Modelled from the spec: the tag of a search request, from `ldap.h`
(missing). -/
def LDAP_REQ_SEARCH : Nat := 99

/-- Modelled from the spec: the tag of a modify request, from `ldap.h`
(missing). -/
def LDAP_REQ_MODIFY : Nat := 102

/-- Modelled from the spec: the tag of an add request, from `ldap.h`
(missing). -/
def LDAP_REQ_ADD : Nat := 104

/-- Modelled from the spec: the tag of a delete request, from `ldap.h`
(missing). -/
def LDAP_REQ_DELETE : Nat := 74

/-- Modelled from the spec: the tag of a modify-DN request, from `ldap.h`
(missing). -/
def LDAP_REQ_MODRDN : Nat := 108

/-- Modelled from the spec: the tag of a compare request, from `ldap.h`
(missing). -/
def LDAP_REQ_COMPARE : Nat := 110

/-- Modelled from the spec: the tag of an extended request, from `ldap.h`
(missing). -/
def LDAP_REQ_EXTENDED : Nat := 119

/-- Modelled from the spec: the reply kinds, `slap_reply_t` of `slap.h`
(missing): result, SASL, extended, entry (`REP_SEARCH`) and referral entry
(`REP_SEARCHREF`). -/
inductive slap_reply_t where
  | REP_RESULT
  | REP_SASL
  | REP_EXTENDED
  | REP_SEARCH
  | REP_SEARCHREF
deriving DecidableEq, Repr

/-- The fields of `struct ldapinfo` (`back-ldap.h`): the URL and, as one
value, the rest, which `chain.c` copies but does not read. -/
structure ldapinfo where
  url : Option (List Nat)
  rest : Nat
deriving DecidableEq, Repr

/-- The values `op->o_bd->be_private` takes: the pointer the caller left
there, the address of the local `li`, and `on->on_bi.bi_private`. -/
inductive be_private_t where
  | caller (p : Nat)
  | li
  | bi_private
deriving DecidableEq, Repr

/-- The values `op->o_callback` takes: NULL, a callback chain of the caller,
and the address of the local `sc2`, whose `sc_response` is
`ldap_chain_cb_response`. -/
inductive slap_callback_p where
  | null
  | caller (sc : Nat)
  | sc2
deriving DecidableEq, Repr

/-- An attribute of an entry. -/
structure Attribute where
  a_desc : AttributeDescription
  a_vals : List Sasl.berval
deriving DecidableEq, Repr

/-- The fields of `Entry` that `chain.c` reads: the name, the attribute list
(NULL is the empty list) and `e_private`. -/
structure Entry where
  e_name : Sasl.berval
  e_attrs : List Attribute
  e_private : Option Nat
deriving DecidableEq, Repr

/-- The fields of `Operation` that `chain.c` reads or writes; `be_private` is
`op->o_bd->be_private`, `ora_e` and `ora_modlist` are those of an add
request. -/
structure Operation where
  o_tag : Nat
  be_private : be_private_t
  o_callback : slap_callback_p
  o_do_not_cache : Nat
  o_ndn : Sasl.berval
  o_req_dn : Sasl.berval
  o_req_ndn : Sasl.berval
  o_conn : Option Nat
  ora_e : Entry
  ora_modlist : Nat
deriving DecidableEq, Repr

/-- The fields of `SlapReply` that `chain.c` reads or writes.  `sr_ref` is
NULL (`none`) or an array of bervals, listed up to its terminator. -/
structure SlapReply where
  sr_type : slap_reply_t
  sr_err : Int
  sr_text : Option (List Nat)
  sr_ref : Option (List Sasl.berval)
  sr_entry : Option Entry
deriving DecidableEq, Repr

/-- The fields of `LDAPURLDesc` that make up `proto://[host][:port]/`, and
those `chain.c` overwrites before it writes the URL out again. -/
structure LDAPURLDesc where
  lud_scheme : List Nat
  lud_host : List Nat
  lud_port : Nat
  lud_dn : Option (List Nat)
  lud_scope : Int
deriving DecidableEq, Repr

/-- The entry points of the remote client, `lback->bi_...`. -/
inductive EntryPoint where
  | bi_op_bind
  | bi_op_add
  | bi_op_delete
  | bi_op_modrdn
  | bi_op_modify
  | bi_op_compare
  | bi_op_search
  | bi_extended
deriving DecidableEq, Repr

/-- The collaborators of `chain.c`.
* `ldap_url_parse_ext url` gives the descriptor or the error code; its
  argument is NULL when the referral array is empty.
* `ldap_url_desc2str` gives the string or NULL.
* `slap_mods2entry modlist e text` gives the return code, the entry and
  `*text` afterwards.
* `lback f info op rs` is the entry point `f` of the remote client called on
  `op` and `rs`, with `info` the `struct ldapinfo` that
  `op->o_bd->be_private` points to; it gives the return value, `*op` and `*rs`.
* `send_ldap_result` and `send_ldap_extended` are those of the frontend. -/
structure Env where
  ldap_url_parse_ext : Option (List Nat) → Except Nat LDAPURLDesc
  ldap_url_desc2str : LDAPURLDesc → Option (List Nat)
  slap_mods2entry : Nat → Entry → Option (List Nat) → Int × Entry × Option (List Nat)
  lback : EntryPoint → ldapinfo → Operation → SlapReply → Int × Operation × SlapReply
  send_ldap_result : Operation → SlapReply → Operation × SlapReply
  send_ldap_extended : Operation → SlapReply → Operation × SlapReply

/-- A recorded call, with the arguments as they were when it was made. -/
inductive Call where
  | lback (f : EntryPoint) (info : ldapinfo) (op : Operation) (rs : SlapReply)
  | send_ldap_result (op : Operation) (rs : SlapReply)
  | send_ldap_extended (op : Operation) (rs : SlapReply)
deriving DecidableEq, Repr

/-- The global `slap_empty_bv`: the empty string, not NULL. -/
def slap_empty_bv : Sasl.berval := { bv_len := 0, bv_val := some [] }

/-- Modelled from the spec: `ber_str2bv_x (s, 0, 1, bv, ctx)` of liblber is
missing; it stores a copy of the C string `s` and its length in `*bv`, and
leaves `*bv` alone when `s` is NULL. -/
def ber_str2bv_x (s : Option (List Nat)) (bv : Sasl.berval) : Sasl.berval :=
  match s with
  | none => bv
  | some str => { bv_len := strlen str, bv_val := some (cstr str) }

/-- Modelled from the spec: `ber_dupbv_x (dst, src, ctx)` of liblber is
missing; it copies the value, a NULL value gives the empty berval. -/
def ber_dupbv_x (src : Sasl.berval) : Sasl.berval := Sasl.ber_dupbv src

/-! ## `ldap_chain_response` -/

/-- The state when the loop over the references stops: `rc`, `*op`, `*rs`,
the references kept (`newref`, empty for NULL) and the calls made. -/
structure SearchRef where
  rc : Int
  op : Operation
  rs : SlapReply
  newref : List Sasl.berval
  calls : List Call
deriving DecidableEq, Repr

/-- The `struct ldapinfo` the remote client finds behind
`op->o_bd->be_private` while a reference is chased: when the URL of `*lip` is
NULL it is the local copy `li` with the URL just written out, else `*lip`
itself (the URL stored in `li` is then not seen). -/
def searchref_info (lip : ldapinfo) (url : List Nat) : ldapinfo :=
  if lip.url = none then { lip with url := some url } else lip

/-- The operation as the search of one reference gets it (lines 260-264):
the target DN is the DN of the reference and the normalized target DN a copy
of it. -/
def searchref_op (srv : LDAPURLDesc) (op : Operation) : Operation :=
  { op with o_req_dn := ber_str2bv_x srv.lud_dn op.o_req_dn,
            o_req_ndn := ber_dupbv_x (ber_str2bv_x srv.lud_dn op.o_req_dn) }

/-- The loop over the references of a referral entry (lines 241-307), from
`curr` on.  The loop ends at the terminator of the array with `rc` 0, and
with `rc` 1 at the first reference that does not parse, cannot be written
out, or whose search returns non-zero.  A reference whose search returned 0
with an outcome other than success is copied to `newref`. -/
def ldap_chain_searchref (X : Env) (lip : ldapinfo) :
    List Sasl.berval → Operation → SlapReply → List Sasl.berval → List Call → SearchRef
  | [], op, rs, newref, calls =>
    { rc := 0, op := op, rs := rs, newref := newref, calls := calls }
  | curr :: rest, op, rs, newref, calls =>
    match curr.bv_val with
    | none => { rc := 0, op := op, rs := rs, newref := newref, calls := calls }
    | some s =>
      match X.ldap_url_parse_ext (some s) with
      | .error _ => { rc := 1, op := op, rs := rs, newref := newref, calls := calls }
      | .ok srv =>
        match X.ldap_url_desc2str
            { srv with lud_dn := some [], lud_scope := LDAP_SCOPE_DEFAULT } with
        | none => { rc := 1, op := op, rs := rs, newref := newref, calls := calls }
        | some url =>
          if (X.lback EntryPoint.bi_op_search (searchref_info lip url)
                (searchref_op srv op) rs).1 ≠ 0 then
            { rc := 1,
              op := (X.lback EntryPoint.bi_op_search (searchref_info lip url)
                (searchref_op srv op) rs).2.1,
              rs := (X.lback EntryPoint.bi_op_search (searchref_info lip url)
                (searchref_op srv op) rs).2.2,
              newref := newref,
              calls := calls ++ [Call.lback EntryPoint.bi_op_search (searchref_info lip url)
                (searchref_op srv op) rs] }
          else
            ldap_chain_searchref X lip rest
              (X.lback EntryPoint.bi_op_search (searchref_info lip url)
                (searchref_op srv op) rs).2.1
              (X.lback EntryPoint.bi_op_search (searchref_info lip url)
                (searchref_op srv op) rs).2.2
              (if (X.lback EntryPoint.bi_op_search (searchref_info lip url)
                    (searchref_op srv op) rs).2.2.sr_err ≠ (LDAP_SUCCESS : Int)
                then newref ++ [Sasl.ber_dupbv curr] else newref)
              (calls ++ [Call.lback EntryPoint.bi_op_search (searchref_info lip url)
                (searchref_op srv op) rs])

/-- The state after the `switch` on the tag: `rc`, `*op`, `*rs`, the local
`ref` and the calls made. -/
structure Dispatch where
  rc : Int
  op : Operation
  rs : SlapReply
  ref : Option (List Sasl.berval)
  calls : List Call
deriving DecidableEq, Repr

/-- The branch of a search whose reply is a referral entry (lines 228-334);
`none` stands for the read of `curr[0]` through a NULL `ref`. -/
def ldap_chain_search_ref (X : Env) (lip : ldapinfo) (op : Operation) (rs : SlapReply)
    (ref : Option (List Sasl.berval)) : Option Dispatch :=
  match ref with
  | none => none
  | some refs =>
    let l := ldap_chain_searchref X lip refs
      { op with o_callback := slap_callback_p.sc2 }
      { rs with sr_type := slap_reply_t.REP_SEARCH } [] []
    some
      { rc := if l.newref ≠ [] ∧ l.rc = 0 then SLAP_CB_CONTINUE else l.rc,
        op := { l.op with o_req_dn := op.o_req_dn, o_req_ndn := op.o_req_ndn },
        rs := { l.rs with sr_type := slap_reply_t.REP_SEARCHREF, sr_entry := none },
        ref := if l.newref ≠ [] ∧ l.rc = 0 then some l.newref else some refs,
        calls := l.calls }

/-- One entry point of the remote client called on `op` and `rs` as they
are. -/
def ldap_chain_call (X : Env) (f : EntryPoint) (info : ldapinfo) (op : Operation)
    (rs : SlapReply) (ref : Option (List Sasl.berval)) : Dispatch :=
  { rc := (X.lback f info op rs).1, op := (X.lback f info op rs).2.1,
    rs := (X.lback f info op rs).2.2, ref := ref, calls := [Call.lback f info op rs] }

/-- The `switch` on the tag (lines 164-349).  `info` is the `struct ldapinfo`
behind `op->o_bd->be_private`. -/
def ldap_chain_dispatch (X : Env) (lip info : ldapinfo) (op : Operation) (rs : SlapReply)
    (ref : Option (List Sasl.berval)) : Option Dispatch :=
  if op.o_tag = LDAP_REQ_BIND then
    let r := X.lback EntryPoint.bi_op_bind info
      { op with o_req_ndn := slap_empty_bv, o_conn := none } rs
    some
      { rc := r.1, op := { r.2.1 with o_req_ndn := op.o_req_ndn, o_conn := op.o_conn },
        rs := r.2.2, ref := ref,
        calls := [Call.lback EntryPoint.bi_op_bind info
          { op with o_req_ndn := slap_empty_bv, o_conn := none } rs] }
  else if op.o_tag = LDAP_REQ_ADD then
    if op.ora_e.e_attrs = [] then
      let m := X.slap_mods2entry op.ora_modlist op.ora_e rs.sr_text
      let op1 : Operation := { op with ora_e := m.2.1 }
      let rs1 : SlapReply := { rs with sr_err := m.1, sr_text := m.2.2 }
      if m.1 ≠ (LDAP_SUCCESS : Int) then
        some
          { rc := 1, op := (X.send_ldap_result op1 rs1).1, rs := (X.send_ldap_result op1 rs1).2,
            ref := ref, calls := [Call.send_ldap_result op1 rs1] }
      else some (ldap_chain_call X EntryPoint.bi_op_add info op1 rs1 ref)
    else some (ldap_chain_call X EntryPoint.bi_op_add info op rs ref)
  else if op.o_tag = LDAP_REQ_DELETE then
    some (ldap_chain_call X EntryPoint.bi_op_delete info op rs ref)
  else if op.o_tag = LDAP_REQ_MODRDN then
    some (ldap_chain_call X EntryPoint.bi_op_modrdn info op rs ref)
  else if op.o_tag = LDAP_REQ_MODIFY then
    some (ldap_chain_call X EntryPoint.bi_op_modify info op rs ref)
  else if op.o_tag = LDAP_REQ_COMPARE then
    some (ldap_chain_call X EntryPoint.bi_op_compare info op rs ref)
  else if op.o_tag = LDAP_REQ_SEARCH then
    if rs.sr_type = slap_reply_t.REP_SEARCHREF then ldap_chain_search_ref X lip op rs ref
    else some (ldap_chain_call X EntryPoint.bi_op_search info op rs ref)
  else if op.o_tag = LDAP_REQ_EXTENDED then
    let r := ldap_chain_call X EntryPoint.bi_extended info op rs ref
    if r.rc ≠ SLAPD_ABANDON then
      some
        { r with op := (X.send_ldap_extended r.op r.rs).1,
                 rs := (X.send_ldap_extended r.op r.rs).2,
                 calls := r.calls ++ [Call.send_ldap_extended r.op r.rs] }
    else some r
  else some { rc := SLAP_CB_CONTINUE, op := op, rs := rs, ref := ref, calls := [] }

/-- What `ldap_chain_response` leaves behind: the return value, `*op`, `*rs`
and the calls made, in order. -/
structure Response where
  rc : Int
  op : Operation
  rs : SlapReply
  calls : List Call
deriving DecidableEq, Repr

/-- The `switch` followed by the restoration of the saved fields (lines
350-360): `cache`, `private`, `sc` and `ndn` are the values `op` had at
entry. -/
def ldap_chain_finish (X : Env) (lip info : ldapinfo) (op0 op : Operation) (rs : SlapReply)
    (ref : Option (List Sasl.berval)) : Option Response :=
  match ldap_chain_dispatch X lip info op rs ref with
  | none => none
  | some d =>
    some
      { rc := d.rc,
        op := { d.op with o_do_not_cache := op0.o_do_not_cache, be_private := op0.be_private,
                          o_callback := op0.o_callback, o_ndn := op0.o_ndn },
        rs := { d.rs with sr_ref := d.ref },
        calls := d.calls }

/-- `ldap_chain_response (op, rs)`, with `lip` the `struct ldapinfo` of the
overlay (`on->on_bi.bi_private`); `none` stands for a read through a NULL
`ref`.  The two `return 1` of lines 135 and 150 leave `*op` and `*rs` as
they are at that point. -/
def ldap_chain_response (X : Env) (lip : ldapinfo) (op : Operation) (rs : SlapReply) :
    Option Response :=
  if rs.sr_err ≠ LDAP_REFERRAL ∧ rs.sr_type ≠ slap_reply_t.REP_SEARCHREF then
    some { rc := SLAP_CB_CONTINUE, op := op, rs := rs, calls := [] }
  else
    match lip.url with
    | some _ =>
      ldap_chain_finish X lip lip op
        { op with o_callback := slap_callback_p.null, be_private := be_private_t.bi_private }
        { rs with sr_ref := none } rs.sr_ref
    | none =>
      if rs.sr_type ≠ slap_reply_t.REP_SEARCHREF then
        match rs.sr_ref with
        | none => none
        | some refs =>
          match X.ldap_url_parse_ext ((refs.head?).bind (fun r => r.bv_val)) with
          | .error _ =>
            some
              { rc := 1,
                op := { op with o_callback := slap_callback_p.null, o_do_not_cache := 1,
                                be_private := be_private_t.li },
                rs := { rs with sr_ref := none }, calls := [] }
          | .ok srv =>
            match X.ldap_url_desc2str
                { srv with lud_dn := some [], lud_scope := LDAP_SCOPE_DEFAULT } with
            | none =>
              some
                { rc := 1,
                  op := { op with o_callback := slap_callback_p.null, o_do_not_cache := 1,
                                  be_private := be_private_t.li },
                  rs := { rs with sr_ref := none }, calls := [] }
            | some url =>
              ldap_chain_finish X lip { lip with url := some url } op
                { op with o_callback := slap_callback_p.null, o_do_not_cache := 1,
                          be_private := be_private_t.li }
                { rs with sr_ref := none } rs.sr_ref
      else
        ldap_chain_finish X lip lip op
          { op with o_callback := slap_callback_p.null, o_do_not_cache := 1,
                    be_private := be_private_t.li }
          { rs with sr_ref := none } rs.sr_ref

end Chain

/-! ## A small remote client for the worked examples -/

namespace Chain.Sample

/-- A URL parser for the examples: `ldap://<host>/<dn>`; anything else is an
error. -/
def ldap_url_parse_ext (s : Option (List Nat)) : Except Nat LDAPURLDesc :=
  match s with
  | none => .error 1
  | some u =>
    if u.take 7 = cs "ldap://" then
      .ok { lud_scheme := cs "ldap", lud_host := (u.drop 7).takeWhile (fun c => c != 47),
            lud_port := 389,
            lud_dn := some (((u.drop 7).dropWhile (fun c => c != 47)).drop 1),
            lud_scope := LDAP_SCOPE_DEFAULT }
    else .error 3

/-- The environment of the examples: the remote client answers every request
with success and changes nothing else. -/
def env : Env :=
  { ldap_url_parse_ext := ldap_url_parse_ext,
    ldap_url_desc2str := fun d => some (d.lud_scheme ++ cs "://" ++ d.lud_host ++ cs "/"),
    slap_mods2entry := fun _ e text => (0, e, text),
    lback := fun _ _ op rs => (0, op, { rs with sr_err := 0 }),
    send_ldap_result := fun op rs => (op, rs),
    send_ldap_extended := fun op rs => (op, rs) }

/-- A search of `uid=alice,dc=a` with a callback chain of the caller. -/
def op : Operation :=
  { o_tag := LDAP_REQ_SEARCH, be_private := be_private_t.caller 1,
    o_callback := slap_callback_p.caller 2, o_do_not_cache := 0,
    o_ndn := Sasl.Sample.bv "uid=alice,dc=a", o_req_dn := Sasl.Sample.bv "dc=a",
    o_req_ndn := Sasl.Sample.bv "dc=a", o_conn := some 3,
    ora_e := { e_name := { bv_len := 0, bv_val := none }, e_attrs := [], e_private := none },
    ora_modlist := 0 }

/-- A search result with outcome success and a referral list left in it. -/
def rs : SlapReply :=
  { sr_type := slap_reply_t.REP_RESULT, sr_err := 0, sr_text := none,
    sr_ref := some [Sasl.Sample.bv "ldap://peer.example/dc=a"], sr_entry := none }

end Chain.Sample

/-! ## The offset array: what is written and what is read -/

namespace Sasl

/-- The entries of `sr_offset` written when the scan of the replace template
(lines 166-195) ends, in index order: the same loop as
`slap_sasl_regexp_scan`, which also keeps what was written before the
`return` of a refused template.  Entry `k` of the list is the write to
`sr_offset[k]`. -/
def slap_sasl_regexp_scan_writes : List Nat → Nat → List Int → List Int
  | [], pos, off => off ++ [(pos : Int), -1]
  | [c], pos, off =>
    if c = 36 then
      if off.length = SASLREGEX_REPLACE then off
      else slap_sasl_regexp_scan_writes [] (pos + 1) (off ++ [(pos : Int)])
    else slap_sasl_regexp_scan_writes [] (pos + 1) off
  | c :: x :: rest, pos, off =>
    if c = 92 then slap_sasl_regexp_scan_writes rest (pos + 2) off
    else if c = 36 then
      if off.length = SASLREGEX_REPLACE then off
      else slap_sasl_regexp_scan_writes (x :: rest) (pos + 1) (off ++ [(pos : Int)])
    else slap_sasl_regexp_scan_writes (x :: rest) (pos + 1) off

/-- The indices of `sr_offset` that a loop of `slap_sasl_regexp` reads (lines
249-259 and 266-281 read the same entries): `sr_offset[n]`, and when it is
not negative `sr_offset[n-1]` and `sr_offset[n+1]`; the loop goes on with
`n + 1` when `sr_offset[n+1]` is not negative.  The list holds `sr_offset[n]`,
`sr_offset[n+1]`, ... as far as they were written; a read behind them is
listed and ends the walk, its value being unknown. -/
def slap_sasl_regexp_reads : Nat → List Int → List Nat
  | n, [] => [n]
  | n, cur :: rest =>
    if cur < 0 then [n]
    else
      n :: (n - 1) :: (n + 1) ::
        (match rest with
         | [] => []
         | next :: _ => if next < 0 then [] else slap_sasl_regexp_reads (n + 1) rest)

/-- The number of backslashes that stand immediately before position `i`. -/
def Spec.backslashes_before (t : List Nat) (i : Nat) : Nat :=
  ((t.take i).reverse.takeWhile (fun c => c == 92)).length

/-- The positions of the `$` of a template that are not escaped, read without
a scan: a character is escaped when the run of backslashes immediately before
it has odd length (each backslash of the run escapes the next, in pairs from
the left). -/
def Spec.unescaped_dollars (t : List Nat) : List Nat :=
  (List.range t.length).filter
    (fun i => t.getD i 0 == 36 && Spec.backslashes_before t i % 2 == 0)

end Sasl

/-! ## `ldap_chain_cb_response` -/

namespace Chain

/-- The loop of `ldap_chain_cb_response` over the attribute list (lines
67-82): the first attribute `a` with `ad_cmp (a->a_desc, si_ad_entryDN) == 0`
is unlinked and freed, and the loop ends.  `ad_cmp` is a macro of `slap.h`
(missing) and `si_ad_entryDN` a field of `slap_schema`: both are
parameters. -/
def ldap_chain_cb_strip (ad_cmp : AttributeDescription → AttributeDescription → Int)
    (si_ad_entryDN : AttributeDescription) : List Attribute → List Attribute
  | [] => []
  | a :: rest =>
    if ad_cmp a.a_desc si_ad_entryDN = 0 then rest
    else a :: ldap_chain_cb_strip ad_cmp si_ad_entryDN rest

/-- What `ldap_chain_cb_response` leaves behind: the return value, `*op` and
`*rs`. -/
structure CbResponse where
  rc : Int
  op : Operation
  rs : SlapReply
deriving DecidableEq, Repr

/-- `ldap_chain_cb_response (op, rs)`; `none` stands for the failed
`assert (op->o_tag == LDAP_REQ_SEARCH)` and for a search-entry reply whose
`sr_entry` is NULL. -/
def ldap_chain_cb_response (ad_cmp : AttributeDescription → AttributeDescription → Int)
    (si_ad_entryDN : AttributeDescription) (op : Operation) (rs : SlapReply) :
    Option CbResponse :=
  if op.o_tag ≠ LDAP_REQ_SEARCH then none
  else if rs.sr_type = slap_reply_t.REP_SEARCH then
    match rs.sr_entry with
    | none => none
    | some e =>
      some
        { rc := SLAP_CB_CONTINUE, op := op,
          rs := { rs with
                  sr_entry := some
                    { e with e_attrs := ldap_chain_cb_strip ad_cmp si_ad_entryDN e.e_attrs } } }
  else some { rc := 0, op := op, rs := rs }

/-- The outcome of a recorded call of a remote-client entry point: the return
value and `rs->sr_err` afterwards (0 and success for a call of the
frontend). -/
def Spec.call_rc (X : Env) : Call → Int
  | Call.lback f info op rs => (X.lback f info op rs).1
  | _ => 0

/-- Whether a recorded remote call ended with an outcome other than
success. -/
def Spec.call_failed (X : Env) : Call → Bool
  | Call.lback f info op rs => decide ((X.lback f info op rs).2.2.sr_err ≠ (LDAP_SUCCESS : Int))
  | _ => false

/-- The references whose remote search ended with an outcome other than
success, in their order; `calls` lists the searches, the `i`-th being that of
the `i`-th reference. -/
def Spec.kept (X : Env) : List Sasl.berval → List Call → List Sasl.berval
  | u :: refs, c :: calls =>
    if Spec.call_failed X c then u :: Spec.kept X refs calls else Spec.kept X refs calls
  | _, _ => []

/-- Whether the description of an attribute is `entryDN`: `ad_cmp` gives 0. -/
def Spec.is_entryDN (ad_cmp : AttributeDescription → AttributeDescription → Int)
    (si_ad_entryDN : AttributeDescription) (a : Attribute) : Bool :=
  decide (ad_cmp a.a_desc si_ad_entryDN = 0)

end Chain

namespace Chain.Sample

/-- The description `entryDN` of the examples. -/
def ad_entryDN : AttributeDescription :=
  { ad_addr := 7, ad_type := { sat_oid := cs "1.3.6.1.1.20", sat_cname := cs "entryDN",
                               sat_syntax := 12 },
    ad_cname := { bv_len := 7, bv_val := cs "entryDN" },
    ad_lang := { bv_len := 0, bv_val := [] }, ad_flags := 0 }

/-- A comparison of descriptions for the examples: 0 for equal descriptions,
1 otherwise. -/
def ad_cmp (l r : AttributeDescription) : Int := if l = r then 0 else 1

/-- An entry as the remote server returns it, with `entryDN` between `cn` and
`name`. -/
def entry : Entry :=
  { e_name := Sasl.Sample.bv "uid=alice,dc=a",
    e_attrs := [{ a_desc := Slapd.Sample.ad_cn, a_vals := [Sasl.Sample.bv "alice"] },
                { a_desc := ad_entryDN, a_vals := [Sasl.Sample.bv "uid=alice,dc=a"] },
                { a_desc := Slapd.Sample.ad_name, a_vals := [Sasl.Sample.bv "Alice"] }],
    e_private := some 5 }

end Chain.Sample

namespace Chain

/-- The collaborators that are handed the operation leave its target DN and
its normalized target DN as they got them. -/
def Spec.keeps_req_dn (X : Env) : Prop :=
  (∀ f info op rs, (X.lback f info op rs).2.1.o_req_dn = op.o_req_dn ∧
    (X.lback f info op rs).2.1.o_req_ndn = op.o_req_ndn) ∧
  (∀ op rs, (X.send_ldap_result op rs).1.o_req_dn = op.o_req_dn ∧
    (X.send_ldap_result op rs).1.o_req_ndn = op.o_req_ndn) ∧
  (∀ op rs, (X.send_ldap_extended op rs).1.o_req_dn = op.o_req_dn ∧
    (X.send_ldap_extended op rs).1.o_req_ndn = op.o_req_ndn)

/-- The recorded call `c` is the search of the reference `u`: `u` parses, its
URL without the DN is written out, and `c` is a call of the remote search for
that URL with the DN of `u` as target. -/
def Spec.search_of (X : Env) (lip : ldapinfo) (u : Sasl.berval) (c : Call) : Prop :=
  ∃ s srv url op rs, u.bv_val = some s ∧ X.ldap_url_parse_ext (some s) = .ok srv ∧
    X.ldap_url_desc2str { srv with lud_dn := some [], lud_scope := LDAP_SCOPE_DEFAULT }
      = some url ∧
    c = Call.lback EntryPoint.bi_op_search (searchref_info lip url) (searchref_op srv op) rs

end Chain

namespace Chain.Sample

/-- A remote client that answers with success, except for the server `p2`,
where every request ends with the outcome noSuchObject (32). -/
def env_p2 : Env :=
  { env with
    lback := fun _ info op rs =>
      (0, op, { rs with sr_err := if info.url = some (cs "ldap://p2/") then 32 else 0 }) }

/-- A referral entry of a search with the references `ldap://p1/` and
`ldap://p2/`. -/
def rs_p1_p2 : SlapReply :=
  { sr_type := slap_reply_t.REP_SEARCHREF, sr_err := 0, sr_text := none,
    sr_ref := some [Sasl.Sample.bv "ldap://p1/", Sasl.Sample.bv "ldap://p2/"],
    sr_entry := none }

end Chain.Sample

/-! # Theorems -/

/-! ## Character validation -/

theorem ad_keystring_loop_eq_zero (l : List Nat) :
    ad_keystring_loop l = 0 ↔ ∀ c ∈ l, AD_CHAR c = true := by
  induction l with
  | nil => simp [ad_keystring_loop]
  | cons c rest ih =>
    cases h : AD_CHAR c <;> simp [ad_keystring_loop, h, ih]

theorem ad_keystring_eq_zero (bv : List Nat) :
    ad_keystring bv = 0 ↔ bv ≠ [] ∧ ∀ c ∈ bv, AD_CHAR c = true := by
  cases bv with
  | nil => simp [ad_keystring, AD_CHAR]
  | cons c rest =>
    cases h : AD_CHAR c <;> simp [ad_keystring, h, ad_keystring_loop_eq_zero]

theorem ad_keystring_ne_zero (bv : List Nat) (hne : bv ≠ []) :
    ad_keystring bv ≠ 0 ↔ ∃ c ∈ bv, AD_CHAR c = false := by
  rw [Ne, ad_keystring_eq_zero]
  simp [hne]

/-- The diagnostics the option loop can produce. -/
theorem slap_bv2ad_options_error (S : Schema) (opts : List (List Nat))
    (desc : AttributeDescription) (e : String)
    (h : slap_bv2ad_options S desc opts = .error e) :
    e = "option \"binary\" specified multiple times" ∨
    e = "option \"binary\" with type not supported" ∨
    e = "multiple language tag options specified" ∨
    e = "unrecognized option" := by
  induction opts generalizing desc with
  | nil => simp [slap_bv2ad_options] at h
  | cons name rest ih =>
    simp only [slap_bv2ad_options] at h
    split_ifs at h with h1 h2 h3 h4 h5
    · simp at h; simp [← h]
    · simp at h; simp [← h]
    · exact ih _ h
    · simp at h; simp [← h]
    · exact ih _ h
    · simp at h; simp [← h]

theorem slap_bv2ad_text_inappropriate (S : Schema) (reg : Registry) (bv : List Nat) :
    (slap_bv2ad S reg (some bv)).text
        = some "attribute description contains inappropriate characters"
      ↔ bv ≠ [] ∧ ∃ c ∈ bv, AD_CHAR c = false := by
  by_cases hne : bv = []
  · subst hne
    simp [slap_bv2ad, slap_bv2ad_parse, Resolved.fail]
  · have hlen : bv.length ≠ 0 := by simpa using hne
    by_cases hk : ad_keystring bv = 0
    · have hall := ((ad_keystring_eq_zero bv).1 hk).2
      have hno : ¬ ∃ c ∈ bv, AD_CHAR c = false := by
        rintro ⟨c, hc, hf⟩
        rw [hall c hc] at hf
        exact Bool.noConfusion hf
      simp only [slap_bv2ad, slap_bv2ad_parse, hlen, hk, if_false, ne_eq, not_true_eq_false]
      constructor
      · intro h
        exfalso
        cases hf : S.at_find (ad_split (cstr bv)).1 with
        | none =>
          simp only [hf, Resolved.fail] at h
          revert h
          decide
        | some t =>
          simp only [hf] at h
          split at h
          · rename_i e he
            rcases slap_bv2ad_options_error S _ _ e he with rfl | rfl | rfl | rfl <;>
              · simp only [Resolved.fail] at h
                revert h
                decide
          · simp [slap_bv2ad_intern] at h
            split at h <;> simp at h
      · rintro ⟨_, h⟩
        exact absurd h hno
    · simp only [slap_bv2ad, slap_bv2ad_parse, hlen, hk, if_false, ne_eq, not_false_eq_true,
        if_true, Resolved.fail, true_iff]
      exact ⟨hne, (ad_keystring_ne_zero bv hne).1 hk⟩

theorem slap_bv2undef_ad_text_inappropriate (S : Schema) (reg : Registry) (bv : List Nat)
    (ad : Option AttributeDescription) :
    (slap_bv2undef_ad S reg (some bv) ad).text
        = some "attribute description contains inappropriate characters"
      ↔ bv ≠ [] ∧ ∃ c ∈ bv, AD_CHAR c = false := by
  by_cases hne : bv = []
  · subst hne
    simp [slap_bv2undef_ad, Resolved.fail]
  · have hlen : bv.length ≠ 0 := by simpa using hne
    by_cases hk : ad_keystring bv = 0
    · have hall := ((ad_keystring_eq_zero bv).1 hk).2
      have hno : ¬ ∃ c ∈ bv, AD_CHAR c = false := by
        rintro ⟨c, hc, hf⟩
        rw [hall c hc] at hf
        exact Bool.noConfusion hf
      simp only [slap_bv2undef_ad, hlen, hk, if_false, ne_eq, not_true_eq_false]
      constructor
      · intro h
        simp at h
      · rintro ⟨_, h⟩
        exact absurd h hno
    · simp only [slap_bv2undef_ad, hlen, hk, if_false, ne_eq, not_false_eq_true,
        if_true, Resolved.fail, true_iff]
      exact ⟨hne, (ad_keystring_ne_zero bv hne).1 hk⟩

theorem slap_bv2ad_rtn_of_text (S : Schema) (reg : Registry) (bv : Option (List Nat))
    (e : String) (h : (slap_bv2ad S reg bv).text = some e) :
    (slap_bv2ad S reg bv).rtn = LDAP_UNDEFINED_TYPE ∧ (slap_bv2ad S reg bv).ad = none ∧
      (slap_bv2ad S reg bv).reg = reg := by
  unfold slap_bv2ad at h ⊢
  split
  · simp [Resolved.fail]
  · rename_i desc hd
    rw [hd] at h
    simp only [slap_bv2ad_intern] at h
    split at h <;> simp at h

theorem slap_bv2undef_ad_rtn_of_text (S : Schema) (reg : Registry) (bv : Option (List Nat))
    (ad : Option AttributeDescription)
    (e : String) (h : (slap_bv2undef_ad S reg bv ad).text = some e) :
    (slap_bv2undef_ad S reg bv ad).rtn = LDAP_UNDEFINED_TYPE := by
  unfold slap_bv2undef_ad at h ⊢
  split
  · simp [Resolved.fail]
  · split_ifs with h1 h2
    · simp [Resolved.fail]
    · simp [Resolved.fail]
    · simp [h1, h2] at h

/-- C8: character validation.  `ad_keystring` passes (returns 0) exactly on the
non-empty values all of whose bytes are in the attribute-description class
(letters, digits, hyphen, semicolon).  `slap_bv2ad` and `slap_bv2undef_ad` fail
with code `LDAP_UNDEFINED_TYPE` and the text "attribute description contains
inappropriate characters" exactly on the non-empty values that hold a byte
outside the class, at whatever position; on every other value that text is not
produced. -/
theorem character_validation (S : Schema) (reg : Registry) (bv : List Nat)
    (ad : Option AttributeDescription) :
    (ad_keystring bv = 0 ↔ bv ≠ [] ∧ ∀ c ∈ bv, AD_CHAR c = true) ∧
    (∀ c, AD_CHAR c = true ↔
      ((97 ≤ c ∧ c ≤ 122) ∨ (65 ≤ c ∧ c ≤ 90) ∨ (48 ≤ c ∧ c ≤ 57) ∨ c = 45 ∨ c = 59)) ∧
    (((slap_bv2ad S reg (some bv)).rtn = LDAP_UNDEFINED_TYPE ∧
        (slap_bv2ad S reg (some bv)).text
          = some "attribute description contains inappropriate characters")
      ↔ bv ≠ [] ∧ ∃ c ∈ bv, AD_CHAR c = false) ∧
    (((slap_bv2undef_ad S reg (some bv) ad).rtn = LDAP_UNDEFINED_TYPE ∧
        (slap_bv2undef_ad S reg (some bv) ad).text
          = some "attribute description contains inappropriate characters")
      ↔ bv ≠ [] ∧ ∃ c ∈ bv, AD_CHAR c = false) := by
  refine ⟨ad_keystring_eq_zero bv, ?_, ?_, ?_⟩
  · intro c
    simp only [AD_CHAR, Bool.or_eq_true, Bool.and_eq_true, decide_eq_true_eq, beq_iff_eq]
    tauto
  · rw [← slap_bv2ad_text_inappropriate S reg bv]
    constructor
    · exact fun h => h.2
    · exact fun h => ⟨(slap_bv2ad_rtn_of_text S reg _ _ h).1, h⟩
  · rw [← slap_bv2undef_ad_text_inappropriate S reg bv ad]
    constructor
    · exact fun h => h.2
    · exact fun h => ⟨slap_bv2undef_ad_rtn_of_text S reg _ ad _ h, h⟩

/-! ## Subtype test -/

theorem cstr_nil : cstr [] = [] := rfl

theorem cstr_cons (x : Nat) (xs : List Nat) :
    cstr (x :: xs) = if x = 0 then [] else x :: cstr xs := by
  by_cases h : x = 0 <;> simp [cstr, List.takeWhile_cons, h]

theorem strcmp_eq_zero (a b : List Nat) : strcmp a b = 0 ↔ cstr a = cstr b := by
  induction a generalizing b with
  | nil =>
    cases b with
    | nil => simp [strcmp, cstr]
    | cons y ys =>
      by_cases hy : y = 0
      · simp [strcmp, cstr_cons, hy, cstr_nil]
      · simp [strcmp, cstr_cons, hy, cstr_nil]
  | cons x xs ih =>
    cases b with
    | nil =>
      by_cases hx : x = 0
      · simp [strcmp, cstr_cons, hx, cstr_nil]
      · simp [strcmp, cstr_cons, hx, cstr_nil]
    | cons y ys =>
      by_cases hxy : x = y
      · subst hxy
        by_cases hx : x = 0
        · simp [strcmp, cstr_cons, hx]
        · simp [strcmp, cstr_cons, hx, ih]
      · by_cases hx : x = 0
        · have hy : ¬ y = 0 := fun h => hxy (by rw [hx, h])
          simp [strcmp, cstr_cons, hx, hy, hxy]
          omega
        · by_cases hy : y = 0
          · simp [strcmp, cstr_cons, hx, hy, hxy]
          · simp [strcmp, cstr_cons, hx, hy, hxy]
            omega

theorem is_ad_subtype_eq_one (S : Schema) (sub super : AttributeDescription) :
    is_ad_subtype S sub super = 1 ↔
      S.is_at_subtype sub.ad_type super.ad_type = true ∧
      (super.ad_flags = 0 ∨ super.ad_flags = sub.ad_flags) ∧
      (super.ad_lang.bv_len = 0 ∨
        (sub.ad_lang.bv_len = super.ad_lang.bv_len ∧
          cstr super.ad_lang.bv_val = cstr sub.ad_lang.bv_val)) := by
  unfold is_ad_subtype
  simp only [ne_eq, strcmp_eq_zero]
  cases S.is_at_subtype sub.ad_type super.ad_type
  · simp
  · simp only [Bool.not_true, Bool.false_eq_true, if_false, true_and]
    split_ifs with h1 h2
    · simp only [zero_ne_one, false_iff]
      tauto
    · simp only [zero_ne_one, false_iff]
      tauto
    · simp only [true_iff]
      tauto

/-- C9: `is_ad_subtype (sub, super)` returns 1 (true) if and only if the type of
`sub` is a schema subtype of the type of `super`, and `super` has no flags or
the flags of the two are equal, and `super` has no language tag or the two
tags have equal length and are byte-equal; otherwise it returns 0.  In the
sample schema (`cn` below `name`) `cn;lang-en` is a subtype of `name`,
`name;lang-en` is not a subtype of `cn` and `cn` is not a subtype of
`name;lang-fr`. -/
theorem is_ad_subtype_spec (S : Schema) (sub super : AttributeDescription) :
    (is_ad_subtype S sub super = 1 ↔
      S.is_at_subtype sub.ad_type super.ad_type = true ∧
      (super.ad_flags = 0 ∨ super.ad_flags = sub.ad_flags) ∧
      (super.ad_lang.bv_len = 0 ∨
        (sub.ad_lang.bv_len = super.ad_lang.bv_len ∧
          cstr super.ad_lang.bv_val = cstr sub.ad_lang.bv_val))) ∧
    (is_ad_subtype S sub super = 1 ∨ is_ad_subtype S sub super = 0) ∧
    Sample.is_subtype "cn;lang-en" "name" = some 1 ∧
    Sample.is_subtype "name;lang-en" "cn" = some 0 ∧
    Sample.is_subtype "cn" "name;lang-fr" = some 0 := by
  refine ⟨is_ad_subtype_eq_one S sub super, ?_, by decide, by decide, by decide⟩
  unfold is_ad_subtype
  split_ifs <;> simp

/-- C10: when the schema relation `is_at_subtype` is reflexive,
`is_ad_subtype (a, a)` is true for every description `a`; and whenever
`is_ad_subtype (a, b)` is true, the type of `a` is a schema subtype of the type
of `b`. -/
theorem is_ad_subtype_refl_and_type (S : Schema)
    (hrefl : ∀ t, S.is_at_subtype t t = true) (a b : AttributeDescription) :
    is_ad_subtype S a a = 1 ∧
    (is_ad_subtype S a b = 1 → S.is_at_subtype a.ad_type b.ad_type = true) := by
  constructor
  · rw [is_ad_subtype_eq_one]
    exact ⟨hrefl _, Or.inr rfl, Or.inr ⟨rfl, rfl⟩⟩
  · intro h
    exact ((is_ad_subtype_eq_one S a b).1 h).1

theorem is_ad_subtype_refl_and_type_witness :
    is_ad_subtype Sample.schema Sample.ad_cn Sample.ad_cn = 1 ∧
    Sample.schema.is_at_subtype Sample.ad_cn.ad_type Sample.ad_name.ad_type = true :=
  ⟨(is_ad_subtype_refl_and_type Sample.schema (by intro t; simp [Sample.schema])
      Sample.ad_cn Sample.ad_name).1,
   (is_ad_subtype_refl_and_type Sample.schema (by intro t; simp [Sample.schema])
      Sample.ad_cn Sample.ad_name).2 (by decide)⟩

/-! ## Case folding and comparison -/

theorem TOLOWER_idem (c : Nat) : TOLOWER (TOLOWER c) = TOLOWER c := by
  by_cases h : 65 ≤ c ∧ c ≤ 90
  · have h2 : ¬ (65 ≤ c + 32 ∧ c + 32 ≤ 90) := by omega
    simp only [TOLOWER, h, h2, and_self, if_true, if_false]
  · simp only [TOLOWER, h, if_false]

theorem TOLOWER_eq_zero (c : Nat) : TOLOWER c = 0 ↔ c = 0 := by
  unfold TOLOWER
  split_ifs with h
  · constructor
    · intro h1
      exact h1.elim
    · intro h1
      omega
  · rfl

theorem headD_map_TOLOWER (s : List Nat) : (s.map TOLOWER).headD 0 = TOLOWER (s.headD 0) := by
  cases s <;> simp [TOLOWER]

/-- The comparison reads its second argument through `TOLOWER` only. -/
theorem strncasecmp_map_right (s1 s2 : List Nat) (n : Nat) :
    strncasecmp s1 (s2.map TOLOWER) n = strncasecmp s1 s2 n := by
  induction n generalizing s1 s2 with
  | zero => simp [strncasecmp]
  | succ n ih =>
    simp only [strncasecmp, headD_map_TOLOWER, TOLOWER_idem]
    rw [← List.map_tail, ih]

theorem strncasecmp_self (s : List Nat) (n : Nat) : strncasecmp s s n = 0 := by
  induction n generalizing s with
  | zero => simp [strncasecmp]
  | succ n ih => simp [strncasecmp, ih]

/-- Against a NUL-free literal of at least `n` bytes, the comparison is 0
exactly when the first `n` bytes agree after case folding. -/
theorem strncasecmp_literal (name lit : List Nat) (n : Nat)
    (hlit : ∀ c ∈ lit, c ≠ 0) (hn : n ≤ lit.length) :
    strncasecmp name lit n = 0 ↔ (name.take n).map TOLOWER = (lit.take n).map TOLOWER := by
  induction n generalizing name lit with
  | zero => simp [strncasecmp]
  | succ n ih =>
    cases lit with
    | nil => simp at hn
    | cons y ys =>
      have hy : y ≠ 0 := hlit y (by simp)
      have hys : ∀ c ∈ ys, c ≠ 0 := fun c hc => hlit c (by simp [hc])
      have hn' : n ≤ ys.length := by simpa using hn
      have hty : TOLOWER y ≠ 0 := fun h => hy ((TOLOWER_eq_zero y).1 h)
      cases name with
      | nil =>
        have h0 : TOLOWER 0 = 0 := (TOLOWER_eq_zero 0).2 rfl
        simp only [strncasecmp, List.headD_nil, h0, List.headD_cons, List.take_nil,
          List.map_nil, List.take_succ_cons, List.map_cons, reduceCtorEq, iff_false]
        have : (0 : Nat) ≠ TOLOWER y := fun h => hty h.symm
        simp only [ne_eq, this, not_false_eq_true, if_true]
        omega
      | cons x xs =>
        by_cases hxy : TOLOWER x = TOLOWER y
        · have hx0 : TOLOWER x ≠ 0 := by rw [hxy]; exact hty
          simp only [strncasecmp, List.headD_cons, hxy, ne_eq, not_true_eq_false, if_false,
            hty, List.tail_cons, List.take_succ_cons, List.map_cons, List.cons.injEq, true_and]
          exact ih xs ys hys hn'
        · simp only [strncasecmp, List.headD_cons, ne_eq, hxy, not_false_eq_true, if_true,
            List.take_succ_cons, List.map_cons, List.cons.injEq, false_and, iff_false]
          omega

/-! ## Splitting a description -/

theorem ad_split_no_semicolon (t : List Nat) (ht : ∀ c ∈ t, c ≠ 59) :
    ad_split t = (t, []) := by
  induction t with
  | nil => rfl
  | cons c rest ih =>
    have hc : c ≠ 59 := ht c (by simp)
    have hr := ih (fun d hd => ht d (by simp [hd]))
    simp [ad_split, hc, hr]

theorem ad_split_append_semicolon (t r : List Nat) (ht : ∀ c ∈ t, c ≠ 59) :
    ad_split (t ++ 59 :: r) = (t, (ad_split r).1 :: (ad_split r).2) := by
  induction t with
  | nil => simp [ad_split]
  | cons c rest ih =>
    have hc : c ≠ 59 := ht c (by simp)
    have hr := ih (fun d hd => ht d (by simp [hd]))
    simp [ad_split, hc, hr]

theorem ad_split_join (t : List Nat) (opts : List (List Nat))
    (ht : ∀ c ∈ t, c ≠ 59) (hopts : ∀ o ∈ opts, ∀ c ∈ o, c ≠ 59) :
    ad_split (ad_join t opts) = (t, opts) := by
  induction opts generalizing t with
  | nil => simpa [ad_join] using ad_split_no_semicolon t ht
  | cons o rest ih =>
    have ho : ∀ c ∈ o, c ≠ 59 := hopts o (by simp)
    have hrest : ∀ p ∈ rest, ∀ c ∈ p, c ≠ 59 := fun p hp => hopts p (by simp [hp])
    simp only [ad_join]
    rw [ad_split_append_semicolon t _ ht, ih o ho hrest]

theorem mem_ad_join (t : List Nat) (opts : List (List Nat)) (c : Nat) :
    c ∈ ad_join t opts ↔ c ∈ t ∨ (opts ≠ [] ∧ c = 59) ∨ ∃ o ∈ opts, c ∈ o := by
  induction opts generalizing t with
  | nil => simp [ad_join]
  | cons o rest ih =>
    simp only [ad_join, List.mem_append, List.mem_cons, ih, ne_eq, not_false_eq_true,
      true_and, exists_eq_or_imp, reduceCtorEq]
    tauto

theorem cstr_eq_self (s : List Nat) (h : ∀ c ∈ s, c ≠ 0) : cstr s = s := by
  unfold cstr
  rw [List.takeWhile_eq_self_iff]
  intro c hc
  simpa using h c hc

theorem AD_CHAR_ne_zero (c : Nat) (h : AD_CHAR c = true) : c ≠ 0 := by
  rintro rfl
  simp [AD_CHAR] at h

/-! ## The option loop -/

theorem option_test_binary (name : List Nat) :
    (name.length = 6 ∧ strncasecmp name [98, 105, 110, 97, 114, 121] name.length = 0)
      ↔ Spec.is_binary_option name = true := by
  unfold Spec.is_binary_option
  rw [beq_iff_eq]
  constructor
  · rintro ⟨hlen, h⟩
    rw [hlen, strncasecmp_literal _ _ 6 (by decide) (by decide)] at h
    have ht : name.take 6 = name := List.take_of_length_le (by omega)
    rw [ht] at h
    rw [h]
    decide
  · intro h
    have hlen : name.length = 6 := by
      have := congrArg List.length h
      simpa using this
    refine ⟨hlen, ?_⟩
    rw [hlen, strncasecmp_literal _ _ 6 (by decide) (by decide)]
    have ht : name.take 6 = name := List.take_of_length_le (by omega)
    rw [ht, h]
    decide

theorem option_test_lang (name : List Nat) :
    (name.length ≥ 6 ∧ strncasecmp name [108, 97, 110, 103, 45] 5 = 0)
      ↔ Spec.is_lang_option name = true := by
  unfold Spec.is_lang_option
  rw [Bool.and_eq_true, decide_eq_true_eq, beq_iff_eq,
    strncasecmp_literal _ _ 5 (by decide) (by decide)]
  constructor
  · rintro ⟨hlen, h⟩
    refine ⟨hlen, ?_⟩
    rw [h]
    decide
  · rintro ⟨hlen, h⟩
    refine ⟨hlen, ?_⟩
    rw [h]
    decide

/-- One round of the option loop, by the form of the option. -/
theorem slap_bv2ad_options_cons (S : Schema) (desc : AttributeDescription)
    (name : List Nat) (rest : List (List Nat)) :
    slap_bv2ad_options S desc (name :: rest) =
      if Spec.is_binary_option name = true then
        if slap_ad_is_binary desc then
          .error "option \"binary\" specified multiple times"
        else if !S.slap_syntax_is_binary ( AttributeType.sat_syntax desc.ad_type) then
          .error "option \"binary\" with type not supported"
        else
          slap_bv2ad_options S { desc with ad_flags := desc.ad_flags ||| SLAP_DESC_BINARY } rest
      else if Spec.is_lang_option name = true then
        if desc.ad_lang.bv_len ≠ 0 then
          .error "multiple language tag options specified"
        else
          slap_bv2ad_options S
            { desc with ad_lang := { bv_len := name.length, bv_val := name } } rest
      else
        .error "unrecognized option" := by
  simp only [slap_bv2ad_options, option_test_binary, option_test_lang]

theorem slap_bv2ad_options_append (S : Schema) (desc : AttributeDescription)
    (pre rest : List (List Nat)) :
    slap_bv2ad_options S desc (pre ++ rest) =
      match slap_bv2ad_options S desc pre with
      | .ok d => slap_bv2ad_options S d rest
      | .error e => .error e := by
  induction pre generalizing desc with
  | nil => simp [slap_bv2ad_options]
  | cons name pre ih =>
    simp only [List.cons_append, slap_bv2ad_options_cons]
    split_ifs <;> simp [ih]

theorem slap_bv2ad_options_ok_forms (S : Schema) (desc d : AttributeDescription)
    (opts : List (List Nat)) (h : slap_bv2ad_options S desc opts = .ok d) :
    ∀ o ∈ opts, Spec.is_binary_option o = true ∨ Spec.is_lang_option o = true := by
  induction opts generalizing desc with
  | nil => simp
  | cons name rest ih =>
    rw [slap_bv2ad_options_cons] at h
    intro o ho
    rcases List.mem_cons.1 ho with rfl | ho
    · by_cases hb : Spec.is_binary_option o = true
      · exact Or.inl hb
      · by_cases hl : Spec.is_lang_option o = true
        · exact Or.inr hl
        · simp [hb, hl] at h
    · split_ifs at h with h1 h2 h3 h4 h5
      · exact ih _ h o ho
      · exact ih _ h o ho

/-! ## The validation steps on a description written from its parts -/

theorem ad_keystring_join (t : List Nat) (opts : List (List Nat))
    (hne : ad_join t opts ≠ [])
    (ht : ∀ c ∈ t, AD_CHAR c = true) (hopts : ∀ o ∈ opts, ∀ c ∈ o, AD_CHAR c = true) :
    ad_keystring (ad_join t opts) = 0 := by
  rw [ad_keystring_eq_zero]
  refine ⟨hne, ?_⟩
  intro c hc
  rcases (mem_ad_join t opts c).1 hc with h | ⟨_, rfl⟩ | ⟨o, ho, hco⟩
  · exact ht c h
  · decide
  · exact hopts o ho c hco

/-- The parse of `t;o1;...;ok`: the type lookup on `t`, then the option loop
over `o1 .. ok`. -/
theorem slap_bv2ad_parse_join (S : Schema) (t : List Nat) (opts : List (List Nat))
    (hjne : ad_join t opts ≠ [])
    (ht : ∀ c ∈ t, AD_CHAR c = true ∧ c ≠ 59)
    (hopts : ∀ o ∈ opts, ∀ c ∈ o, AD_CHAR c = true ∧ c ≠ 59) :
    slap_bv2ad_parse S (some (ad_join t opts)) =
      match S.at_find t with
      | none => .error "attribute type undefined"
      | some T => slap_bv2ad_options S (slap_bv2ad_desc T t.length) opts := by
  have hlen : (ad_join t opts).length ≠ 0 := by simpa using hjne
  have hk := ad_keystring_join t opts hjne (fun c hc => (ht c hc).1)
    (fun o ho c hc => (hopts o ho c hc).1)
  have hnul : ∀ c ∈ ad_join t opts, c ≠ 0 := fun c hc =>
    AD_CHAR_ne_zero c (((ad_keystring_eq_zero _).1 hk).2 c hc)
  have hsplit := ad_split_join t opts (fun c hc => (ht c hc).2)
    (fun o ho c hc => (hopts o ho c hc).2)
  simp only [slap_bv2ad_parse, hlen, hk, if_false, ne_eq, not_true_eq_false,
    cstr_eq_self _ hnul, hsplit]

theorem ad_join_ne_nil (t : List Nat) (opts : List (List Nat)) (h : t ≠ [] ∨ opts ≠ []) :
    ad_join t opts ≠ [] := by
  cases opts with
  | nil => simpa [ad_join] using h
  | cons o rest => simp [ad_join]

theorem slap_bv2ad_intern_rtn (reg : Registry) (desc : AttributeDescription) :
    (slap_bv2ad_intern reg desc).rtn = LDAP_SUCCESS ∧ (slap_bv2ad_intern reg desc).text = none := by
  unfold slap_bv2ad_intern
  split <;> simp

theorem slap_bv2ad_of_parse_error (S : Schema) (reg : Registry) (bv : Option (List Nat))
    (e : String) (h : slap_bv2ad_parse S bv = .error e) :
    slap_bv2ad S reg bv = Resolved.fail reg none e := by
  simp [slap_bv2ad, h]

theorem slap_bv2ad_of_parse_ok (S : Schema) (reg : Registry) (bv : Option (List Nat))
    (d : AttributeDescription) (h : slap_bv2ad_parse S bv = .ok d) :
    slap_bv2ad S reg bv = slap_bv2ad_intern reg d := by
  simp [slap_bv2ad, h]

theorem slap_bv2ad_rtn_success_iff (S : Schema) (reg : Registry) (bv : Option (List Nat)) :
    (slap_bv2ad S reg bv).rtn = LDAP_SUCCESS ↔ ∃ d, slap_bv2ad_parse S bv = .ok d := by
  cases h : slap_bv2ad_parse S bv with
  | error e =>
    rw [slap_bv2ad_of_parse_error S reg bv e h]
    simp [Resolved.fail, LDAP_SUCCESS, LDAP_UNDEFINED_TYPE]
  | ok d =>
    rw [slap_bv2ad_of_parse_ok S reg bv d h]
    simp [(slap_bv2ad_intern_rtn reg d).1]

/-! ## Option errors -/

/-- C6 (counterexample): `cn` is defined in the sample schema, its syntax is
not binary, and resolving `cn;binary;binary` fails with the text "option
\"binary\" with type not supported", not with the duplicate-option text. -/
theorem duplicate_binary_counterexample :
    Sample.schema.at_find (cs "cn") = some Sample.at_cn ∧
    (slap_bv2ad Sample.schema Registry.empty (some (cs "cn;binary;binary"))).text
      = some "option \"binary\" with type not supported" ∧
    (slap_bv2ad Sample.schema Registry.empty (some (cs "cn;binary;binary"))).text
      ≠ some "option \"binary\" specified multiple times" := by
  decide

/-- C6 (amended): for every name `t` of letters, digits and hyphens that
`at_find` resolves to a type `T`, resolving `t;binary;binary` fails with code
`LDAP_UNDEFINED_TYPE`, returns no AD and leaves the registry alone; the text is
"option \"binary\" specified multiple times" when the syntax of `T` permits
binary transfer, and "option \"binary\" with type not supported" when it does
not. -/
theorem duplicate_binary (S : Schema) (reg : Registry) (t : List Nat) (T : AttributeType)
    (ht : ∀ c ∈ t, AD_CHAR c = true ∧ c ≠ 59) (hfind : S.at_find t = some T) :
    (slap_bv2ad S reg (some (t ++ cs ";binary;binary"))).rtn = LDAP_UNDEFINED_TYPE ∧
    (slap_bv2ad S reg (some (t ++ cs ";binary;binary"))).ad = none ∧
    (slap_bv2ad S reg (some (t ++ cs ";binary;binary"))).reg = reg ∧
    (slap_bv2ad S reg (some (t ++ cs ";binary;binary"))).text =
      some (if S.slap_syntax_is_binary ( AttributeType.sat_syntax T) = true
        then "option \"binary\" specified multiple times"
        else "option \"binary\" with type not supported") := by
  have hbv : t ++ cs ";binary;binary"
      = ad_join t [[98, 105, 110, 97, 114, 121], [98, 105, 110, 97, 114, 121]] := by
    have : cs ";binary;binary"
        = 59 :: ([98, 105, 110, 97, 114, 121] ++ 59 :: [98, 105, 110, 97, 114, 121]) := by
      decide
    simp [ad_join, this]
  have hparse := slap_bv2ad_parse_join S t
    [[98, 105, 110, 97, 114, 121], [98, 105, 110, 97, 114, 121]]
    (ad_join_ne_nil _ _ (Or.inr (by simp))) ht (by decide)
  rw [hfind] at hparse
  have hb : Spec.is_binary_option [98, 105, 110, 97, 114, 121] = true := by decide
  rw [hbv]
  by_cases hs : S.slap_syntax_is_binary ( AttributeType.sat_syntax T) = true
  · have he : slap_bv2ad_parse S
        (some (ad_join t [[98, 105, 110, 97, 114, 121], [98, 105, 110, 97, 114, 121]]))
        = .error "option \"binary\" specified multiple times" := by
      rw [hparse]
      simp [slap_bv2ad_options_cons, hb, slap_bv2ad_desc, slap_ad_is_binary, hs,
        SLAP_DESC_NONE, SLAP_DESC_BINARY]
    rw [slap_bv2ad_of_parse_error S reg _ _ he]
    simp [Resolved.fail, hs]
  · have he : slap_bv2ad_parse S
        (some (ad_join t [[98, 105, 110, 97, 114, 121], [98, 105, 110, 97, 114, 121]]))
        = .error "option \"binary\" with type not supported" := by
      rw [hparse]
      simp [slap_bv2ad_options_cons, hb, slap_bv2ad_desc, slap_ad_is_binary, hs,
        SLAP_DESC_NONE, SLAP_DESC_BINARY]
    rw [slap_bv2ad_of_parse_error S reg _ _ he]
    simp [Resolved.fail, hs]

theorem duplicate_binary_witness :
    (slap_bv2ad Sample.schema Registry.empty
        (some (cs "userCertificate" ++ cs ";binary;binary"))).rtn = LDAP_UNDEFINED_TYPE ∧
    (slap_bv2ad Sample.schema Registry.empty
        (some (cs "userCertificate" ++ cs ";binary;binary"))).text
      = some "option \"binary\" specified multiple times" :=
  ⟨(duplicate_binary Sample.schema Registry.empty (cs "userCertificate")
      Sample.at_userCertificate (by decide) (by decide)).1,
   (duplicate_binary Sample.schema Registry.empty (cs "userCertificate")
      Sample.at_userCertificate (by decide) (by decide)).2.2.2⟩

/-- C7: for a defined type named `t` and options `pre ++ o :: post`, where `o`
is neither `binary` nor `lang-` followed by at least one character (both
ignoring case), the call fails and returns no AD; the text is "unrecognized
option" when the description cut before `o` resolves, and otherwise the text
of the failure of that shorter description (an earlier option failed).
A call that succeeds has only options of the two forms.  `cn;wat`, `cn;` and
`cn;lang-` fail with "unrecognized option". -/
theorem unrecognized_option (S : Schema) (reg : Registry) (t : List Nat) (T : AttributeType)
    (pre : List (List Nat)) (o : List Nat) (post : List (List Nat))
    (hne : t ≠ [])
    (ht : ∀ c ∈ t, AD_CHAR c = true ∧ c ≠ 59)
    (hopts : ∀ x ∈ pre ++ o :: post, ∀ c ∈ x, AD_CHAR c = true ∧ c ≠ 59)
    (hfind : S.at_find t = some T)
    (ho : Spec.is_binary_option o = false ∧ Spec.is_lang_option o = false) :
    (slap_bv2ad S reg (some (ad_join t (pre ++ o :: post)))).rtn = LDAP_UNDEFINED_TYPE ∧
    (slap_bv2ad S reg (some (ad_join t (pre ++ o :: post)))).ad = none ∧
    (slap_bv2ad S reg (some (ad_join t (pre ++ o :: post)))).reg = reg ∧
    (slap_bv2ad S reg (some (ad_join t (pre ++ o :: post)))).text =
      (if (slap_bv2ad S reg (some (ad_join t pre))).rtn = LDAP_SUCCESS
        then some "unrecognized option"
        else (slap_bv2ad S reg (some (ad_join t pre))).text) ∧
    (∀ opts : List (List Nat), (∀ x ∈ opts, ∀ c ∈ x, AD_CHAR c = true ∧ c ≠ 59) →
      (slap_bv2ad S reg (some (ad_join t opts))).rtn = LDAP_SUCCESS →
      ∀ x ∈ opts, Spec.is_binary_option x = true ∨ Spec.is_lang_option x = true) ∧
    (slap_bv2ad Sample.schema Registry.empty (some (cs "cn;wat"))).text
      = some "unrecognized option" ∧
    (slap_bv2ad Sample.schema Registry.empty (some (cs "cn;"))).text
      = some "unrecognized option" ∧
    (slap_bv2ad Sample.schema Registry.empty (some (cs "cn;lang-"))).text
      = some "unrecognized option" := by
  have hpre : ∀ x ∈ pre, ∀ c ∈ x, AD_CHAR c = true ∧ c ≠ 59 :=
    fun x hx => hopts x (by simp [hx])
  have hparse := slap_bv2ad_parse_join S t (pre ++ o :: post)
    (ad_join_ne_nil _ _ (Or.inl hne)) ht hopts
  have hparse_pre := slap_bv2ad_parse_join S t pre (ad_join_ne_nil _ _ (Or.inl hne)) ht hpre
  rw [hfind] at hparse hparse_pre
  simp only at hparse hparse_pre
  rw [slap_bv2ad_options_append] at hparse
  have hstep : ∀ d, slap_bv2ad_options S d (o :: post) = .error "unrecognized option" := by
    intro d
    rw [slap_bv2ad_options_cons]
    simp [ho.1, ho.2]
  have hmain :
      (slap_bv2ad S reg (some (ad_join t (pre ++ o :: post)))).rtn = LDAP_UNDEFINED_TYPE ∧
      (slap_bv2ad S reg (some (ad_join t (pre ++ o :: post)))).ad = none ∧
      (slap_bv2ad S reg (some (ad_join t (pre ++ o :: post)))).reg = reg ∧
      (slap_bv2ad S reg (some (ad_join t (pre ++ o :: post)))).text =
        (if (slap_bv2ad S reg (some (ad_join t pre))).rtn = LDAP_SUCCESS
          then some "unrecognized option"
          else (slap_bv2ad S reg (some (ad_join t pre))).text) := by
    cases hp : slap_bv2ad_options S (slap_bv2ad_desc T t.length) pre with
    | error e =>
      rw [hp] at hparse hparse_pre
      simp only at hparse
      rw [slap_bv2ad_of_parse_error S reg _ _ hparse,
        slap_bv2ad_of_parse_error S reg _ _ hparse_pre]
      simp [Resolved.fail, LDAP_SUCCESS, LDAP_UNDEFINED_TYPE]
    | ok d =>
      rw [hp] at hparse hparse_pre
      simp only [hstep] at hparse
      rw [slap_bv2ad_of_parse_error S reg _ _ hparse,
        slap_bv2ad_of_parse_ok S reg _ _ hparse_pre]
      simp [Resolved.fail, (slap_bv2ad_intern_rtn reg d).1]
  refine ⟨hmain.1, hmain.2.1, hmain.2.2.1, hmain.2.2.2, ?_, by decide, by decide, by decide⟩
  intro opts hoc hs
  obtain ⟨d, hd⟩ := (slap_bv2ad_rtn_success_iff S reg _).1 hs
  rw [slap_bv2ad_parse_join S t opts (ad_join_ne_nil _ _ (Or.inl hne)) ht hoc, hfind] at hd
  exact slap_bv2ad_options_ok_forms S _ d opts hd

theorem unrecognized_option_witness :
    (slap_bv2ad Sample.schema Registry.empty
      (some (ad_join (cs "cn") ([cs "lang-en"] ++ cs "wat" :: [cs "binary"])))).text
      = some "unrecognized option" := by
  have h := (unrecognized_option Sample.schema Registry.empty (cs "cn") Sample.at_cn
    [cs "lang-en"] (cs "wat") [cs "binary"] (by decide) (by decide) (by decide) (by decide)
    (by decide)).2.2.2.1
  rw [h]
  decide

/-! ## What the option loop and the allocation keep -/

theorem slap_bv2ad_options_type (S : Schema) (desc d : AttributeDescription)
    (opts : List (List Nat)) (h : slap_bv2ad_options S desc opts = .ok d) :
    d.ad_type = desc.ad_type ∧ d.ad_cname = desc.ad_cname := by
  induction opts generalizing desc with
  | nil =>
    simp only [slap_bv2ad_options, Except.ok.injEq] at h
    subst h
    exact ⟨rfl, rfl⟩
  | cons name rest ih =>
    rw [slap_bv2ad_options_cons] at h
    split_ifs at h with h1 h2 h3 h4 h5
    · have h' := ih _ h
      exact h'
    · have h' := ih _ h
      exact h'

/-- The binary bit is only ever set for a type whose syntax is binary. -/
theorem slap_bv2ad_options_binary (S : Schema) (desc d : AttributeDescription)
    (opts : List (List Nat)) (h : slap_bv2ad_options S desc opts = .ok d)
    (hdesc : slap_ad_is_binary desc = true →
      S.slap_syntax_is_binary ( AttributeType.sat_syntax desc.ad_type) = true) :
    slap_ad_is_binary d = true →
      S.slap_syntax_is_binary ( AttributeType.sat_syntax d.ad_type) = true := by
  induction opts generalizing desc with
  | nil =>
    simp only [slap_bv2ad_options, Except.ok.injEq] at h
    subst h
    exact hdesc
  | cons name rest ih =>
    rw [slap_bv2ad_options_cons] at h
    split_ifs at h with h1 h2 h3 h4 h5
    · refine ih _ h ?_
      intro _
      simpa using h3
    · exact ih _ h hdesc

/-- Without a binary syntax the flags stay as they are. -/
theorem slap_bv2ad_options_flags (S : Schema) (desc d : AttributeDescription)
    (opts : List (List Nat)) (h : slap_bv2ad_options S desc opts = .ok d)
    (hs : S.slap_syntax_is_binary ( AttributeType.sat_syntax desc.ad_type) = false) :
    d.ad_flags = desc.ad_flags := by
  induction opts generalizing desc with
  | nil =>
    simp only [slap_bv2ad_options, Except.ok.injEq] at h
    subst h
    rfl
  | cons name rest ih =>
    rw [slap_bv2ad_options_cons] at h
    split_ifs at h with h1 h2 h3 h4 h5
    · simp [hs] at h3
    · have h' := ih _ h hs
      exact h'

theorem slap_bv2ad_new_fields (addr : Nat) (desc : AttributeDescription) :
    (slap_bv2ad_new addr desc).ad_addr = addr ∧
    (slap_bv2ad_new addr desc).ad_type = desc.ad_type ∧
    (slap_bv2ad_new addr desc).ad_flags = desc.ad_flags ∧
    (slap_bv2ad_new addr desc).ad_lang.bv_len = desc.ad_lang.bv_len := by
  unfold slap_bv2ad_new
  split_ifs with h1 h2 h3 h4 <;> simp <;> omega

theorem mem_slap_bv2ad_link (dlen : Nat) (d2 x : AttributeDescription)
    (l : List AttributeDescription) :
    x ∈ slap_bv2ad_link dlen d2 l ↔ x = d2 ∨ x ∈ l := by
  cases l with
  | nil => simp [slap_bv2ad_link]
  | cons h t =>
    simp only [slap_bv2ad_link]
    split_ifs
    · simp
    · simp only [List.mem_cons]
      tauto

/-- What a call does to the registry: nothing, or one new node linked into the
list of the type of the parsed description. -/
theorem slap_bv2ad_step (S : Schema) (reg : Registry) (bv : Option (List Nat)) :
    ((slap_bv2ad S reg bv).reg = reg ∧
      ∀ a, (slap_bv2ad S reg bv).ad = some a →
        ∃ desc, slap_bv2ad_parse S bv = .ok desc ∧
          slap_bv2ad_find desc (reg.sat_ad desc.ad_type) = some a) ∨
    (∃ desc, slap_bv2ad_parse S bv = .ok desc ∧
      slap_bv2ad_find desc (reg.sat_ad desc.ad_type) = none ∧
      (slap_bv2ad S reg bv).ad = some (slap_bv2ad_new reg.brk desc) ∧
      (slap_bv2ad S reg bv).reg.brk = reg.brk + 1 ∧
      (slap_bv2ad S reg bv).reg.sat_ad desc.ad_type =
        slap_bv2ad_link (slap_bv2ad_dlen desc) (slap_bv2ad_new reg.brk desc)
          (reg.sat_ad desc.ad_type) ∧
      ∀ u, u ≠ desc.ad_type → (slap_bv2ad S reg bv).reg.sat_ad u = reg.sat_ad u) := by
  cases hp : slap_bv2ad_parse S bv with
  | error e =>
    left
    rw [slap_bv2ad_of_parse_error S reg bv e hp]
    simp [Resolved.fail]
  | ok desc =>
    rw [slap_bv2ad_of_parse_ok S reg bv desc hp]
    cases hf : slap_bv2ad_find desc (reg.sat_ad desc.ad_type) with
    | some d2 =>
      left
      simp only [slap_bv2ad_intern, hf, true_and]
      intro a ha
      simp only [Option.some.injEq] at ha
      exact ⟨desc, rfl, by rw [hf, ha]⟩
    | none =>
      right
      refine ⟨desc, rfl, hf, ?_⟩
      simp only [slap_bv2ad_intern, hf, if_true, true_and]
      intro u hu
      simp [hu]

theorem slap_bv2ad_seq_invariant (S : Schema) (P : Registry → Prop)
    (hstep : ∀ reg bv, P reg → P (slap_bv2ad S reg bv).reg)
    (reg : Registry) (h0 : P reg) (inputs : List (Option (List Nat))) :
    P (slap_bv2ad_seq S reg inputs) := by
  induction inputs generalizing reg with
  | nil => exact h0
  | cons bv rest ih => exact ih _ (hstep reg bv h0)

theorem slap_bv2ad_parse_start (S : Schema) (bv : Option (List Nat))
    (desc : AttributeDescription) (h : slap_bv2ad_parse S bv = .ok desc) :
    ∃ b t, bv = some b ∧ b ≠ [] ∧ ad_keystring b = 0 ∧ S.at_find (ad_split (cstr b)).1 = some t ∧
      slap_bv2ad_options S (slap_bv2ad_desc t (ad_split (cstr b)).1.length)
        (ad_split (cstr b)).2 = .ok desc := by
  cases bv with
  | none => simp [slap_bv2ad_parse] at h
  | some b =>
    simp only [slap_bv2ad_parse] at h
    split_ifs at h with h1 h2
    · have hk : ad_keystring b = 0 := by simpa using h2
      cases hf : S.at_find (ad_split (cstr b)).1 with
      | none => simp [hf] at h
      | some t =>
        simp only [hf] at h
        exact ⟨b, t, rfl, by simpa using h1, hk, hf, h⟩

theorem slap_bv2ad_parse_binary (S : Schema) (bv : Option (List Nat))
    (desc : AttributeDescription) (h : slap_bv2ad_parse S bv = .ok desc) :
    slap_ad_is_binary desc = true →
      S.slap_syntax_is_binary ( AttributeType.sat_syntax desc.ad_type) = true := by
  obtain ⟨b, t, _, _, _, _, hopt⟩ := slap_bv2ad_parse_start S bv desc h
  exact slap_bv2ad_options_binary S _ desc _ hopt (by simp [slap_bv2ad_desc, slap_ad_is_binary, SLAP_DESC_NONE])

/-! ## The binary flag -/

theorem slap_ad_is_binary_new (addr : Nat) (desc : AttributeDescription) :
    slap_ad_is_binary (slap_bv2ad_new addr desc) = slap_ad_is_binary desc := by
  simp only [slap_ad_is_binary, (slap_bv2ad_new_fields addr desc).2.2.1]

theorem BinaryOk_step (S : Schema) (reg : Registry) (bv : Option (List Nat))
    (h : BinaryOk S reg) : BinaryOk S (slap_bv2ad S reg bv).reg := by
  rcases slap_bv2ad_step S reg bv with ⟨hreg, _⟩ | ⟨desc, hp, _, _, _, hlist, hother⟩
  · rw [hreg]
    exact h
  · intro U a ha
    by_cases hU : U = desc.ad_type
    · subst hU
      rw [hlist, mem_slap_bv2ad_link] at ha
      rcases ha with rfl | ha
      · refine ⟨(slap_bv2ad_new_fields _ _).2.1, ?_⟩
        rw [slap_ad_is_binary_new]
        exact slap_bv2ad_parse_binary S bv desc hp
      · exact h _ a ha
    · rw [hother U hU] at ha
      exact h U a ha

theorem BinaryOk_seq (S : Schema) (inputs : List (Option (List Nat))) :
    BinaryOk S (slap_bv2ad_seq S Registry.empty inputs) :=
  slap_bv2ad_seq_invariant S (BinaryOk S) (fun reg bv h => BinaryOk_step S reg bv h)
    Registry.empty (by intro U a ha; simp [Registry.empty] at ha) inputs

/-- C5: binary-flag invariant.  For a defined type whose syntax does not permit
binary transfer, a description with a `binary` option (in any case) fails and
returns no AD; the text is "option \"binary\" with type not supported" when the
description cut before that option resolves, and otherwise the text of the
failure of that shorter description.  In every registry reached from the empty
one by `slap_bv2ad` calls, every interned AD with the binary flag set sits in
the list of its own type and the syntax of that type is binary. -/
theorem binary_flag_invariant (S : Schema) :
    (∀ (reg : Registry) (t : List Nat) (T : AttributeType) (pre : List (List Nat))
        (b : List Nat) (post : List (List Nat)),
      t ≠ [] →
      (∀ c ∈ t, AD_CHAR c = true ∧ c ≠ 59) →
      (∀ x ∈ pre ++ b :: post, ∀ c ∈ x, AD_CHAR c = true ∧ c ≠ 59) →
      S.at_find t = some T →
      S.slap_syntax_is_binary ( AttributeType.sat_syntax T) = false →
      Spec.is_binary_option b = true →
      (slap_bv2ad S reg (some (ad_join t (pre ++ b :: post)))).rtn = LDAP_UNDEFINED_TYPE ∧
      (slap_bv2ad S reg (some (ad_join t (pre ++ b :: post)))).ad = none ∧
      (slap_bv2ad S reg (some (ad_join t (pre ++ b :: post)))).reg = reg ∧
      (slap_bv2ad S reg (some (ad_join t (pre ++ b :: post)))).text =
        (if (slap_bv2ad S reg (some (ad_join t pre))).rtn = LDAP_SUCCESS
          then some "option \"binary\" with type not supported"
          else (slap_bv2ad S reg (some (ad_join t pre))).text)) ∧
    (∀ (inputs : List (Option (List Nat))) (U : AttributeType) (a : AttributeDescription),
      a ∈ (slap_bv2ad_seq S Registry.empty inputs).sat_ad U →
      slap_ad_is_binary a = true →
      a.ad_type = U ∧ S.slap_syntax_is_binary ( AttributeType.sat_syntax a.ad_type) = true) := by
  constructor
  · intro reg t T pre b post hne ht hopts hfind hsyn hb
    have hpre : ∀ x ∈ pre, ∀ c ∈ x, AD_CHAR c = true ∧ c ≠ 59 :=
      fun x hx => hopts x (by simp [hx])
    have hparse := slap_bv2ad_parse_join S t (pre ++ b :: post)
      (ad_join_ne_nil _ _ (Or.inl hne)) ht hopts
    have hparse_pre := slap_bv2ad_parse_join S t pre (ad_join_ne_nil _ _ (Or.inl hne)) ht hpre
    rw [hfind] at hparse hparse_pre
    simp only at hparse hparse_pre
    rw [slap_bv2ad_options_append] at hparse
    cases hp : slap_bv2ad_options S (slap_bv2ad_desc T t.length) pre with
    | error e =>
      rw [hp] at hparse hparse_pre
      simp only at hparse
      rw [slap_bv2ad_of_parse_error S reg _ _ hparse,
        slap_bv2ad_of_parse_error S reg _ _ hparse_pre]
      simp [Resolved.fail, LDAP_SUCCESS, LDAP_UNDEFINED_TYPE]
    | ok d =>
      have htype : d.ad_type = T := (slap_bv2ad_options_type S _ d pre hp).1
      have hflags : d.ad_flags = 0 :=
        slap_bv2ad_options_flags S _ d pre hp (by simpa [slap_bv2ad_desc] using hsyn)
      have hstep : slap_bv2ad_options S d (b :: post)
          = .error "option \"binary\" with type not supported" := by
        rw [slap_bv2ad_options_cons]
        simp [hb, slap_ad_is_binary, hflags, htype, hsyn]
      rw [hp] at hparse hparse_pre
      simp only [hstep] at hparse
      rw [slap_bv2ad_of_parse_error S reg _ _ hparse,
        slap_bv2ad_of_parse_ok S reg _ _ hparse_pre]
      simp [Resolved.fail, (slap_bv2ad_intern_rtn reg d).1]
  · intro inputs U a ha hbin
    have h := BinaryOk_seq S inputs U a ha
    refine ⟨h.1, ?_⟩
    rw [h.1]
    exact h.2 hbin

theorem binary_flag_invariant_witness :
    (slap_bv2ad Sample.schema Registry.empty
      (some (ad_join (cs "cn") ([cs "lang-en"] ++ cs "BINARY" :: [])))).text
      = some "option \"binary\" with type not supported" ∧
    Sample.schema.slap_syntax_is_binary ( AttributeType.sat_syntax Sample.at_userCertificate)
      = true := by
  constructor
  · have h := ((binary_flag_invariant Sample.schema).1 Registry.empty (cs "cn") Sample.at_cn
      [cs "lang-en"] (cs "BINARY") [] (by decide) (by decide) (by decide) (by decide)
      (by decide) (by decide)).2.2.2
    rw [h]
    decide
  · exact ((binary_flag_invariant Sample.schema).2
      [some (cs "cn"), some (cs "userCertificate;binary")] Sample.at_userCertificate
      { ad_addr := 1, ad_type := Sample.at_userCertificate,
        ad_cname := { bv_len := 22, bv_val := cs "userCertificate;binary" },
        ad_lang := { bv_len := 0, bv_val := [] }, ad_flags := 1 }
      (by decide) (by decide)).2

/-! ## Stores into the name buffer -/

theorem poke_prefix_length (buf : List Nat) (off : Nat) :
    (buf.take off ++ List.replicate (off - buf.length) 0).length = off := by
  simp only [List.length_append, List.length_take, List.length_replicate]
  omega

theorem poke_eq (buf : List Nat) (off : Nat) (bytes : List Nat) :
    poke buf off bytes =
      (buf.take off ++ List.replicate (off - buf.length) 0) ++
        (bytes ++ buf.drop (off + bytes.length)) := by
  simp [poke, List.append_assoc]

theorem poke_drop (buf : List Nat) (off : Nat) (bytes : List Nat) :
    (poke buf off bytes).drop off = bytes ++ buf.drop (off + bytes.length) := by
  rw [poke_eq, List.drop_left' (poke_prefix_length buf off)]

theorem poke_take (buf : List Nat) (off : Nat) (bytes : List Nat) :
    (poke buf off bytes).take off = buf.take off ++ List.replicate (off - buf.length) 0 := by
  rw [poke_eq, List.take_left' (poke_prefix_length buf off)]

theorem poke_length_ge (buf : List Nat) (off : Nat) (bytes : List Nat) :
    off + bytes.length ≤ (poke buf off bytes).length := by
  rw [poke_eq, List.length_append, poke_prefix_length, List.length_append]
  omega

/-- Two stores, the second right behind the first, are one store. -/
theorem poke_poke_adjacent (buf : List Nat) (off : Nat) (a b : List Nat) :
    poke (poke buf off a) (off + a.length) b = poke buf off (a ++ b) := by
  have hlen : off + a.length ≤ (poke buf off a).length := poke_length_ge buf off a
  have hpa : ((buf.take off ++ List.replicate (off - buf.length) 0) ++ a).length
      = off + a.length := by
    rw [List.length_append, poke_prefix_length]
  have htake : (poke buf off a).take (off + a.length)
      = (buf.take off ++ List.replicate (off - buf.length) 0) ++ a := by
    rw [poke_eq, ← List.append_assoc, List.take_left' hpa]
  have hdrop : (poke buf off a).drop (off + a.length + b.length)
      = buf.drop (off + a.length + b.length) := by
    rw [poke_eq, ← List.append_assoc, ← List.drop_drop, List.drop_left' hpa, List.drop_drop]
  have hz : off + a.length - (poke buf off a).length = 0 := by omega
  rw [poke_eq (poke buf off a), htake, hdrop, hz, poke_eq buf off (a ++ b)]
  simp [List.append_assoc, Nat.add_assoc]

theorem cstr_append_nul (s rest : List Nat) (h : ∀ c ∈ s, c ≠ 0) :
    cstr (s ++ 0 :: rest) = s := by
  induction s with
  | nil => simp [cstr_cons]
  | cons x xs ih =>
    have hx : x ≠ 0 := h x (by simp)
    simp only [List.cons_append, cstr_cons, hx, if_false]
    rw [ih (fun c hc => h c (by simp [hc]))]

theorem ldap_pvt_str2lower_append_nul (s rest : List Nat) (h : ∀ c ∈ s, c ≠ 0) :
    ldap_pvt_str2lower (s ++ 0 :: rest) = s.map TOLOWER ++ 0 :: rest := by
  induction s with
  | nil => simp [ldap_pvt_str2lower]
  | cons x xs ih =>
    have hx : x ≠ 0 := h x (by simp)
    have ih' := ih (fun c hc => h c (by simp [hc]))
    rw [List.cons_append, ldap_pvt_str2lower, if_neg hx, ih', List.map_cons, List.cons_append]

theorem strncpy_exact (s : List Nat) (h : ∀ c ∈ s, c ≠ 0) : strncpy s s.length = s := by
  simp [strncpy, strlen, cstr_eq_self s h]

/-- The language tag of a new node: the tag of the caller, lower-cased. -/
theorem slap_bv2ad_new_lang (addr : Nat) (desc : AttributeDescription)
    (hlen : desc.ad_lang.bv_val.length = desc.ad_lang.bv_len)
    (hnul : ∀ c ∈ desc.ad_lang.bv_val, c ≠ 0) (hne : desc.ad_lang.bv_len ≠ 0) :
    (slap_bv2ad_new addr desc).ad_lang.bv_val = desc.ad_lang.bv_val.map TOLOWER := by
  have hd : slap_bv2ad_dlen desc ≠ 0 := by
    simp only [slap_bv2ad_dlen, hne, ne_eq, not_false_eq_true, true_or, if_true]
    omega
  have hlow : ∀ c ∈ desc.ad_lang.bv_val.map TOLOWER, c ≠ 0 := by
    intro c hc
    obtain ⟨x, hx, rfl⟩ := List.mem_map.1 hc
    exact fun h0 => hnul x hx ((TOLOWER_eq_zero x).1 h0)
  simp only [slap_bv2ad_new, hd, if_false, hne, ne_eq, not_false_eq_true, if_true]
  rw [← hlen, strncpy_exact _ hnul]
  generalize (if slap_ad_is_binary desc = true then
      poke (poke [] 0 (strcpy desc.ad_type.sat_cname)) desc.ad_cname.bv_len
        (strcpy [59, 98, 105, 110, 97, 114, 121])
    else poke [] 0 (strcpy desc.ad_type.sat_cname)) = buf1
  generalize (if slap_ad_is_binary desc = true then desc.ad_cname.bv_len + 7
    else desc.ad_cname.bv_len) = len1
  have h3 : poke (poke buf1 len1 [59]) (len1 + 1) desc.ad_lang.bv_val
      = poke buf1 len1 ([59] ++ desc.ad_lang.bv_val) :=
    poke_poke_adjacent buf1 len1 [59] desc.ad_lang.bv_val
  have h4 : poke (poke buf1 len1 ([59] ++ desc.ad_lang.bv_val))
        (len1 + 1 + desc.ad_lang.bv_val.length) [0]
      = poke buf1 len1 ([59] ++ desc.ad_lang.bv_val ++ [0]) := by
    have := poke_poke_adjacent buf1 len1 ([59] ++ desc.ad_lang.bv_val) [0]
    simpa [Nat.add_assoc, Nat.add_comm 1] using this
  rw [h3, h4]
  have hlen4 : len1 + 1 ≤ (poke buf1 len1 ([59] ++ desc.ad_lang.bv_val ++ [0])).length := by
    have := poke_length_ge buf1 len1 ([59] ++ desc.ad_lang.bv_val ++ [0])
    simp only [List.length_append, List.length_cons, List.length_nil] at this
    omega
  have hdrop4 : (poke buf1 len1 ([59] ++ desc.ad_lang.bv_val ++ [0])).drop (len1 + 1)
      = desc.ad_lang.bv_val ++
          0 :: buf1.drop (len1 + ([59] ++ desc.ad_lang.bv_val ++ [0]).length) := by
    rw [← List.drop_drop, poke_drop]
    simp
  rw [List.drop_left' (by rw [List.length_take]; omega), hdrop4,
    ldap_pvt_str2lower_append_nul _ _ hnul, cstr_append_nul _ _ hlow]

/-! ## The parsed language tag -/

theorem ad_split_mem (s : List Nat) :
    (∀ c ∈ (ad_split s).1, c ∈ s) ∧ (∀ o ∈ (ad_split s).2, ∀ c ∈ o, c ∈ s) := by
  induction s with
  | nil => simp [ad_split]
  | cons x xs ih =>
    by_cases hx : x = 59
    · simp only [ad_split, hx, if_true, List.not_mem_nil, false_implies, implies_true,
        List.mem_cons, forall_eq_or_imp, true_and]
      exact ⟨fun c hc => Or.inr (ih.1 c hc), fun o ho c hc => Or.inr (ih.2 o ho c hc)⟩
    · simp only [ad_split, hx, if_false, List.mem_cons, forall_eq_or_imp, true_or, true_and]
      exact ⟨fun c hc => Or.inr (ih.1 c hc), fun o ho c hc => Or.inr (ih.2 o ho c hc)⟩

theorem slap_bv2ad_options_lang (S : Schema) (desc d : AttributeDescription)
    (opts : List (List Nat)) (h : slap_bv2ad_options S desc opts = .ok d)
    (hopts : ∀ o ∈ opts, ∀ c ∈ o, c ≠ 0)
    (hdesc : desc.ad_lang.bv_val.length = desc.ad_lang.bv_len ∧
      ∀ c ∈ desc.ad_lang.bv_val, c ≠ 0) :
    d.ad_lang.bv_val.length = d.ad_lang.bv_len ∧ ∀ c ∈ d.ad_lang.bv_val, c ≠ 0 := by
  induction opts generalizing desc with
  | nil =>
    simp only [slap_bv2ad_options, Except.ok.injEq] at h
    subst h
    exact hdesc
  | cons name rest ih =>
    rw [slap_bv2ad_options_cons] at h
    have hrest : ∀ o ∈ rest, ∀ c ∈ o, c ≠ 0 := fun o ho => hopts o (by simp [ho])
    split_ifs at h with h1 h2 h3 h4 h5
    · exact ih _ h hrest hdesc
    · exact ih _ h hrest ⟨rfl, hopts name (by simp)⟩

theorem slap_bv2ad_parse_lang (S : Schema) (bv : Option (List Nat))
    (desc : AttributeDescription) (h : slap_bv2ad_parse S bv = .ok desc) :
    desc.ad_lang.bv_val.length = desc.ad_lang.bv_len ∧ ∀ c ∈ desc.ad_lang.bv_val, c ≠ 0 := by
  obtain ⟨b, t, _, _, hk, _, hopt⟩ := slap_bv2ad_parse_start S bv desc h
  have hchars := ((ad_keystring_eq_zero b).1 hk).2
  have hnul : ∀ c ∈ b, c ≠ 0 := fun c hc => AD_CHAR_ne_zero c (hchars c hc)
  rw [cstr_eq_self b hnul] at hopt
  refine slap_bv2ad_options_lang S _ desc _ hopt ?_ ?_
  · intro o ho c hc
    exact hnul c ((ad_split_mem b).2 o ho c hc)
  · simp [slap_bv2ad_desc]

/-! ## The search of the intern list -/

theorem slap_bv2ad_find_eq (desc : AttributeDescription) (l : List AttributeDescription) :
    slap_bv2ad_find desc l = l.find? (ad_match desc) := by
  induction l with
  | nil => rfl
  | cons d2 rest ih =>
    by_cases h1 : d2.ad_flags = desc.ad_flags
    · by_cases h2 : d2.ad_lang.bv_len = desc.ad_lang.bv_len
      · by_cases h3 : d2.ad_lang.bv_len = 0
        · have h3' : desc.ad_lang.bv_len = 0 := by rw [← h2]; exact h3
          have hm : ad_match desc d2 = true := by simp [ad_match, h1, h2, h3']
          simp only [slap_bv2ad_find, List.find?_cons, hm]
          simp [h1, h2, h3']
        · have h3' : ¬ desc.ad_lang.bv_len = 0 := by rw [← h2]; exact h3
          by_cases h4 : strncasecmp d2.ad_lang.bv_val desc.ad_lang.bv_val
              desc.ad_lang.bv_len = 0
          · have hm : ad_match desc d2 = true := by simp [ad_match, h1, h2, h4]
            simp only [slap_bv2ad_find, List.find?_cons, hm]
            simp [h1, h2, h3', h4]
          · have hm : ad_match desc d2 = false := by
              simp only [ad_match, h1, h2, beq_self_eq_true, Bool.true_and, Bool.or_eq_false_iff,
                beq_eq_false_iff_ne, ne_eq]
              exact ⟨h3', h4⟩
            simp only [slap_bv2ad_find, List.find?_cons, hm]
            simp [h1, h2, h3', h4, ih]
      · have hm : ad_match desc d2 = false := by simp [ad_match, h1, h2]
        simp only [slap_bv2ad_find, List.find?_cons, hm]
        simp [h1, h2, ih]
    · have hm : ad_match desc d2 = false := by simp [ad_match, h1]
      simp only [slap_bv2ad_find, List.find?_cons, hm]
      simp [h1, ih]

theorem slap_bv2ad_find_none (desc : AttributeDescription) (l : List AttributeDescription) :
    slap_bv2ad_find desc l = none ↔ ∀ a ∈ l, ad_match desc a = false := by
  rw [slap_bv2ad_find_eq, List.find?_eq_none]
  simp

theorem slap_bv2ad_find_some (desc a : AttributeDescription) (l : List AttributeDescription)
    (h : slap_bv2ad_find desc l = some a) : a ∈ l ∧ ad_match desc a = true := by
  rw [slap_bv2ad_find_eq] at h
  exact ⟨List.mem_of_find?_eq_some h, List.find?_some h⟩

/-- Two parsed descriptions with the same flags and the same tag up to case
select the same nodes. -/
theorem ad_match_congr (d1 d2 : AttributeDescription)
    (hflags : d1.ad_flags = d2.ad_flags)
    (hlen : d1.ad_lang.bv_len = d2.ad_lang.bv_len)
    (hlang : d1.ad_lang.bv_val.map TOLOWER = d2.ad_lang.bv_val.map TOLOWER) :
    ad_match d1 = ad_match d2 := by
  funext a
  simp only [ad_match, hflags, hlen]
  rw [← strncasecmp_map_right a.ad_lang.bv_val d1.ad_lang.bv_val, hlang,
    strncasecmp_map_right]

theorem slap_bv2ad_find_congr (d1 d2 : AttributeDescription) (l : List AttributeDescription)
    (hflags : d1.ad_flags = d2.ad_flags)
    (hlen : d1.ad_lang.bv_len = d2.ad_lang.bv_len)
    (hlang : d1.ad_lang.bv_val.map TOLOWER = d2.ad_lang.bv_val.map TOLOWER) :
    slap_bv2ad_find d1 l = slap_bv2ad_find d2 l := by
  rw [slap_bv2ad_find_eq, slap_bv2ad_find_eq, ad_match_congr d1 d2 hflags hlen hlang]

/-- A new node is found by the description it was built from. -/
theorem ad_match_new (addr : Nat) (desc : AttributeDescription)
    (hlen : desc.ad_lang.bv_val.length = desc.ad_lang.bv_len)
    (hnul : ∀ c ∈ desc.ad_lang.bv_val, c ≠ 0) :
    ad_match desc (slap_bv2ad_new addr desc) = true := by
  have hf := slap_bv2ad_new_fields addr desc
  by_cases hz : desc.ad_lang.bv_len = 0
  · simp [ad_match, hf.2.2.1, hf.2.2.2, hz]
  · have hl := slap_bv2ad_new_lang addr desc hlen hnul hz
    simp only [ad_match, hf.2.2.1, hf.2.2.2, hl, beq_self_eq_true, Bool.true_and,
      Bool.or_eq_true, beq_iff_eq]
    right
    rw [← strncasecmp_map_right, strncasecmp_self]

theorem slap_bv2ad_find_link (desc d2 : AttributeDescription) (dlen : Nat)
    (l : List AttributeDescription)
    (hnone : slap_bv2ad_find desc l = none) (hd2 : ad_match desc d2 = true) :
    slap_bv2ad_find desc (slap_bv2ad_link dlen d2 l) = some d2 := by
  rw [slap_bv2ad_find_eq]
  rw [slap_bv2ad_find_none] at hnone
  cases l with
  | nil => simp [slap_bv2ad_link, hd2]
  | cons h t =>
    have hh : ad_match desc h = false := hnone h (by simp)
    simp only [slap_bv2ad_link]
    split_ifs
    · simp [hd2]
    · simp [hh, hd2]

/-! ## Interning -/

theorem slap_bv2ad_intern_found (reg : Registry) (desc a : AttributeDescription)
    (h : slap_bv2ad_find desc (reg.sat_ad desc.ad_type) = some a) :
    slap_bv2ad_intern reg desc = { rtn := LDAP_SUCCESS, text := none, ad := some a, reg := reg } := by
  simp [slap_bv2ad_intern, h]

/-- C1: interning identity.  When two values parse (so `slap_bv2ad` succeeds on
both) to the same attribute type, the same flags and the same language option
up to ASCII case, then from any registry the first call and the call that
follows it succeed and return the same handle, and the second call leaves the
registry, hence every intern list, as the first call left it.  In the sample
schema `cn` and `CN` give one handle and `cn;lang-EN` another. -/
theorem interning_identity (S : Schema) (reg : Registry) (bv1 bv2 : Option (List Nat))
    (d1 d2 : AttributeDescription)
    (h1 : slap_bv2ad_parse S bv1 = .ok d1) (h2 : slap_bv2ad_parse S bv2 = .ok d2)
    (htype : d1.ad_type = d2.ad_type) (hflags : d1.ad_flags = d2.ad_flags)
    (hlang : d1.ad_lang.bv_val.map TOLOWER = d2.ad_lang.bv_val.map TOLOWER) :
    (slap_bv2ad S reg bv1).rtn = LDAP_SUCCESS ∧
    (slap_bv2ad S (slap_bv2ad S reg bv1).reg bv2).rtn = LDAP_SUCCESS ∧
    (slap_bv2ad S reg bv1).ad ≠ none ∧
    (slap_bv2ad S (slap_bv2ad S reg bv1).reg bv2).ad = (slap_bv2ad S reg bv1).ad ∧
    (slap_bv2ad S (slap_bv2ad S reg bv1).reg bv2).reg = (slap_bv2ad S reg bv1).reg ∧
    slap_bv2ad_handles Sample.schema Registry.empty
        [some (cs "cn"), some (cs "CN"), some (cs "cn;lang-EN")]
      = [some Sample.ad_cn, some Sample.ad_cn, some Sample.ad_cn_lang_en] ∧
    Sample.ad_cn ≠ Sample.ad_cn_lang_en := by
  have hl1 := slap_bv2ad_parse_lang S bv1 d1 h1
  have hl2 := slap_bv2ad_parse_lang S bv2 d2 h2
  have hlen : d1.ad_lang.bv_len = d2.ad_lang.bv_len := by
    rw [← hl1.1, ← hl2.1]
    simpa using congrArg List.length hlang
  have hmain :
      (slap_bv2ad S reg bv1).ad ≠ none ∧
      (slap_bv2ad S (slap_bv2ad S reg bv1).reg bv2).ad = (slap_bv2ad S reg bv1).ad ∧
      (slap_bv2ad S (slap_bv2ad S reg bv1).reg bv2).reg = (slap_bv2ad S reg bv1).reg := by
    rw [slap_bv2ad_of_parse_ok S _ bv2 d2 h2, slap_bv2ad_of_parse_ok S reg bv1 d1 h1]
    cases hf : slap_bv2ad_find d1 (reg.sat_ad d1.ad_type) with
    | some a =>
      rw [slap_bv2ad_intern_found reg d1 a hf]
      have hf2 : slap_bv2ad_find d2 (reg.sat_ad d2.ad_type) = some a := by
        rw [← htype, ← slap_bv2ad_find_congr d1 d2 _ hflags hlen hlang]
        exact hf
      rw [slap_bv2ad_intern_found reg d2 a hf2]
      simp
    | none =>
      have hr1 : slap_bv2ad_intern reg d1 =
          { rtn := LDAP_SUCCESS, text := none, ad := some (slap_bv2ad_new reg.brk d1),
            reg := { brk := reg.brk + 1,
                     sat_ad := fun u =>
                       if u = d1.ad_type then
                         slap_bv2ad_link (slap_bv2ad_dlen d1) (slap_bv2ad_new reg.brk d1)
                           (reg.sat_ad d1.ad_type)
                       else reg.sat_ad u } } := by
        simp [slap_bv2ad_intern, hf]
      rw [hr1]
      have hf2 : slap_bv2ad_find d2
          (slap_bv2ad_link (slap_bv2ad_dlen d1) (slap_bv2ad_new reg.brk d1)
            (reg.sat_ad d1.ad_type)) = some (slap_bv2ad_new reg.brk d1) := by
        rw [← slap_bv2ad_find_congr d1 d2 _ hflags hlen hlang]
        exact slap_bv2ad_find_link d1 _ _ _ hf (ad_match_new _ d1 hl1.1 hl1.2)
      rw [slap_bv2ad_intern_found _ d2 (slap_bv2ad_new reg.brk d1)
        (by simpa [← htype] using hf2)]
      simp
  refine ⟨?_, ?_, hmain.1, hmain.2.1, hmain.2.2, by decide, by decide⟩
  · exact (slap_bv2ad_rtn_success_iff S reg bv1).2 ⟨d1, h1⟩
  · exact (slap_bv2ad_rtn_success_iff S _ bv2).2 ⟨d2, h2⟩

theorem interning_identity_witness :
    (slap_bv2ad Sample.schema
        (slap_bv2ad Sample.schema Registry.empty (some (cs "commonName;lang-en"))).reg
        (some (cs "CN;LANG-EN"))).ad
      = (slap_bv2ad Sample.schema Registry.empty (some (cs "commonName;lang-en"))).ad :=
  (interning_identity Sample.schema Registry.empty (some (cs "commonName;lang-en"))
    (some (cs "CN;LANG-EN"))
    { ad_addr := 0, ad_type := Sample.at_cn, ad_cname := { bv_len := 10, bv_val := [] },
      ad_lang := { bv_len := 7, bv_val := cs "lang-en" }, ad_flags := 0 }
    { ad_addr := 0, ad_type := Sample.at_cn, ad_cname := { bv_len := 2, bv_val := [] },
      ad_lang := { bv_len := 7, bv_val := cs "LANG-EN" }, ad_flags := 0 }
    (by rfl) (by rfl) (by rfl) (by rfl) (by decide)).2.2.2.1

/-! ## The head of an intern list -/

theorem slap_bv2ad_dlen_eq_zero (desc : AttributeDescription) :
    slap_bv2ad_dlen desc = 0 ↔ ad_bare desc = true := by
  unfold slap_bv2ad_dlen ad_bare SLAP_DESC_NONE
  by_cases h1 : desc.ad_lang.bv_len = 0
  · by_cases h2 : desc.ad_flags = 0
    · simp [h1, h2]
    · simp [h1, h2]
  · simp [h1]

theorem ad_bare_new (addr : Nat) (desc : AttributeDescription) :
    ad_bare (slap_bv2ad_new addr desc) = ad_bare desc := by
  have hf := slap_bv2ad_new_fields addr desc
  simp only [ad_bare, hf.2.2.1, hf.2.2.2]

theorem ad_match_bare (desc a : AttributeDescription)
    (hd : ad_bare desc = true) (ha : ad_bare a = true) : ad_match desc a = true := by
  simp only [ad_bare, Bool.and_eq_true, beq_iff_eq] at hd ha
  simp [ad_match, hd.1, hd.2, ha.1, ha.2]

theorem HeadOk_link (desc : AttributeDescription) (addr : Nat)
    (l : List AttributeDescription) (hl : HeadOk l)
    (hnone : slap_bv2ad_find desc l = none) :
    HeadOk (slap_bv2ad_link (slap_bv2ad_dlen desc) (slap_bv2ad_new addr desc) l) := by
  rw [slap_bv2ad_find_none] at hnone
  by_cases hb : ad_bare desc = true
  · have hd : slap_bv2ad_dlen desc = 0 := (slap_bv2ad_dlen_eq_zero desc).2 hb
    have hl' : slap_bv2ad_link (slap_bv2ad_dlen desc) (slap_bv2ad_new addr desc) l
        = slap_bv2ad_new addr desc :: l := by
      cases l <;> simp [slap_bv2ad_link, hd]
    rw [hl']
    intro a ha hab
    rcases List.mem_cons.1 ha with rfl | ha
    · rfl
    · have := hnone a ha
      rw [ad_match_bare desc a hb hab] at this
      exact Bool.noConfusion this
  · have hd : slap_bv2ad_dlen desc ≠ 0 := fun h => hb ((slap_bv2ad_dlen_eq_zero desc).1 h)
    have hnb : ad_bare (slap_bv2ad_new addr desc) ≠ true := by
      rw [ad_bare_new]
      exact hb
    cases l with
    | nil =>
      intro a ha hab
      simp only [slap_bv2ad_link, List.mem_singleton] at ha
      subst ha
      exact absurd hab hnb
    | cons h t =>
      simp only [slap_bv2ad_link, hd, if_false]
      intro a ha hab
      have ha' : a ∈ h :: t := by
        simp only [List.mem_cons] at ha ⊢
        rcases ha with rfl | rfl | ha
        · exact Or.inl rfl
        · exact absurd hab hnb
        · exact Or.inr ha
      have := hl a ha' hab
      simpa using this

theorem HeadOk_step (S : Schema) (reg : Registry) (bv : Option (List Nat))
    (h : ∀ U, HeadOk (reg.sat_ad U)) : ∀ U, HeadOk ((slap_bv2ad S reg bv).reg.sat_ad U) := by
  rcases slap_bv2ad_step S reg bv with ⟨hreg, _⟩ | ⟨desc, _, hnone, _, _, hlist, hother⟩
  · rw [hreg]
    exact h
  · intro U
    by_cases hU : U = desc.ad_type
    · subst hU
      rw [hlist]
      exact HeadOk_link desc _ _ (h _) hnone
    · rw [hother U hU]
      exact h U

theorem HeadOk_seq (S : Schema) (inputs : List (Option (List Nat))) :
    ∀ U, HeadOk ((slap_bv2ad_seq S Registry.empty inputs).sat_ad U) :=
  slap_bv2ad_seq_invariant S (fun reg => ∀ U, HeadOk (reg.sat_ad U))
    (fun reg bv h => HeadOk_step S reg bv h)
    Registry.empty (by intro U a ha; simp [Registry.empty] at ha) inputs

/-- C3 (counterexample): the claim as stated fails.  After the single call on
`cn;lang-en` from empty intern lists the list of `cn` is not empty and its
head carries a language tag. -/
theorem head_invariant_counterexample :
    ¬ ∀ (inputs : List (Option (List Nat))) (T : AttributeType) (h : AttributeDescription),
      ((slap_bv2ad_seq Sample.schema Registry.empty inputs).sat_ad T).head? = some h →
      h.ad_flags = 0 ∧ h.ad_lang.bv_len = 0 := by
  intro H
  have h := H [some (cs "cn;lang-en")] Sample.at_cn
    { ad_addr := 0, ad_type := Sample.at_cn,
      ad_cname := { bv_len := 10, bv_val := cs "cn;lang-en" },
      ad_lang := { bv_len := 7, bv_val := cs "lang-en" }, ad_flags := 0 }
    (by decide)
  revert h
  decide

/-- C3 (amended): in every registry reached from empty intern lists by
`slap_bv2ad` calls, for every type whose list holds a bare AD (zero flags,
empty language tag), that AD is the head of the list: the head has zero flags
and an empty language tag. -/
theorem head_invariant (S : Schema) (inputs : List (Option (List Nat)))
    (T : AttributeType) (a : AttributeDescription)
    (ha : a ∈ (slap_bv2ad_seq S Registry.empty inputs).sat_ad T)
    (hbare : a.ad_flags = 0 ∧ a.ad_lang.bv_len = 0) :
    ∃ h, ((slap_bv2ad_seq S Registry.empty inputs).sat_ad T).head? = some h ∧
      h = a ∧ h.ad_flags = 0 ∧ h.ad_lang.bv_len = 0 := by
  refine ⟨a, HeadOk_seq S inputs T a ha ?_, rfl, hbare.1, hbare.2⟩
  simp [ad_bare, hbare.1, hbare.2]

theorem head_invariant_witness :
    ∃ h, ((slap_bv2ad_seq Sample.schema Registry.empty
        [some (cs "cn;lang-en"), some (cs "cn")]).sat_ad Sample.at_cn).head? = some h ∧
      h = { ad_addr := 1, ad_type := Sample.at_cn,
            ad_cname := { bv_len := 2, bv_val := cs "cn" },
            ad_lang := { bv_len := 0, bv_val := [] }, ad_flags := 0 } ∧
      h.ad_flags = 0 ∧ h.ad_lang.bv_len = 0 :=
  head_invariant Sample.schema [some (cs "cn;lang-en"), some (cs "cn")] Sample.at_cn
    { ad_addr := 1, ad_type := Sample.at_cn,
      ad_cname := { bv_len := 2, bv_val := cs "cn" },
      ad_lang := { bv_len := 0, bv_val := [] }, ad_flags := 0 }
    (by decide) (by decide)

theorem slap_bv2ad_seq_append (S : Schema) (reg : Registry)
    (xs ys : List (Option (List Nat))) :
    slap_bv2ad_seq S reg (xs ++ ys) = slap_bv2ad_seq S (slap_bv2ad_seq S reg xs) ys := by
  induction xs generalizing reg with
  | nil => rfl
  | cons x xs ih => simp [slap_bv2ad_seq, ih]

/-- How one call changes the list of a type: not at all, or by one new node,
in front when the node is bare or the list empty, else right behind the
head. -/
theorem slap_bv2ad_link_position (S : Schema) (reg : Registry) (bv : Option (List Nat))
    (U : AttributeType) :
    (slap_bv2ad S reg bv).reg.sat_ad U = reg.sat_ad U ∨
    ∃ d, (slap_bv2ad S reg bv).ad = some d ∧ d.ad_type = U ∧ d.ad_addr = reg.brk ∧
      ((ad_bare d = true ∧ (slap_bv2ad S reg bv).reg.sat_ad U = d :: reg.sat_ad U) ∨
       (ad_bare d = false ∧ reg.sat_ad U = [] ∧ (slap_bv2ad S reg bv).reg.sat_ad U = [d]) ∨
       (ad_bare d = false ∧ ∃ h t, reg.sat_ad U = h :: t ∧
          (slap_bv2ad S reg bv).reg.sat_ad U = h :: d :: t)) := by
  rcases slap_bv2ad_step S reg bv with ⟨hreg, _⟩ | ⟨desc, _, hnone, had, _, hlist, hother⟩
  · left
    rw [hreg]
  · by_cases hU : U = desc.ad_type
    · subst hU
      right
      refine ⟨slap_bv2ad_new reg.brk desc, had, (slap_bv2ad_new_fields _ _).2.1,
        (slap_bv2ad_new_fields _ _).1, ?_⟩
      rw [hlist, ad_bare_new]
      by_cases hb : ad_bare desc = true
      · left
        have hd : slap_bv2ad_dlen desc = 0 := (slap_bv2ad_dlen_eq_zero desc).2 hb
        refine ⟨hb, ?_⟩
        cases reg.sat_ad desc.ad_type <;> simp [slap_bv2ad_link, hd]
      · have hd : slap_bv2ad_dlen desc ≠ 0 :=
          fun h => hb ((slap_bv2ad_dlen_eq_zero desc).1 h)
        have hb' : ad_bare desc = false := by simpa using hb
        right
        cases hl : reg.sat_ad desc.ad_type with
        | nil =>
          left
          exact ⟨hb', rfl, by simp [slap_bv2ad_link]⟩
        | cons h t =>
          right
          exact ⟨hb', h, t, rfl, by simp [slap_bv2ad_link, hd]⟩
    · left
      exact hother U hU

theorem head_bare_step (S : Schema) (reg : Registry) (bv : Option (List Nat))
    (U : AttributeType) (h : AttributeDescription)
    (hhead : (reg.sat_ad U).head? = some h) (hbare : ad_bare h = true) :
    ((slap_bv2ad S reg bv).reg.sat_ad U).head? = some h := by
  rcases slap_bv2ad_step S reg bv with ⟨hreg, _⟩ | ⟨desc, _, hnone, _, _, hlist, hother⟩
  · rw [hreg]
    exact hhead
  · by_cases hU : U = desc.ad_type
    · subst hU
      rw [hlist]
      cases hl : reg.sat_ad desc.ad_type with
      | nil => simp [hl] at hhead
      | cons x t =>
        rw [hl] at hhead hnone
        simp only [List.head?_cons, Option.some.injEq] at hhead
        subst hhead
        have hx : ad_match desc x = false := (slap_bv2ad_find_none desc _).1 hnone x (by simp)
        have hb : ¬ ad_bare desc = true := by
          intro hb
          rw [ad_match_bare desc x hb hbare] at hx
          exact Bool.noConfusion hx
        have hd : slap_bv2ad_dlen desc ≠ 0 :=
          fun h => hb ((slap_bv2ad_dlen_eq_zero desc).1 h)
        simp [slap_bv2ad_link, hd]
    · rw [hother U hU]
      exact hhead

theorem head_bare_seq (S : Schema) (reg : Registry) (later : List (Option (List Nat)))
    (U : AttributeType) (h : AttributeDescription)
    (hhead : (reg.sat_ad U).head? = some h) (hbare : ad_bare h = true) :
    ((slap_bv2ad_seq S reg later).sat_ad U).head? = some h := by
  induction later generalizing reg with
  | nil => exact hhead
  | cons bv rest ih => exact ih _ (head_bare_step S reg bv U h hhead hbare)

/-- The handle a call returns sits in the list of its type afterwards, when
every node of the registry sits in the list of its own type. -/
theorem slap_bv2ad_ad_mem (S : Schema) (reg : Registry) (bv : Option (List Nat))
    (a : AttributeDescription) (hreg : BinaryOk S reg)
    (ha : (slap_bv2ad S reg bv).ad = some a) :
    a ∈ (slap_bv2ad S reg bv).reg.sat_ad a.ad_type := by
  rcases slap_bv2ad_step S reg bv with ⟨hsame, hfound⟩ | ⟨desc, _, _, had, _, hlist, _⟩
  · obtain ⟨desc, _, hf⟩ := hfound a ha
    have hmem := (slap_bv2ad_find_some desc a _ hf).1
    rw [hsame, (hreg _ a hmem).1]
    exact hmem
  · rw [had] at ha
    simp only [Option.some.injEq] at ha
    subst ha
    rw [(slap_bv2ad_new_fields _ _).2.1, hlist, mem_slap_bv2ad_link]
    exact Or.inl rfl

/-- C4: a call changes the intern list of a type by at most one new node; a
bare node goes in front, an option-bearing node goes to position 1 when the
list has a head and to position 0 only when the list is empty, and the nodes
interned before keep their order.  A bare head stays the head through every
later sequence of calls.  In a registry reached from empty intern lists, the
bare AD a call returns is the head of the list of its type after every later
sequence of calls. -/
theorem bare_stays_head (S : Schema) :
    (∀ (reg : Registry) (bv : Option (List Nat)) (U : AttributeType),
      (slap_bv2ad S reg bv).reg.sat_ad U = reg.sat_ad U ∨
      ∃ d, (slap_bv2ad S reg bv).ad = some d ∧ d.ad_type = U ∧ d.ad_addr = reg.brk ∧
        ((ad_bare d = true ∧ (slap_bv2ad S reg bv).reg.sat_ad U = d :: reg.sat_ad U) ∨
         (ad_bare d = false ∧ reg.sat_ad U = [] ∧
            (slap_bv2ad S reg bv).reg.sat_ad U = [d]) ∨
         (ad_bare d = false ∧ ∃ h t, reg.sat_ad U = h :: t ∧
            (slap_bv2ad S reg bv).reg.sat_ad U = h :: d :: t))) ∧
    (∀ (reg : Registry) (later : List (Option (List Nat))) (U : AttributeType)
        (h : AttributeDescription),
      (reg.sat_ad U).head? = some h → ad_bare h = true →
      ((slap_bv2ad_seq S reg later).sat_ad U).head? = some h) ∧
    (∀ (inputs : List (Option (List Nat))) (bv : Option (List Nat))
        (later : List (Option (List Nat))) (a : AttributeDescription),
      (slap_bv2ad S (slap_bv2ad_seq S Registry.empty inputs) bv).ad = some a →
      ad_bare a = true →
      ((slap_bv2ad_seq S Registry.empty (inputs ++ bv :: later)).sat_ad a.ad_type).head?
        = some a) := by
  refine ⟨fun reg bv U => slap_bv2ad_link_position S reg bv U,
    fun reg later U h hhead hbare => head_bare_seq S reg later U h hhead hbare, ?_⟩
  intro inputs bv later a ha hbare
  have hmem := slap_bv2ad_ad_mem S _ bv a (BinaryOk_seq S inputs) ha
  have hseq : slap_bv2ad_seq S Registry.empty (inputs ++ [bv])
      = (slap_bv2ad S (slap_bv2ad_seq S Registry.empty inputs) bv).reg := by
    rw [slap_bv2ad_seq_append]
    rfl
  have hhead : ((slap_bv2ad S (slap_bv2ad_seq S Registry.empty inputs) bv).reg.sat_ad
      a.ad_type).head? = some a := by
    have := HeadOk_seq S (inputs ++ [bv]) a.ad_type
    rw [hseq] at this
    exact this a hmem hbare
  have happ : inputs ++ bv :: later = (inputs ++ [bv]) ++ later := by simp
  rw [happ, slap_bv2ad_seq_append, hseq]
  exact head_bare_seq S _ later a.ad_type a hhead hbare

theorem bare_stays_head_witness :
    ((slap_bv2ad_seq Sample.schema Registry.empty
        ([some (cs "cn;lang-en")] ++ some (cs "cn") ::
          [some (cs "cn;lang-fr"), some (cs "CN")])).sat_ad Sample.at_cn).head?
      = some { ad_addr := 1, ad_type := Sample.at_cn,
               ad_cname := { bv_len := 2, bv_val := cs "cn" },
               ad_lang := { bv_len := 0, bv_val := [] }, ad_flags := 0 } :=
  (bare_stays_head Sample.schema).2.2 [some (cs "cn;lang-en")] (some (cs "cn"))
    [some (cs "cn;lang-fr"), some (cs "CN")]
    { ad_addr := 1, ad_type := Sample.at_cn,
      ad_cname := { bv_len := 2, bv_val := cs "cn" },
      ad_lang := { bv_len := 0, bv_val := [] }, ad_flags := 0 }
    (by decide) (by decide)

/-! ## The display string -/

theorem cstr_ne_zero (s : List Nat) : ∀ c ∈ cstr s, c ≠ 0 := by
  intro c hc
  have := List.mem_takeWhile_imp hc
  simpa using this

theorem poke_nil_zero (x : List Nat) : poke [] 0 x = x := by
  simp [poke]

/-- A store at the end of the bytes `c` that covers whatever followed them. -/
theorem poke_overwrite (c t x : List Nat) (h : t.length ≤ x.length) :
    poke (c ++ t) c.length x = c ++ x := by
  rw [poke_eq, List.take_left, List.drop_of_length_le (by simp; omega)]
  have : c.length - (c ++ t).length = 0 := by simp
  rw [this]
  simp

/-- The display string of a new node when the caller wrote the type name with
as many bytes as the canonical name has: the canonical name, `;binary` when
the binary flag is set, `;` and the lower-cased language option when one was
given; the stored length is the length of that string. -/
theorem slap_bv2ad_new_cname (addr : Nat) (desc : AttributeDescription)
    (hname : desc.ad_cname.bv_len = strlen desc.ad_type.sat_cname)
    (hlen : desc.ad_lang.bv_val.length = desc.ad_lang.bv_len)
    (hnul : ∀ c ∈ desc.ad_lang.bv_val, c ≠ 0) :
    (slap_bv2ad_new addr desc).ad_cname =
      { bv_len := (Spec.display_string desc.ad_type.sat_cname (slap_ad_is_binary desc)
          desc.ad_lang.bv_val).length,
        bv_val := Spec.display_string desc.ad_type.sat_cname (slap_ad_is_binary desc)
          desc.ad_lang.bv_val } := by
  have hC := cstr_ne_zero desc.ad_type.sat_cname
  have hlow : ∀ c ∈ desc.ad_lang.bv_val.map TOLOWER, c ≠ 0 := by
    intro c hc
    obtain ⟨x, hx, rfl⟩ := List.mem_map.1 hc
    exact fun h0 => hnul x hx ((TOLOWER_eq_zero x).1 h0)
  by_cases hd : slap_bv2ad_dlen desc = 0
  · have hb := (slap_bv2ad_dlen_eq_zero desc).1 hd
    simp only [ad_bare, Bool.and_eq_true, beq_iff_eq] at hb
    have hl0 : desc.ad_lang.bv_val = [] := by
      apply List.eq_nil_of_length_eq_zero
      rw [hlen, hb.2]
    simp [slap_bv2ad_new, hd, Spec.display_string, slap_ad_is_binary, hb.1, hl0, hname,
      strlen]
  · simp only [slap_bv2ad_new, hd, if_false, hname, poke_nil_zero, strlen, strcpy]
    have hB : cstr [59, 98, 105, 110, 97, 114, 121] = [59, 98, 105, 110, 97, 114, 121] := by
      decide
    rw [hB]
    -- the buffer after the binary part: the canonical name, maybe `;binary`, and the NUL
    obtain ⟨D, hD, hbuf, hlen1, hDnul⟩ : ∃ D : List Nat,
        D = cstr desc.ad_type.sat_cname ++
          (if slap_ad_is_binary desc = true then [59, 98, 105, 110, 97, 114, 121] else []) ∧
        (if slap_ad_is_binary desc = true then
            poke (cstr desc.ad_type.sat_cname ++ [0]) (cstr desc.ad_type.sat_cname).length
              ([59, 98, 105, 110, 97, 114, 121] ++ [0])
          else cstr desc.ad_type.sat_cname ++ [0]) = D ++ [0] ∧
        (if slap_ad_is_binary desc = true then (cstr desc.ad_type.sat_cname).length + 7
          else (cstr desc.ad_type.sat_cname).length) = D.length ∧
        (∀ c ∈ D, c ≠ 0) := by
      refine ⟨_, rfl, ?_, ?_, ?_⟩
      · split_ifs
        · rw [poke_overwrite _ _ _ (by simp)]
          simp
        · simp
      · split_ifs <;> simp
      · intro c hc
        split_ifs at hc
        · rcases List.mem_append.1 hc with h | h
          · exact hC c h
          · have hlit : ∀ x ∈ [59, 98, 105, 110, 97, 114, 121], x ≠ 0 := by decide
            exact hlit c h
        · simp only [List.append_nil] at hc
          exact hC c hc
    rw [hbuf, hlen1]
    by_cases hl : desc.ad_lang.bv_len = 0
    · have hl0 : desc.ad_lang.bv_val = [] := by
        apply List.eq_nil_of_length_eq_zero
        rw [hlen, hl]
      simp only [hl, ne_eq, not_true_eq_false, if_false]
      have hcs : cstr (D ++ [0]) = D := cstr_append_nul D [] hDnul
      rw [hcs]
      simp [Spec.display_string, hl0, ← hD]
    · simp only [hl, ne_eq, not_false_eq_true, if_true]
      rw [← hlen, strncpy_exact _ hnul]
      have h3 : poke (poke (D ++ [0]) D.length [59]) (D.length + 1) desc.ad_lang.bv_val
          = poke (D ++ [0]) D.length ([59] ++ desc.ad_lang.bv_val) :=
        poke_poke_adjacent (D ++ [0]) D.length [59] desc.ad_lang.bv_val
      have h4 : poke (poke (D ++ [0]) D.length ([59] ++ desc.ad_lang.bv_val))
            (D.length + 1 + desc.ad_lang.bv_val.length) [0]
          = poke (D ++ [0]) D.length ([59] ++ desc.ad_lang.bv_val ++ [0]) := by
        have := poke_poke_adjacent (D ++ [0]) D.length ([59] ++ desc.ad_lang.bv_val) [0]
        simpa [Nat.add_assoc, Nat.add_comm 1] using this
      rw [h3, h4, poke_overwrite _ _ _ (by simp)]
      have ht : (D ++ ([59] ++ desc.ad_lang.bv_val ++ [0])).take (D.length + 1)
          = D ++ [59] := by
        have : D ++ ([59] ++ desc.ad_lang.bv_val ++ [0])
            = (D ++ [59]) ++ (desc.ad_lang.bv_val ++ [0]) := by simp
        rw [this, List.take_left' (by simp)]
      have hdr : (D ++ ([59] ++ desc.ad_lang.bv_val ++ [0])).drop (D.length + 1)
          = desc.ad_lang.bv_val ++ 0 :: [] := by
        have : D ++ ([59] ++ desc.ad_lang.bv_val ++ [0])
            = (D ++ [59]) ++ (desc.ad_lang.bv_val ++ [0]) := by simp
        rw [this, List.drop_left' (by simp)]
      rw [ht, hdr, ldap_pvt_str2lower_append_nul _ _ hnul]
      have hall : ∀ c ∈ D ++ [59] ++ desc.ad_lang.bv_val.map TOLOWER, c ≠ 0 := by
        intro c hc
        simp only [List.mem_append, List.mem_singleton] at hc
        rcases hc with (h | h) | h
        · exact hDnul c h
        · omega
        · exact hlow c h
      have hcs : cstr (D ++ [59] ++ (desc.ad_lang.bv_val.map TOLOWER ++ [0]))
          = D ++ [59] ++ desc.ad_lang.bv_val.map TOLOWER := by
        have := cstr_append_nul _ [] hall
        simpa [List.append_assoc] using this
      rw [hcs]
      have hl' : desc.ad_lang.bv_val ≠ [] := by
        intro h0
        rw [h0] at hlen
        exact hl hlen.symm
      simp [Spec.display_string, hl', ← hD, List.append_assoc]
      omega

/-- C2 (failing inputs): in the sample schema `commonName` names the type `cn`
and `fax` names the type `facsimileTelephoneNumber`.  From the empty registry,
`commonName` returns an AD whose display string is `cn` with stored length 10;
`fax` returns the display string `facsimileTelephoneNumber` with stored length
3; `fax;lang-EN` returns the display string `fac;lang-en` with stored length
11, not `facsimileTelephoneNumber;lang-en` of length 32. -/
theorem display_string_alias :
    Sample.schema.at_find (cs "commonName") = some Sample.at_cn ∧
    Sample.schema.at_find (cs "fax") = some Sample.at_fax ∧
    (slap_bv2ad Sample.schema Registry.empty (some (cs "commonName"))).rtn = LDAP_SUCCESS ∧
    (slap_bv2ad Sample.schema Registry.empty (some (cs "commonName"))).ad.map
        (fun a => a.ad_cname) = some { bv_len := 10, bv_val := cs "cn" } ∧
    (slap_bv2ad Sample.schema Registry.empty (some (cs "fax"))).ad.map
        (fun a => a.ad_cname) = some { bv_len := 3, bv_val := cs "facsimileTelephoneNumber" } ∧
    (slap_bv2ad Sample.schema Registry.empty (some (cs "fax;lang-EN"))).rtn = LDAP_SUCCESS ∧
    (slap_bv2ad Sample.schema Registry.empty (some (cs "fax;lang-EN"))).ad.map
        (fun a => a.ad_cname) = some { bv_len := 11, bv_val := cs "fac;lang-en" } ∧
    (cs "facsimileTelephoneNumber;lang-en").length = 32 := by
  decide

/-! ## Membership in an attribute list -/

theorem slap_bv2ad_ad_of_success (S : Schema) (reg : Registry) (bv : Option (List Nat))
    (h : (slap_bv2ad S reg bv).rtn = LDAP_SUCCESS) : ∃ a, (slap_bv2ad S reg bv).ad = some a := by
  obtain ⟨d, hd⟩ := (slap_bv2ad_rtn_success_iff S reg bv).1 h
  rw [slap_bv2ad_of_parse_ok S reg bv d hd]
  unfold slap_bv2ad_intern
  split <;> simp

theorem slap_str2ad_seq_append (S : Schema) (reg : Registry) (xs ys : List (List Nat)) :
    slap_str2ad_seq S reg (xs ++ ys) = slap_str2ad_seq S (slap_str2ad_seq S reg xs) ys := by
  induction xs generalizing reg with
  | nil => rfl
  | cons x xs ih => simp [slap_str2ad_seq, ih]

theorem ad_inlist_values (S : Schema) (reg : Registry) (desc : AttributeDescription)
    (attrs : List (List Nat)) :
    (ad_inlist S reg desc attrs).1 = 1 ∨ (ad_inlist S reg desc attrs).1 = 0 := by
  induction attrs generalizing reg with
  | nil => simp [ad_inlist]
  | cons a rest ih =>
    simp only [ad_inlist]
    split_ifs with h1
    · exact ih _
    · split
      · split_ifs
        · simp
        · exact ih _
      · exact ih _

theorem ad_inlist_eq_one (S : Schema) (reg : Registry) (desc : AttributeDescription)
    (attrs : List (List Nat)) :
    (ad_inlist S reg desc attrs).1 = 1 ↔
      ∃ pre n post ad, attrs = pre ++ n :: post ∧
        (slap_str2ad S (slap_str2ad_seq S reg pre) n).rtn = LDAP_SUCCESS ∧
        (slap_str2ad S (slap_str2ad_seq S reg pre) n).ad = some ad ∧
        is_ad_subtype S desc ad = 1 := by
  induction attrs generalizing reg with
  | nil => simp [ad_inlist]
  | cons a rest ih =>
    have hshift : (∃ pre n post ad, rest = pre ++ n :: post ∧
          (slap_str2ad S (slap_str2ad_seq S (slap_str2ad S reg a).reg pre) n).rtn
            = LDAP_SUCCESS ∧
          (slap_str2ad S (slap_str2ad_seq S (slap_str2ad S reg a).reg pre) n).ad = some ad ∧
          is_ad_subtype S desc ad = 1) →
        ∃ pre n post ad, a :: rest = pre ++ n :: post ∧
          (slap_str2ad S (slap_str2ad_seq S reg pre) n).rtn = LDAP_SUCCESS ∧
          (slap_str2ad S (slap_str2ad_seq S reg pre) n).ad = some ad ∧
          is_ad_subtype S desc ad = 1 := by
      rintro ⟨pre, n, post, ad, hrest, h1, h2, h3⟩
      exact ⟨a :: pre, n, post, ad, by simp [hrest], h1, h2, h3⟩
    have hunshift : ∀ pre n post ad, a :: rest = pre ++ n :: post → pre ≠ [] →
        (slap_str2ad S (slap_str2ad_seq S reg pre) n).rtn = LDAP_SUCCESS →
        (slap_str2ad S (slap_str2ad_seq S reg pre) n).ad = some ad →
        is_ad_subtype S desc ad = 1 →
        ∃ pre n post ad, rest = pre ++ n :: post ∧
          (slap_str2ad S (slap_str2ad_seq S (slap_str2ad S reg a).reg pre) n).rtn
            = LDAP_SUCCESS ∧
          (slap_str2ad S (slap_str2ad_seq S (slap_str2ad S reg a).reg pre) n).ad = some ad ∧
          is_ad_subtype S desc ad = 1 := by
      intro pre n post ad hl hpre h1 h2 h3
      cases pre with
      | nil => exact absurd rfl hpre
      | cons p pre' =>
        simp only [List.cons_append, List.cons.injEq] at hl
        obtain ⟨rfl, hrest⟩ := hl
        exact ⟨pre', n, post, ad, hrest, h1, h2, h3⟩
    have hvals : ∀ ad, is_ad_subtype S desc ad = 1 ∨ is_ad_subtype S desc ad = 0 := by
      intro ad
      unfold is_ad_subtype
      split_ifs <;> simp
    simp only [ad_inlist]
    by_cases hr : (slap_str2ad S reg a).rtn = LDAP_SUCCESS
    · simp only [hr, ne_eq, not_true_eq_false, if_false]
      obtain ⟨ad0, had0⟩ := slap_bv2ad_ad_of_success S reg _ hr
      have had0' : (slap_str2ad S reg a).ad = some ad0 := had0
      simp only [had0']
      by_cases hsub : is_ad_subtype S desc ad0 = 1
      · have hne : is_ad_subtype S desc ad0 ≠ 0 := by rw [hsub]; decide
        simp only [hne, ne_eq, not_false_eq_true, if_true, true_iff]
        exact ⟨[], a, rest, ad0, rfl, hr, had0', hsub⟩
      · have h0 : is_ad_subtype S desc ad0 = 0 := (hvals ad0).resolve_left hsub
        simp only [h0, ne_eq, not_true_eq_false, if_false]
        rw [ih]
        constructor
        · exact hshift
        · rintro ⟨pre, n, post, ad, hl, h1, h2, h3⟩
          by_cases hpre : pre = []
          · subst hpre
            simp only [List.nil_append, List.cons.injEq] at hl
            obtain ⟨rfl, _⟩ := hl
            simp only [slap_str2ad_seq] at h2
            rw [had0'] at h2
            simp only [Option.some.injEq] at h2
            subst h2
            exact absurd h3 hsub
          · exact hunshift pre n post ad hl hpre h1 h2 h3
    · simp only [hr, ne_eq, not_false_eq_true, if_true]
      rw [ih]
      constructor
      · exact hshift
      · rintro ⟨pre, n, post, ad, hl, h1, h2, h3⟩
        by_cases hpre : pre = []
        · subst hpre
          simp only [List.nil_append, List.cons.injEq] at hl
          obtain ⟨rfl, _⟩ := hl
          exact absurd h1 hr
        · exact hunshift pre n post ad hl hpre h1 h2 h3

/-- C11: `ad_inlist (desc, names)` returns 1 if and only if the list has a name
`n` on which `slap_str2ad` succeeds, in the registry the names before it leave
behind, with a result `ad` for which `is_ad_subtype (desc, ad)` holds; otherwise
it returns 0.  A name on which `slap_str2ad` fails is skipped: the result is
that of the scan of the remaining names.  The result is 0 for the empty
list. -/
theorem ad_inlist_spec (S : Schema) (reg : Registry) (desc : AttributeDescription)
    (attrs : List (List Nat)) :
    ((ad_inlist S reg desc attrs).1 = 1 ↔
      ∃ pre n post ad, attrs = pre ++ n :: post ∧
        (slap_str2ad S (slap_str2ad_seq S reg pre) n).rtn = LDAP_SUCCESS ∧
        (slap_str2ad S (slap_str2ad_seq S reg pre) n).ad = some ad ∧
        is_ad_subtype S desc ad = 1) ∧
    ((ad_inlist S reg desc attrs).1 = 1 ∨ (ad_inlist S reg desc attrs).1 = 0) ∧
    (∀ (n : List Nat) (rest : List (List Nat)),
      (slap_str2ad S reg n).rtn ≠ LDAP_SUCCESS →
      (slap_str2ad S reg n).reg = reg ∧
      ad_inlist S reg desc (n :: rest) = ad_inlist S reg desc rest) ∧
    ad_inlist S reg desc [] = (0, reg) ∧
    (ad_inlist Sample.schema Registry.empty Sample.ad_cn
      [cs "no-such-type", cs "cn;wat", cs "name;lang-fr", cs "name", cs "c.n"]).1 = 1 ∧
    (ad_inlist Sample.schema Registry.empty Sample.ad_cn
      [cs "no-such-type", cs "cn;wat", cs "name;lang-fr"]).1 = 0 := by
  refine ⟨ad_inlist_eq_one S reg desc attrs, ad_inlist_values S reg desc attrs, ?_, rfl,
    by decide, by decide⟩
  intro n rest hn
  have hreg : (slap_str2ad S reg n).reg = reg := by
    unfold slap_str2ad at hn ⊢
    cases hp : slap_bv2ad_parse S (some (cstr n)) with
    | error e =>
      rw [slap_bv2ad_of_parse_error S reg _ e hp]
      rfl
    | ok d =>
      exact absurd ((slap_bv2ad_rtn_success_iff S reg _).2 ⟨d, hp⟩) hn
  refine ⟨hreg, ?_⟩
  conv_lhs => rw [ad_inlist]
  simp only [hn, ne_eq, not_false_eq_true, if_true, hreg]

theorem ad_inlist_spec_witness :
    (slap_str2ad Sample.schema Registry.empty (cs "cn;wat")).reg = Registry.empty ∧
    ad_inlist Sample.schema Registry.empty Sample.ad_cn [cs "cn;wat", cs "name"]
      = ad_inlist Sample.schema Registry.empty Sample.ad_cn [cs "name"] :=
  (ad_inlist_spec Sample.schema Registry.empty Sample.ad_cn []).2.2.1 (cs "cn;wat") [cs "name"]
    (by decide)

/-! ## The undefined pool -/

theorem TOUPPER_TOLOWER (c : Nat) : TOUPPER (TOLOWER c) = TOUPPER c := by
  unfold TOUPPER TOLOWER
  split_ifs <;> omega

theorem TOLOWER_TOUPPER (c : Nat) : TOLOWER (TOUPPER c) = TOLOWER c := by
  unfold TOUPPER TOLOWER
  split_ifs <;> omega

theorem TOUPPER_idem (c : Nat) : TOUPPER (TOUPPER c) = TOUPPER c := by
  unfold TOUPPER
  split_ifs <;> omega

theorem TOUPPER_eq_zero (c : Nat) : TOUPPER c = 0 ↔ c = 0 := by
  unfold TOUPPER
  split_ifs with h
  · constructor <;> intro h1 <;> omega
  · rfl

/-- The comparison reads its first argument through `TOLOWER` only. -/
theorem strncasecmp_map_left (s1 s2 : List Nat) (n : Nat) :
    strncasecmp (s1.map TOLOWER) s2 n = strncasecmp s1 s2 n := by
  induction n generalizing s1 s2 with
  | zero => simp [strncasecmp]
  | succ n ih =>
    simp only [strncasecmp, headD_map_TOLOWER, TOLOWER_idem]
    rw [← List.map_tail, ih]

theorem strncasecmp_of_map_eq (s1 s2 : List Nat) (n : Nat)
    (h : s1.map TOLOWER = s2.map TOLOWER) : strncasecmp s1 s2 n = 0 := by
  rw [← strncasecmp_map_left, h, strncasecmp_map_left, ← strncasecmp_map_right,
    ← strncasecmp_map_left, strncasecmp_self]

/-- With a bound beyond the end of the first string, two NUL-free strings
compare equal exactly when they agree after case folding. -/
theorem strncasecmp_full (a b : List Nat) (n : Nat)
    (ha : ∀ c ∈ a, c ≠ 0) (hb : ∀ c ∈ b, c ≠ 0) (hn : a.length < n) :
    strncasecmp a b n = 0 ↔ a.map TOLOWER = b.map TOLOWER := by
  induction a generalizing b n with
  | nil =>
    cases n with
    | zero => simp at hn
    | succ m =>
      have h0 : TOLOWER 0 = 0 := (TOLOWER_eq_zero 0).2 rfl
      cases b with
      | nil => simp [strncasecmp, h0]
      | cons y ys =>
        have hy : TOLOWER y ≠ 0 := fun h => hb y (by simp) ((TOLOWER_eq_zero y).1 h)
        have hne : (0 : Nat) ≠ TOLOWER y := fun h => hy h.symm
        simp only [strncasecmp, List.headD_nil, h0, List.headD_cons, ne_eq, hne,
          not_false_eq_true, if_true, List.map_nil, List.map_cons, reduceCtorEq, iff_false]
        omega
  | cons x xs ih =>
    have hx : TOLOWER x ≠ 0 := fun h => ha x (by simp) ((TOLOWER_eq_zero x).1 h)
    cases n with
    | zero => simp at hn
    | succ m =>
      have hm : xs.length < m := by simpa using hn
      cases b with
      | nil =>
        have h0 : TOLOWER 0 = 0 := (TOLOWER_eq_zero 0).2 rfl
        simp only [strncasecmp, List.headD_cons, List.headD_nil, h0, ne_eq, hx,
          not_false_eq_true, if_true, List.map_cons, List.map_nil, reduceCtorEq, iff_false]
        omega
      | cons y ys =>
        by_cases hxy : TOLOWER x = TOLOWER y
        · simp only [strncasecmp, List.headD_cons, hxy, ne_eq, not_true_eq_false, if_false,
            List.tail_cons, List.map_cons, List.cons.injEq, true_and]
          rw [← hxy]
          simp only [hx, if_false]
          exact ih ys m (fun c hc => ha c (by simp [hc])) (fun c hc => hb c (by simp [hc])) hm
        · simp only [strncasecmp, List.headD_cons, ne_eq, hxy, not_false_eq_true, if_true,
            List.map_cons, List.cons.injEq, false_and, iff_false]
          omega

theorem ldap_pvt_str2upper_append_nul (s rest : List Nat) (h : ∀ c ∈ s, c ≠ 0) :
    ldap_pvt_str2upper (s ++ 0 :: rest) = s.map TOUPPER ++ 0 :: rest := by
  induction s with
  | nil => simp [ldap_pvt_str2upper]
  | cons x xs ih =>
    have hx : x ≠ 0 := h x (by simp)
    have ih' := ih (fun c hc => h c (by simp [hc]))
    rw [List.cons_append, ldap_pvt_str2upper, if_neg hx, ih', List.map_cons, List.cons_append]

/-- The display string `slap_bv2undef_ad` stores for a valid name. -/
theorem slap_bv2undef_ad_cname (bv : List Nat) (h : ∀ c ∈ bv, c ≠ 0) :
    cstr (ldap_pvt_str2upper (poke [] 0 (strcpy bv))) = bv.map TOUPPER := by
  have hup : ∀ c ∈ bv.map TOUPPER, c ≠ 0 := by
    intro c hc
    obtain ⟨x, hx, rfl⟩ := List.mem_map.1 hc
    exact fun h0 => h x hx ((TOUPPER_eq_zero x).1 h0)
  rw [poke_nil_zero, strcpy, cstr_eq_self bv h, ldap_pvt_str2upper_append_nul _ _ h,
    cstr_append_nul _ _ hup]

theorem slap_bv2undef_ad_find_congr (b1 b2 : List Nat) (l : List AttributeDescription)
    (hlen : b1.length = b2.length) (hcase : b1.map TOLOWER = b2.map TOLOWER) :
    slap_bv2undef_ad_find b1 l = slap_bv2undef_ad_find b2 l := by
  induction l with
  | nil => rfl
  | cons d rest ih =>
    simp only [slap_bv2undef_ad_find, ih, hlen, strcasecmp]
    rw [← strncasecmp_map_right d.ad_cname.bv_val b1, hcase, strncasecmp_map_right]

theorem slap_bv2undef_ad_find_some (bv : List Nat) (a : AttributeDescription)
    (l : List AttributeDescription) (h : slap_bv2undef_ad_find bv l = some a) :
    a ∈ l ∧ a.ad_cname.bv_len = bv.length ∧ strcasecmp a.ad_cname.bv_val bv = 0 := by
  induction l with
  | nil => simp [slap_bv2undef_ad_find] at h
  | cons d rest ih =>
    simp only [slap_bv2undef_ad_find] at h
    split_ifs at h with hc
    · simp only [Option.some.injEq] at h
      subst h
      exact ⟨by simp, hc.1, hc.2⟩
    · obtain ⟨h1, h2⟩ := ih h
      exact ⟨by simp [h1], h2⟩

/-- What `slap_bv2undef_ad` returns on a valid name when `*ad` is NULL: the
node found, with the registry untouched, or a new node in front of the
pool. -/
theorem slap_bv2undef_ad_valid (S : Schema) (reg : Registry) (bv : List Nat)
    (hk : ad_keystring bv = 0) :
    (slap_bv2undef_ad S reg (some bv) none).rtn = LDAP_SUCCESS ∧
    ((∃ a, slap_bv2undef_ad_find bv (reg.sat_ad S.si_at_undefined) = some a ∧
        (slap_bv2undef_ad S reg (some bv) none).ad = some a ∧
        (slap_bv2undef_ad S reg (some bv) none).reg = reg) ∨
     (slap_bv2undef_ad_find bv (reg.sat_ad S.si_at_undefined) = none ∧
        (slap_bv2undef_ad S reg (some bv) none).ad = some
          { ad_addr := reg.brk, ad_type := S.si_at_undefined, ad_flags := 0,
            ad_lang := { bv_len := 0, bv_val := [] },
            ad_cname := { bv_len := bv.length, bv_val := bv.map TOUPPER } } ∧
        (slap_bv2undef_ad S reg (some bv) none).reg.sat_ad S.si_at_undefined =
          { ad_addr := reg.brk, ad_type := S.si_at_undefined, ad_flags := 0,
            ad_lang := { bv_len := 0, bv_val := [] },
            ad_cname := { bv_len := bv.length, bv_val := bv.map TOUPPER } }
            :: reg.sat_ad S.si_at_undefined ∧
        (∀ u, u ≠ S.si_at_undefined →
          (slap_bv2undef_ad S reg (some bv) none).reg.sat_ad u = reg.sat_ad u))) := by
  have hne := ((ad_keystring_eq_zero bv).1 hk).1
  have hlen : bv.length ≠ 0 := by simpa using hne
  have hnul : ∀ c ∈ bv, c ≠ 0 := fun c hc =>
    AD_CHAR_ne_zero c (((ad_keystring_eq_zero bv).1 hk).2 c hc)
  simp only [slap_bv2undef_ad, hlen, hk, if_false, ne_eq, not_true_eq_false,
    slap_bv2undef_ad_cname bv hnul, SLAP_DESC_NONE, true_and]
  cases hf : slap_bv2undef_ad_find bv (reg.sat_ad S.si_at_undefined) with
  | some a => simp
  | none =>
    right
    simp only [if_true, true_and]
    intro u hu
    simp [hu]

theorem slap_bv2undef_ad_reg (S : Schema) (reg : Registry) (bv : Option (List Nat))
    (ad : Option AttributeDescription) :
    (slap_bv2undef_ad S reg bv ad).reg = (slap_bv2undef_ad S reg bv none).reg := by
  unfold slap_bv2undef_ad
  split
  · rfl
  · split_ifs <;> rfl

theorem UndefPoolOk_bv2undef_ad (S : Schema) (reg : Registry) (bv : Option (List Nat))
    (ad : Option AttributeDescription) (h : UndefPoolOk S reg) :
    UndefPoolOk S (slap_bv2undef_ad S reg bv ad).reg := by
  rw [slap_bv2undef_ad_reg]
  cases bv with
  | none => exact h
  | some b =>
    by_cases hk : ad_keystring b = 0
    · have hnul : ∀ c ∈ b, c ≠ 0 := fun c hc =>
        AD_CHAR_ne_zero c (((ad_keystring_eq_zero b).1 hk).2 c hc)
      rcases (slap_bv2undef_ad_valid S reg b hk).2 with ⟨a, _, _, hreg⟩ | ⟨_, _, hlist, _⟩
      · rw [hreg]
        exact h
      · intro a ha
        rw [hlist] at ha
        rcases List.mem_cons.1 ha with rfl | ha
        · refine ⟨rfl, rfl, rfl, by simp, ?_, ?_⟩
          · intro c hc
            obtain ⟨x, hx, rfl⟩ := List.mem_map.1 hc
            exact fun h0 => hnul x hx ((TOUPPER_eq_zero x).1 h0)
          · simp [TOUPPER_idem]
        · exact h a ha
    · have hreg : (slap_bv2undef_ad S reg (some b) none).reg = reg := by
        unfold slap_bv2undef_ad
        simp only
        split_ifs <;> rfl
      rw [hreg]
      exact h

theorem slap_bv2ad_parse_type (S : Schema) (bv : Option (List Nat))
    (desc : AttributeDescription) (h : slap_bv2ad_parse S bv = .ok desc) :
    ∃ n, S.at_find n = some desc.ad_type := by
  obtain ⟨b, t, _, _, _, hfind, hopt⟩ := slap_bv2ad_parse_start S bv desc h
  refine ⟨(ad_split (cstr b)).1, ?_⟩
  rw [hfind, (slap_bv2ad_options_type S _ desc _ hopt).1]
  rfl

theorem UndefPoolOk_bv2ad (S : Schema) (hundef : ∀ n, S.at_find n ≠ some S.si_at_undefined)
    (reg : Registry) (bv : Option (List Nat)) (h : UndefPoolOk S reg) :
    UndefPoolOk S (slap_bv2ad S reg bv).reg := by
  rcases slap_bv2ad_step S reg bv with ⟨hreg, _⟩ | ⟨desc, hp, _, _, _, _, hother⟩
  · rw [hreg]
    exact h
  · obtain ⟨n, hn⟩ := slap_bv2ad_parse_type S bv desc hp
    have hne : S.si_at_undefined ≠ desc.ad_type := by
      intro heq
      rw [← heq] at hn
      exact hundef n hn
    intro a ha
    rw [hother _ hne] at ha
    exact h a ha

theorem UndefPoolOk_calls (S : Schema) (hundef : ∀ n, S.at_find n ≠ some S.si_at_undefined)
    (reg : Registry) (h : UndefPoolOk S reg) (calls : List AdCall) :
    UndefPoolOk S (ad_calls S reg calls) := by
  induction calls generalizing reg with
  | nil => exact h
  | cons c rest ih =>
    cases c with
    | bv2ad bv => exact ih _ (UndefPoolOk_bv2ad S hundef reg bv h)
    | bv2undef_ad bv ad => exact ih _ (UndefPoolOk_bv2undef_ad S reg bv ad h)

theorem slap_bv2undef_ad_found (S : Schema) (reg : Registry) (bv : List Nat)
    (d : AttributeDescription) (hk : ad_keystring bv = 0)
    (hf : slap_bv2undef_ad_find bv (reg.sat_ad S.si_at_undefined) = some d) :
    (slap_bv2undef_ad S reg (some bv) none).rtn = LDAP_SUCCESS ∧
    (slap_bv2undef_ad S reg (some bv) none).ad = some d ∧
    (slap_bv2undef_ad S reg (some bv) none).reg = reg := by
  have h := slap_bv2undef_ad_valid S reg bv hk
  refine ⟨h.1, ?_⟩
  rcases h.2 with ⟨a, ha, had, hreg⟩ | ⟨hnone, _⟩
  · rw [hf] at ha
    simp only [Option.some.injEq] at ha
    subst ha
    exact ⟨had, hreg⟩
  · rw [hf] at hnone
    exact Option.noConfusion hnone

/-- C12: undefined-pool interning.  Let the registry be reached from the empty
one by any calls of `slap_bv2ad` and `slap_bv2undef_ad`, in a schema whose
`at_find` never returns the undefined type.  For every valid non-empty name
(one that passes `ad_keystring`), `slap_bv2undef_ad` with `*ad` NULL succeeds
and returns an AD of the undefined type, without flags, without language,
whose display string is the name in upper case (a `;` stays in it) with the
length of the name.  A second call with a valid name that is equal ignoring
ASCII case returns the same handle and leaves the registry as the first call
left it. -/
theorem undefined_pool_interning (S : Schema)
    (hundef : ∀ n, S.at_find n ≠ some S.si_at_undefined)
    (calls : List AdCall) (bv bv2 : List Nat)
    (hk : ad_keystring bv = 0) (hk2 : ad_keystring bv2 = 0)
    (hcase : bv2.map TOLOWER = bv.map TOLOWER) :
    (slap_bv2undef_ad S (ad_calls S Registry.empty calls) (some bv) none).rtn = LDAP_SUCCESS ∧
    ∃ a, (slap_bv2undef_ad S (ad_calls S Registry.empty calls) (some bv) none).ad = some a ∧
      a.ad_type = S.si_at_undefined ∧ a.ad_flags = 0 ∧
      a.ad_lang = { bv_len := 0, bv_val := [] } ∧
      a.ad_cname = { bv_len := bv.length, bv_val := bv.map TOUPPER } ∧
      (slap_bv2undef_ad S
        (slap_bv2undef_ad S (ad_calls S Registry.empty calls) (some bv) none).reg
        (some bv2) none).rtn = LDAP_SUCCESS ∧
      (slap_bv2undef_ad S
        (slap_bv2undef_ad S (ad_calls S Registry.empty calls) (some bv) none).reg
        (some bv2) none).ad = some a ∧
      (slap_bv2undef_ad S
        (slap_bv2undef_ad S (ad_calls S Registry.empty calls) (some bv) none).reg
        (some bv2) none).reg
        = (slap_bv2undef_ad S (ad_calls S Registry.empty calls) (some bv) none).reg := by
  have hpool : UndefPoolOk S (ad_calls S Registry.empty calls) :=
    UndefPoolOk_calls S hundef Registry.empty
      (by intro a ha; simp [Registry.empty] at ha) calls
  generalize ad_calls S Registry.empty calls = reg at hpool ⊢
  have hnul : ∀ c ∈ bv, c ≠ 0 := fun c hc =>
    AD_CHAR_ne_zero c (((ad_keystring_eq_zero bv).1 hk).2 c hc)
  have hlen : bv2.length = bv.length := by
    simpa using congrArg List.length hcase
  have h := slap_bv2undef_ad_valid S reg bv hk
  refine ⟨h.1, ?_⟩
  rcases h.2 with ⟨a, hfind, had, hreg⟩ | ⟨hnone, had, hlist, _⟩
  · obtain ⟨hmem, hl, hcmp⟩ := slap_bv2undef_ad_find_some bv a _ hfind
    obtain ⟨htype, hflags, hlang, hclen, hcnul, hcup⟩ := hpool a hmem
    have hmap : a.ad_cname.bv_val.map TOLOWER = bv.map TOLOWER := by
      have := (strncasecmp_full a.ad_cname.bv_val bv (strlen a.ad_cname.bv_val + 1) hcnul hnul
        (by simp [strlen, cstr_eq_self _ hcnul])).1 hcmp
      exact this
    have hval : a.ad_cname.bv_val = bv.map TOUPPER := by
      have h1 : (a.ad_cname.bv_val.map TOLOWER).map TOUPPER = (bv.map TOLOWER).map TOUPPER := by
        rw [hmap]
      simp only [List.map_map] at h1
      have hfun : (TOUPPER ∘ TOLOWER) = TOUPPER := by
        funext c
        exact TOUPPER_TOLOWER c
      rw [hfun, hcup] at h1
      exact h1
    have hcname : a.ad_cname = { bv_len := bv.length, bv_val := bv.map TOUPPER } := by
      cases hc : a.ad_cname with
      | mk l v =>
        rw [hc] at hl hval
        simp only at hl hval
        rw [hl, hval]
    have hfind2 : slap_bv2undef_ad_find bv2 (reg.sat_ad S.si_at_undefined) = some a := by
      rw [slap_bv2undef_ad_find_congr bv2 bv _ hlen hcase]
      exact hfind
    refine ⟨a, had, htype, hflags, hlang, hcname, ?_⟩
    rw [hreg]
    exact slap_bv2undef_ad_found S reg bv2 a hk2 hfind2
  · refine ⟨_, had, rfl, rfl, rfl, rfl, ?_⟩
    apply slap_bv2undef_ad_found S _ bv2 _ hk2
    rw [hlist]
    have hcmp : strcasecmp (bv.map TOUPPER) bv2 = 0 := by
      unfold strcasecmp
      apply strncasecmp_of_map_eq
      rw [hcase, List.map_map]
      have hfun : (TOLOWER ∘ TOUPPER) = TOLOWER := by
        funext c
        exact TOLOWER_TOUPPER c
      rw [hfun]
    simp [slap_bv2undef_ad_find, hlen, hcmp]

theorem undefined_pool_interning_witness :
    ∃ a, (slap_bv2undef_ad Sample.schema
        (ad_calls Sample.schema Registry.empty
          [AdCall.bv2ad (some (cs "cn")), AdCall.bv2undef_ad (some (cs "bar")) none])
        (some (cs "foo;x-Bar")) none).ad = some a ∧
      a.ad_type = Sample.schema.si_at_undefined ∧ a.ad_flags = 0 ∧
      a.ad_lang = { bv_len := 0, bv_val := [] } ∧
      a.ad_cname = { bv_len := (cs "foo;x-Bar").length,
                     bv_val := (cs "foo;x-Bar").map TOUPPER } ∧
      (slap_bv2undef_ad Sample.schema
        (slap_bv2undef_ad Sample.schema
          (ad_calls Sample.schema Registry.empty
            [AdCall.bv2ad (some (cs "cn")), AdCall.bv2undef_ad (some (cs "bar")) none])
          (some (cs "foo;x-Bar")) none).reg
        (some (cs "FOO;X-bar")) none).rtn = LDAP_SUCCESS ∧
      (slap_bv2undef_ad Sample.schema
        (slap_bv2undef_ad Sample.schema
          (ad_calls Sample.schema Registry.empty
            [AdCall.bv2ad (some (cs "cn")), AdCall.bv2undef_ad (some (cs "bar")) none])
          (some (cs "foo;x-Bar")) none).reg
        (some (cs "FOO;X-bar")) none).ad = some a ∧
      (slap_bv2undef_ad Sample.schema
        (slap_bv2undef_ad Sample.schema
          (ad_calls Sample.schema Registry.empty
            [AdCall.bv2ad (some (cs "cn")), AdCall.bv2undef_ad (some (cs "bar")) none])
          (some (cs "foo;x-Bar")) none).reg
        (some (cs "FOO;X-bar")) none).reg
        = (slap_bv2undef_ad Sample.schema
          (ad_calls Sample.schema Registry.empty
            [AdCall.bv2ad (some (cs "cn")), AdCall.bv2undef_ad (some (cs "bar")) none])
          (some (cs "foo;x-Bar")) none).reg :=
  (undefined_pool_interning Sample.schema
    (by
      intro n
      unfold Sample.schema Sample.at_find
      simp only
      split_ifs <;> decide)
    [AdCall.bv2ad (some (cs "cn")), AdCall.bv2undef_ad (some (cs "bar")) none]
    (cs "foo;x-Bar") (cs "FOO;X-bar") (by decide) (by decide) (by decide)).2

namespace Sasl

/-! ## The search callback of `slap_sasl2dn` -/

/-- C19 (failing input): starting from the empty result, one entry leaves its
normalized DN and the callback returns 0; on a second entry the callback
returns -1 and clears the pointer only: the result has a NULL value but still
the length of the first DN, not zero length.  With the DNs `uid=a,dc=x` and
`uid=b,dc=x` the result is NULL with length 10.  A third entry, were it
delivered, would be taken as the result. -/
theorem sasl2dn_ambiguous (n : Nat) (s : List Nat) (e2 e3 : Entry) :
    sasl_sc_sasl2dn { bv_len := 0, bv_val := none } { e_nname := { bv_len := n, bv_val := some s } }
      = (0, { bv_len := n, bv_val := some s }) ∧
    be_search_deliver sasl_sc_sasl2dn { bv_len := 0, bv_val := none }
        [{ e_nname := { bv_len := n, bv_val := some s } }]
      = { bv_len := n, bv_val := some s } ∧
    sasl_sc_sasl2dn { bv_len := n, bv_val := some s } e2 = (-1, { bv_len := n, bv_val := none }) ∧
    be_search_deliver sasl_sc_sasl2dn { bv_len := 0, bv_val := none }
        [{ e_nname := { bv_len := n, bv_val := some s } }, e2]
      = { bv_len := n, bv_val := none } ∧
    be_search_deliver sasl_sc_sasl2dn { bv_len := 0, bv_val := none }
        [{ e_nname := { bv_len := n, bv_val := some s } }, e2, e3]
      = { bv_len := n, bv_val := none } ∧
    sasl_sc_sasl2dn { bv_len := n, bv_val := none } e3 = (0, ber_dupbv e3.e_nname) ∧
    be_search_deliver sasl_sc_sasl2dn { bv_len := 0, bv_val := none }
        [{ e_nname := Sample.bv "uid=a,dc=x" }, { e_nname := Sample.bv "uid=b,dc=x" }]
      = { bv_len := 10, bv_val := none } ∧
    ({ bv_len := 10, bv_val := none } : berval) ≠ { bv_len := 0, bv_val := none } := by
  refine ⟨rfl, ?_, rfl, ?_, ?_, rfl, by decide, by decide⟩
  · simp [be_search_deliver, sasl_sc_sasl2dn, ber_dupbv]
  · simp [be_search_deliver, sasl_sc_sasl2dn, ber_dupbv]
  · simp [be_search_deliver, sasl_sc_sasl2dn, ber_dupbv]

/-! ## Rule precedence -/

theorem slap_sasl_regexp_find_none (E : Env) (saslname : List Nat) (rules : List SaslRegexp_t)
    (h : ∀ r ∈ rules, E.regexec r.sr_workspace saslname SASLREGEX_REPLACE = none) :
    slap_sasl_regexp_find E saslname rules = none := by
  induction rules with
  | nil => rfl
  | cons r rest ih =>
    simp only [slap_sasl_regexp_find, h r (by simp)]
    exact ih (fun p hp => h p (by simp [hp]))

theorem slap_sasl_regexp_find_first (E : Env) (saslname : List Nat)
    (pre : List SaslRegexp_t) (r : SaslRegexp_t) (post : List SaslRegexp_t)
    (sr_strings : List regmatch_t)
    (hpre : ∀ p ∈ pre, E.regexec p.sr_workspace saslname SASLREGEX_REPLACE = none)
    (hr : E.regexec r.sr_workspace saslname SASLREGEX_REPLACE = some sr_strings) :
    slap_sasl_regexp_find E saslname (pre ++ r :: post) = some (r, sr_strings) := by
  induction pre with
  | nil => simp [slap_sasl_regexp_find, hr]
  | cons p rest ih =>
    simp only [List.cons_append, slap_sasl_regexp_find, hpre p (by simp)]
    exact ih (fun q hq => hpre q (by simp [hq]))

/-- C13: rule precedence.  When the pattern of no rule matches the principal
(in particular when there is no rule), or the principal is NULL,
`slap_sasl_regexp` returns 0 with an empty output, and `slap_sasl2dn` returns
the empty DN without a search.  When the rules before `r` do not match and
`r` matches, `slap_sasl_regexp` gives the expansion of the template of `r`
with the groups of that match, whatever rules follow `r`. -/
theorem rule_precedence (E : Env) :
    (∀ (rules : List SaslRegexp_t) (n : Nat) (saslname : List Nat),
      (∀ r ∈ rules, E.regexec r.sr_workspace (cstr saslname) SASLREGEX_REPLACE = none) →
      slap_sasl_regexp E rules { bv_len := n, bv_val := some saslname }
        = some (0, { bv_len := 0, bv_val := none }) ∧
      slap_sasl2dn E rules { bv_len := n, bv_val := some saslname }
        = some { dn := { bv_len := 0, bv_val := none }, searches := [] }) ∧
    (∀ (rules : List SaslRegexp_t) (n : Nat),
      slap_sasl_regexp E rules { bv_len := n, bv_val := none }
        = some (0, { bv_len := 0, bv_val := none }) ∧
      slap_sasl2dn E rules { bv_len := n, bv_val := none }
        = some { dn := { bv_len := 0, bv_val := none }, searches := [] }) ∧
    (∀ (pre : List SaslRegexp_t) (r : SaslRegexp_t) (post : List SaslRegexp_t) (n : Nat)
        (saslname : List Nat) (sr_strings : List regmatch_t),
      (∀ p ∈ pre, E.regexec p.sr_workspace (cstr saslname) SASLREGEX_REPLACE = none) →
      E.regexec r.sr_workspace (cstr saslname) SASLREGEX_REPLACE = some sr_strings →
      slap_sasl_regexp E (pre ++ r :: post) { bv_len := n, bv_val := some saslname }
        = slap_sasl_regexp_expand r (cstr saslname) sr_strings ∧
      slap_sasl_regexp E (pre ++ r :: post) { bv_len := n, bv_val := some saslname }
        = slap_sasl_regexp E [r] { bv_len := n, bv_val := some saslname }) := by
  refine ⟨?_, ?_, ?_⟩
  · intro rules n saslname h
    have hre : slap_sasl_regexp E rules { bv_len := n, bv_val := some saslname }
        = some (0, { bv_len := 0, bv_val := none }) := by
      simp only [slap_sasl_regexp, slap_sasl_regexp_find_none E _ rules h]
      split_ifs <;> rfl
    exact ⟨hre, by simp [slap_sasl2dn, hre]⟩
  · intro rules n
    have hre : slap_sasl_regexp E rules { bv_len := n, bv_val := none }
        = some (0, { bv_len := 0, bv_val := none }) := rfl
    exact ⟨hre, by simp [slap_sasl2dn, hre]⟩
  · intro pre r post n saslname sr_strings hpre hr
    have h1 : slap_sasl_regexp E (pre ++ r :: post) { bv_len := n, bv_val := some saslname }
        = slap_sasl_regexp_expand r (cstr saslname) sr_strings := by
      simp [slap_sasl_regexp, slap_sasl_regexp_find_first E _ pre r post sr_strings hpre hr]
    have h2 : slap_sasl_regexp E [r] { bv_len := n, bv_val := some saslname }
        = slap_sasl_regexp_expand r (cstr saslname) sr_strings := by
      simp [slap_sasl_regexp, slap_sasl_regexp_find, hr]
    exact ⟨h1, by rw [h1, h2]⟩

/-- The rules of the example: one rule, which maps `uid=<name>,cn=EXAMPLE,cn=AUTH`
to a base-scope URL. -/
theorem rule_precedence_witness :
    slap_sasl2dn Sample.env
        [{ sr_match := cs "nobody", sr_replace := cs "cn=nobody",
           sr_workspace := { re_pattern := cs "nobody", re_cflags := 3 },
           sr_offset := [-2, 9, -1] }]
        (Sample.bv "uid=bob,cn=EXAMPLE,cn=AUTH")
      = some { dn := { bv_len := 0, bv_val := none }, searches := [] } :=
  (((rule_precedence Sample.env).1
    [{ sr_match := cs "nobody", sr_replace := cs "cn=nobody",
       sr_workspace := { re_pattern := cs "nobody", re_cflags := 3 },
       sr_offset := [-2, 9, -1] }]
    26 (cs "uid=bob,cn=EXAMPLE,cn=AUTH") (by decide))).2

/-! ## Rules that are a DN -/

theorem slap_sasl_match_base (E : Env) (rule assertDN authc : berval)
    (hrc : (slap_parseURI E rule).rc = LDAP_SUCCESS)
    (hscope : (slap_parseURI E rule).scope = LDAP_SCOPE_BASE) :
    slap_sasl_match E rule assertDN authc =
      (if E.regcomp ((slap_parseURI E rule).searchbase.bv_val.getD [])
            (REG_EXTENDED ||| REG_ICASE ||| REG_NOSUB) = 0 ∧
          (E.regexec
            { re_pattern := (slap_parseURI E rule).searchbase.bv_val.getD [],
              re_cflags := REG_EXTENDED ||| REG_ICASE ||| REG_NOSUB }
            (assertDN.bv_val.getD []) 0).isSome
        then LDAP_SUCCESS else LDAP_INAPPROPRIATE_AUTH, []) := by
  simp only [slap_sasl_match, hrc, hscope, ne_eq, not_true_eq_false, if_false, if_true]
  by_cases hc : E.regcomp ((slap_parseURI E rule).searchbase.bv_val.getD [])
      (REG_EXTENDED ||| REG_ICASE ||| REG_NOSUB) = 0
  · simp only [hc, if_true, true_and]
    cases E.regexec
      { re_pattern := (slap_parseURI E rule).searchbase.bv_val.getD [],
        re_cflags := REG_EXTENDED ||| REG_ICASE ||| REG_NOSUB }
      (assertDN.bv_val.getD []) 0 <;> simp
  · simp [hc]

/-- C17 (failing input): the rule `dn:uid=bob,dc=x` parses to the DN
`uid=bob,dc=x` with scope base, and `slap_sasl_match` then searches the
candidate for that DN as a case-insensitive regular expression: the
candidates `uid=bob,dc=x,dc=evil` (the rule DN is a substring) and
`UID=BOB,DC=X` (another case), neither byte-equal to the rule DN, both give
Success, for the bare DN rule `uid=bob,dc=x` as well. -/
theorem dn_rule_is_regex :
    slap_parseURI Sample.env (Sample.bv "dn:uid=bob,dc=x")
      = { rc := LDAP_SUCCESS, searchbase := Sample.bv "uid=bob,dc=x",
          scope := LDAP_SCOPE_BASE, filter := none } ∧
    slap_parseURI Sample.env (Sample.bv "uid=bob,dc=x")
      = { rc := LDAP_SUCCESS, searchbase := Sample.bv "uid=bob,dc=x",
          scope := LDAP_SCOPE_BASE, filter := none } ∧
    Sample.bv "uid=bob,dc=x,dc=evil" ≠ Sample.bv "uid=bob,dc=x" ∧
    Sample.bv "UID=BOB,DC=X" ≠ Sample.bv "uid=bob,dc=x" ∧
    slap_sasl_match Sample.env (Sample.bv "dn:uid=bob,dc=x") (Sample.bv "uid=bob,dc=x,dc=evil")
        (Sample.bv "uid=admin,dc=x") = (LDAP_SUCCESS, []) ∧
    slap_sasl_match Sample.env (Sample.bv "dn:uid=bob,dc=x") (Sample.bv "UID=BOB,DC=X")
        (Sample.bv "uid=admin,dc=x") = (LDAP_SUCCESS, []) ∧
    slap_sasl_match Sample.env (Sample.bv "uid=bob,dc=x") (Sample.bv "uid=bob,dc=x,dc=evil")
        (Sample.bv "uid=admin,dc=x") = (LDAP_SUCCESS, []) ∧
    slap_sasl_match Sample.env (Sample.bv "uid=bob,dc=x") (Sample.bv "UID=BOB,DC=X")
        (Sample.bv "uid=admin,dc=x") = (LDAP_SUCCESS, []) ∧
    slap_sasl_match Sample.env (Sample.bv "dn:uid=bob,dc=x") (Sample.bv "uid=bob,dc=x")
        (Sample.bv "uid=admin,dc=x") = (LDAP_SUCCESS, []) ∧
    slap_sasl_match Sample.env (Sample.bv "dn:uid=bob,dc=x") (Sample.bv "uid=bo,dc=x")
        (Sample.bv "uid=admin,dc=x") = (LDAP_INAPPROPRIATE_AUTH, []) := by
  refine ⟨?_, ?_, ?_, ?_, ?_, ?_, ?_, ?_, ?_, ?_⟩ <;> decide

/-! ## The authorization decision -/

theorem slap_sasl_check_authz_loop_rc (E : Env) (assertDN authc : berval) (vals : List berval) :
    ((slap_sasl_check_authz_loop E assertDN authc vals).1 = LDAP_SUCCESS ∨
      (slap_sasl_check_authz_loop E assertDN authc vals).1 = LDAP_INAPPROPRIATE_AUTH) ∧
    ((slap_sasl_check_authz_loop E assertDN authc vals).1 = LDAP_SUCCESS ↔
      ∃ v ∈ vals, (slap_sasl_match E v assertDN authc).1 = LDAP_SUCCESS) := by
  induction vals with
  | nil => simp [slap_sasl_check_authz_loop, LDAP_INAPPROPRIATE_AUTH, LDAP_SUCCESS]
  | cons v rest ih =>
    by_cases hv : (slap_sasl_match E v assertDN authc).1 = LDAP_SUCCESS
    · simp [slap_sasl_check_authz_loop, hv]
    · simp only [slap_sasl_check_authz_loop, hv, if_false, List.mem_cons, exists_eq_or_imp,
        false_or]
      exact ih

theorem slap_sasl_check_authz_success (S : Schema) (E : Env) (reg : Registry)
    (searchDN assertDN : berval) (attr : List Nat) (authc : berval) :
    (slap_sasl_check_authz S E reg searchDN assertDN attr authc).rc = LDAP_SUCCESS ↔
      ∃ ad, (slap_bv2ad S reg (some attr)).rtn = LDAP_SUCCESS ∧
        (slap_bv2ad S reg (some attr)).ad = some ad ∧
        (E.backend_attribute searchDN ad).1 = LDAP_SUCCESS ∧
        ∃ v ∈ (E.backend_attribute searchDN ad).2,
          (slap_sasl_match E v assertDN authc).1 = LDAP_SUCCESS := by
  unfold slap_sasl_check_authz
  by_cases hrtn : (slap_bv2ad S reg (some attr)).rtn = LDAP_SUCCESS
  · obtain ⟨ad, had⟩ := slap_bv2ad_ad_of_success S reg (some attr) hrtn
    simp only [hrtn, ne_eq, not_true_eq_false, if_false, had]
    by_cases hb : (E.backend_attribute searchDN ad).1 = LDAP_SUCCESS
    · simp only [hb, not_true_eq_false, if_false, Option.some.injEq, true_and,
        exists_eq_left']
      exact (slap_sasl_check_authz_loop_rc E assertDN authc _).2
    · simp [hb]
  · simp [hrtn]

/-- C16 (counterexample): an authorization identity that is present but
empty is not accepted as such: for the authentication identity
`uid=admin,dc=x` and the empty authorization identity, in an environment
without rule attributes, `slap_sasl_authorized` returns InappropriateAuth. -/
theorem authorization_decision_counterexample :
    (Sample.bv "").bv_len = 0 ∧
    (slap_sasl_authorized Slapd.Sample.schema Sample.env Registry.empty
      (Sample.bv "uid=admin,dc=x") (some (Sample.bv ""))).rc = LDAP_INAPPROPRIATE_AUTH ∧
    (slap_sasl_authorized Slapd.Sample.schema Sample.env Registry.empty
      (Sample.bv "uid=admin,dc=x") (some (Sample.bv ""))).rc ≠ LDAP_SUCCESS := by
  refine ⟨?_, ?_, ?_⟩ <;> decide

/-- C16 (amended): `slap_sasl_authorized` returns only Success or
InappropriateAuth.  It returns Success exactly when the authorization identity
is absent (NULL), or `dn_match` holds of the two identities, or the source
check succeeds, or the destination check succeeds; the events (attribute
reads and searches) show the order: none when the identity is absent or the
two are equal, those of the source check when it succeeds, and otherwise those
of the source check followed by those of the destination check.  A check
(`slap_sasl_check_authz`) succeeds exactly when the rule attribute resolves,
its values are read with success and `slap_sasl_match` accepts one of them. -/
theorem authorization_decision (S : Schema) (E : Env) (reg : Registry)
    (authcDN : berval) (authzDN : Option berval) :
    ((slap_sasl_authorized S E reg authcDN authzDN).rc = LDAP_SUCCESS ∨
      (slap_sasl_authorized S E reg authcDN authzDN).rc = LDAP_INAPPROPRIATE_AUTH) ∧
    ((slap_sasl_authorized S E reg authcDN authzDN).rc = LDAP_SUCCESS ↔
      authzDN = none ∨ ∃ z, authzDN = some z ∧
        (E.dn_match authcDN z = true ∨
          (slap_sasl_check_authz S E reg authcDN z
            (cstr E.SASL_AUTHZ_SOURCE_ATTR) authcDN).rc = LDAP_SUCCESS ∨
          (slap_sasl_check_authz S E
            (slap_sasl_check_authz S E reg authcDN z
              (cstr E.SASL_AUTHZ_SOURCE_ATTR) authcDN).reg
            z authcDN (cstr E.SASL_AUTHZ_DEST_ATTR) authcDN).rc = LDAP_SUCCESS)) ∧
    (slap_sasl_authorized S E reg authcDN authzDN).events =
      (match authzDN with
       | none => []
       | some z =>
         if E.dn_match authcDN z = true then []
         else if (slap_sasl_check_authz S E reg authcDN z
             (cstr E.SASL_AUTHZ_SOURCE_ATTR) authcDN).rc = LDAP_SUCCESS then
           (slap_sasl_check_authz S E reg authcDN z
             (cstr E.SASL_AUTHZ_SOURCE_ATTR) authcDN).events
         else
           (slap_sasl_check_authz S E reg authcDN z
             (cstr E.SASL_AUTHZ_SOURCE_ATTR) authcDN).events
           ++ (slap_sasl_check_authz S E
             (slap_sasl_check_authz S E reg authcDN z
               (cstr E.SASL_AUTHZ_SOURCE_ATTR) authcDN).reg
             z authcDN (cstr E.SASL_AUTHZ_DEST_ATTR) authcDN).events) ∧
    (∀ (reg0 : Registry) (searchDN assertDN : berval) (attr : List Nat) (authc : berval),
      (slap_sasl_check_authz S E reg0 searchDN assertDN attr authc).rc = LDAP_SUCCESS ↔
        ∃ ad, (slap_bv2ad S reg0 (some attr)).rtn = LDAP_SUCCESS ∧
          (slap_bv2ad S reg0 (some attr)).ad = some ad ∧
          (E.backend_attribute searchDN ad).1 = LDAP_SUCCESS ∧
          ∃ v ∈ (E.backend_attribute searchDN ad).2,
            (slap_sasl_match E v assertDN authc).1 = LDAP_SUCCESS) := by
  refine ⟨?_, ?_, ?_, fun reg0 searchDN assertDN attr authc =>
    slap_sasl_check_authz_success S E reg0 searchDN assertDN attr authc⟩
  · cases authzDN with
    | none => left; rfl
    | some z =>
      simp only [slap_sasl_authorized]
      split_ifs with h1 h2 h3
      · left; rfl
      · left; exact h2
      · left; rfl
      · right; rfl
  · cases authzDN with
    | none => simp [slap_sasl_authorized]
    | some z =>
      simp only [slap_sasl_authorized, Option.some.injEq, false_or, exists_eq_left',
        reduceCtorEq]
      split_ifs with h1 h2 h3
      · simp [h1]
      · simp [h2]
      · simp [h3]
      · have hne : LDAP_INAPPROPRIATE_AUTH ≠ LDAP_SUCCESS := by decide
        simp [h1, h2, h3, hne]
  · cases authzDN with
    | none => rfl
    | some z =>
      simp only [slap_sasl_authorized]
      split_ifs with h1 h2 h3 <;> rfl

/-! ## The base-scope shortcut -/

/-- C18: when the winning rule expands to `uri`, `uri` parses with success
and the scope is base, `slap_sasl2dn` returns the normalized search base and
makes no search.  `slap_parseURI` gives scope base, with the normalized DN
as search base, for a string that starts with `dn:` (blanks after the colon
skipped), for a string that `ldap_url_parse` rejects as a bad scheme (a bare
DN), and it keeps the scope of a URL, each when normalization succeeds. -/
theorem base_scope_shortcut (E : Env) (rules : List SaslRegexp_t) (saslname uri : berval)
    (hre : slap_sasl_regexp E rules saslname = some (1, uri))
    (hrc : (slap_parseURI E uri).rc = LDAP_SUCCESS)
    (hscope : (slap_parseURI E uri).scope = LDAP_SCOPE_BASE) :
    slap_sasl2dn E rules saslname
      = some { dn := (slap_parseURI E uri).searchbase, searches := [] } ∧
    (∀ (n : Nat) (s : List Nat), strncasecmp s [100, 110, 58] 3 = 0 →
      (E.dnNormalize2
        { bv_len := n - (3 + strspn_blank (s.drop 3)),
          bv_val := some (s.drop (3 + strspn_blank (s.drop 3))) }).1 = LDAP_SUCCESS →
      slap_parseURI E { bv_len := n, bv_val := some s }
        = { rc := LDAP_SUCCESS,
            searchbase := (E.dnNormalize2
              { bv_len := n - (3 + strspn_blank (s.drop 3)),
                bv_val := some (s.drop (3 + strspn_blank (s.drop 3))) }).2,
            scope := LDAP_SCOPE_BASE, filter := none }) ∧
    (∀ (n : Nat) (s : List Nat), strncasecmp s [100, 110, 58] 3 ≠ 0 →
      E.ldap_url_parse s = .error LDAP_URL_ERR_BADSCHEME →
      (E.dnNormalize2 { bv_len := n, bv_val := some s }).1 = LDAP_SUCCESS →
      slap_parseURI E { bv_len := n, bv_val := some s }
        = { rc := LDAP_SUCCESS,
            searchbase := (E.dnNormalize2 { bv_len := n, bv_val := some s }).2,
            scope := LDAP_SCOPE_BASE, filter := none }) ∧
    (∀ (n : Nat) (s : List Nat) (ludp : LDAPURLDesc), strncasecmp s [100, 110, 58] 3 ≠ 0 →
      E.ldap_url_parse s = .ok ludp → ludp.lud_filter = none →
      (E.dnNormalize2 { bv_len := strlen ludp.lud_dn, bv_val := some ludp.lud_dn }).1
        = LDAP_SUCCESS →
      slap_parseURI E { bv_len := n, bv_val := some s }
        = { rc := LDAP_SUCCESS,
            searchbase :=
              (E.dnNormalize2 { bv_len := strlen ludp.lud_dn, bv_val := some ludp.lud_dn }).2,
            scope := ludp.lud_scope, filter := none }) := by
  refine ⟨?_, ?_, ?_, ?_⟩
  · have h1 : ¬ ((1 : Nat) = 0) := by decide
    have hrc0 : (slap_parseURI E uri).rc = 0 := hrc
    simp only [slap_sasl2dn, hre, h1, if_false, hrc0, ne_eq, not_true_eq_false, hscope, if_true]
  · intro n s hdn hnorm
    simp only [slap_parseURI, Option.getD_some, hdn, if_true, slap_parseURI_is_dn, hnorm]
  · intro n s hdn hbad hnorm
    simp only [slap_parseURI, Option.getD_some, hdn, if_false, hbad, if_true,
      slap_parseURI_is_dn, Nat.sub_zero, List.drop_zero, hnorm]
  · intro n s ludp hdn hok hf hnorm
    simp only [slap_parseURI, Option.getD_some, hdn, if_false, hok, hf, hnorm]

/-- The example of the specification: one rule with the pattern
`uid=([^,]+),cn=EXAMPLE,cn=AUTH` and the template
`ldap:///uid=$1,dc=example,dc=com??base`, as `slap_sasl_regexp_config` stores
it; the principal `uid=bob,cn=EXAMPLE,cn=AUTH` resolves to
`uid=bob,dc=example,dc=com` without a search. -/
theorem base_scope_shortcut_witness :
    slap_sasl_regexp_config Sample.env [] (cs "uid=([^,]+),cn=EXAMPLE,cn=AUTH")
        (cs "ldap:///uid=$1,dc=example,dc=com??base")
      = (LDAP_SUCCESS,
          [{ sr_match := cs "uid=([^,]+),cn=EXAMPLE,cn=AUTH",
             sr_replace := cs "ldap:///uid=$1,dc=example,dc=com??base",
             sr_workspace := { re_pattern := cs "uid=([^,]+),cn=EXAMPLE,cn=AUTH",
                               re_cflags := 3 },
             sr_offset := [-2, 12, 38, -1] }]) ∧
    slap_sasl2dn Sample.env
        [{ sr_match := cs "uid=([^,]+),cn=EXAMPLE,cn=AUTH",
           sr_replace := cs "ldap:///uid=$1,dc=example,dc=com??base",
           sr_workspace := { re_pattern := cs "uid=([^,]+),cn=EXAMPLE,cn=AUTH",
                             re_cflags := 3 },
           sr_offset := [-2, 12, 38, -1] }]
        (Sample.bv "uid=bob,cn=EXAMPLE,cn=AUTH")
      = some { dn := Sample.bv "uid=bob,dc=example,dc=com", searches := [] } :=
  ⟨by decide,
   (base_scope_shortcut Sample.env
      [{ sr_match := cs "uid=([^,]+),cn=EXAMPLE,cn=AUTH",
         sr_replace := cs "ldap:///uid=$1,dc=example,dc=com??base",
         sr_workspace := { re_pattern := cs "uid=([^,]+),cn=EXAMPLE,cn=AUTH",
                           re_cflags := 3 },
         sr_offset := [-2, 12, 38, -1] }]
      (Sample.bv "uid=bob,cn=EXAMPLE,cn=AUTH")
      (Sample.bv "ldap:///uid=bob,dc=example,dc=com??base")
      (by decide) (by decide) (by decide)).1⟩

/-! ## The scan of the replace template -/

theorem slap_sasl_regexp_scan_bounded (k : Nat) : ∀ (t : List Nat), t.length ≤ k →
    ∀ (pos : Nat) (off : List Int), off.length ≤ SASLREGEX_REPLACE →
    slap_sasl_regexp_scan t pos off =
      if off.length + (Spec.placeholders t pos).length ≤ SASLREGEX_REPLACE then
        some (off ++ (Spec.placeholders t pos).map Int.ofNat
          ++ [Int.ofNat (pos + t.length), -1])
      else none := by
  induction k with
  | zero =>
    intro t ht pos off _
    have : t = [] := List.length_eq_zero.mp (Nat.le_zero.mp ht)
    subst this
    simp [slap_sasl_regexp_scan, Spec.placeholders, *]
  | succ k ih =>
    intro t ht pos off hoff
    match t, ht with
    | [], _ => simp [slap_sasl_regexp_scan, Spec.placeholders, hoff]
    | [c], _ =>
      simp only [SASLREGEX_REPLACE] at hoff
      by_cases hc : c = 36
      · by_cases hn : off.length = 10
        · simp [slap_sasl_regexp_scan, Spec.placeholders, hc, hn, SASLREGEX_REPLACE]
        · have : off.length + 1 ≤ 10 := by omega
          simp [slap_sasl_regexp_scan, Spec.placeholders, hc, hn, SASLREGEX_REPLACE, this]
      · simp [slap_sasl_regexp_scan, Spec.placeholders, hc, hoff, SASLREGEX_REPLACE]
    | c :: x :: rest, ht =>
      have hlen1 : (x :: rest).length ≤ k := by simp at ht ⊢; omega
      have hlen2 : rest.length ≤ k := by simp at ht ⊢; omega
      by_cases hb : c = 92
      · simp only [slap_sasl_regexp_scan, Spec.placeholders, hb, if_true]
        rw [ih rest hlen2 (pos + 2) off hoff]
        simp only [List.length_cons]
        have : pos + 2 + rest.length = pos + (rest.length + 1 + 1) := by omega
        rw [this]
      · by_cases hc : c = 36
        · by_cases hn : off.length = SASLREGEX_REPLACE
          · have : ¬ (off.length + ((Spec.placeholders (x :: rest) (pos + 1)).length + 1)
                ≤ SASLREGEX_REPLACE) := by omega
            simp [slap_sasl_regexp_scan, Spec.placeholders, hb, hc, hn, this]
          · have hoff2 : (off ++ [(pos : Int)]).length ≤ SASLREGEX_REPLACE := by
              simp only [List.length_append, List.length_singleton]; omega
            have hiff : (off ++ [(pos : Int)]).length
                  + (Spec.placeholders (x :: rest) (pos + 1)).length ≤ SASLREGEX_REPLACE ↔
                off.length + (pos :: Spec.placeholders (x :: rest) (pos + 1)).length
                  ≤ SASLREGEX_REPLACE := by
              simp only [List.length_append, List.length_singleton, List.length_cons,
                List.length_nil]
              constructor <;> intro h <;> omega
            have e1 : pos + 1 + (x :: rest).length = pos + (36 :: x :: rest).length := by
              simp only [List.length_cons]; omega
            subst hc
            simp only [slap_sasl_regexp_scan, Spec.placeholders, hb, hn, if_true, if_false]
            rw [ih (x :: rest) hlen1 (pos + 1) (off ++ [(pos : Int)]) hoff2]
            simp only [hiff, e1, List.map_cons, List.append_assoc, List.singleton_append,
              List.cons_append, List.nil_append]
            rfl
        · simp only [slap_sasl_regexp_scan, Spec.placeholders, hb, hc, if_false]
          rw [ih (x :: rest) hlen1 (pos + 1) off hoff]
          simp only [List.length_cons]
          have e1 : pos + 1 + (rest.length + 1) = pos + (rest.length + 1 + 1) := by omega
          rw [e1]

theorem slap_sasl_regexp_scan_eq (t : List Nat) :
    slap_sasl_regexp_scan t 0 [-2] =
      if (Spec.placeholders t 0).length + 1 ≤ SASLREGEX_REPLACE then
        some (-2 :: ((Spec.placeholders t 0).map Int.ofNat
          ++ [Int.ofNat t.length, -1]))
      else none := by
  rw [slap_sasl_regexp_scan_bounded t.length t (Nat.le_refl _) 0 [-2] (by decide)]
  simp only [List.length_singleton, Nat.zero_add, List.singleton_append, List.cons_append,
    List.nil_append, Nat.add_comm 1]

/-! ## The cap on placeholders -/

/-- C15 (what the code does): when normalization of both strings and the
compilation of the pattern succeed, `slap_sasl_regexp_config` returns Success
and appends one rule exactly when the normalized template has fewer than
`SASLREGEX_REPLACE` unescaped `$`, that is at most 9; with 10 or more it
returns OperationsError and leaves the rules alone. -/
theorem placeholder_cap (E : Env) (SaslRegexp : List SaslRegexp_t) (mtch replace : List Nat)
    (hm : (E.dnNormalize2 { bv_len := strlen mtch, bv_val := some (cstr mtch) }).1 = 0)
    (hr : (E.dnNormalize2 { bv_len := strlen replace, bv_val := some (cstr replace) }).1 = 0)
    (hc : E.regcomp
      (cstr ((E.dnNormalize2
        { bv_len := strlen mtch, bv_val := some (cstr mtch) }).2.bv_val.getD []))
      (REG_EXTENDED ||| REG_ICASE) = 0) :
    ((Spec.placeholders
        (cstr ((E.dnNormalize2
          { bv_len := strlen replace, bv_val := some (cstr replace) }).2.bv_val.getD [])) 0).length
        < SASLREGEX_REPLACE →
      (slap_sasl_regexp_config E SaslRegexp mtch replace).1 = LDAP_SUCCESS ∧
      ∃ r, (slap_sasl_regexp_config E SaslRegexp mtch replace).2 = SaslRegexp ++ [r]) ∧
    (SASLREGEX_REPLACE ≤ (Spec.placeholders
        (cstr ((E.dnNormalize2
          { bv_len := strlen replace, bv_val := some (cstr replace) }).2.bv_val.getD [])) 0).length →
      slap_sasl_regexp_config E SaslRegexp mtch replace
        = (LDAP_OPERATIONS_ERROR, SaslRegexp)) := by
  constructor
  · intro hlt
    have hle : (Spec.placeholders
        (cstr ((E.dnNormalize2
          { bv_len := strlen replace, bv_val := some (cstr replace) }).2.bv_val.getD [])) 0).length
        + 1 ≤ SASLREGEX_REPLACE := hlt
    simp only [slap_sasl_regexp_config, hm, hr, hc, ne_eq, not_true_eq_false, if_false,
      slap_sasl_regexp_scan_eq, hle, if_true]
    exact ⟨trivial, _, rfl⟩
  · intro hge
    have hnle : ¬ ((Spec.placeholders
        (cstr ((E.dnNormalize2
          { bv_len := strlen replace, bv_val := some (cstr replace) }).2.bv_val.getD [])) 0).length
        + 1 ≤ SASLREGEX_REPLACE) := by omega
    simp only [slap_sasl_regexp_config, hm, hr, hc, ne_eq, not_true_eq_false, if_false,
      slap_sasl_regexp_scan_eq, hnle]

/-- The failing input: a template with exactly 10 placeholders, the cap, is
refused with OperationsError and no rule is added; one with 9 is accepted. -/
theorem placeholder_cap_witness :
    (Spec.placeholders (cs "$1$2$3$4$5$6$7$8$9$0") 0).length = 10 ∧
    slap_sasl_regexp_config Sample.env [] (cs "uid=(.*),cn=AUTH") (cs "$1$2$3$4$5$6$7$8$9$0")
      = (LDAP_OPERATIONS_ERROR, []) ∧
    (slap_sasl_regexp_config Sample.env [] (cs "uid=(.*),cn=AUTH")
      (cs "$1$2$3$4$5$6$7$8$9")).1 = LDAP_SUCCESS :=
  ⟨by decide,
   (placeholder_cap Sample.env [] (cs "uid=(.*),cn=AUTH") (cs "$1$2$3$4$5$6$7$8$9$0")
      (by decide) (by decide) (by decide)).2 (by decide),
   ((placeholder_cap Sample.env [] (cs "uid=(.*),cn=AUTH") (cs "$1$2$3$4$5$6$7$8$9")
      (by decide) (by decide) (by decide)).1 (by decide)).1⟩

/-! ## The expansion of a template -/

theorem Spec.placeholders_skip (x : Nat) (rest : List Nat) (pos : Nat)
    (h1 : x ≠ 92) (h2 : x ≠ 36) :
    Spec.placeholders (x :: rest) pos = Spec.placeholders rest (pos + 1) := by
  cases rest with
  | nil => simp [Spec.placeholders, h2]
  | cons y r => simp [Spec.placeholders, h1, h2]

theorem Spec.expand_skip (group : Nat → List Nat) (x : Nat) (rest : List Nat)
    (h1 : x ≠ 92) (h2 : x ≠ 36) :
    Spec.expand group (x :: rest) = x :: Spec.expand group rest := by
  cases rest with
  | nil => simp [Spec.expand]
  | cons y r => simp [Spec.expand, h1, h2]

theorem Spec.digits_follow_skip (x : Nat) (rest : List Nat)
    (h1 : x ≠ 92) (h2 : x ≠ 36) :
    Spec.digits_follow (x :: rest) = Spec.digits_follow rest := by
  cases rest with
  | nil => simp [Spec.digits_follow, h2]
  | cons y r => simp [Spec.digits_follow, h1, h2]

theorem strncpy_take (s : List Nat) (n : Nat) (h : ∀ c ∈ s, c ≠ 0) (hn : n ≤ s.length) :
    strncpy s n = s.take n := by
  simp [strncpy, strlen, cstr_eq_self s h, Nat.sub_eq_zero_of_le hn]

theorem strncpy_zero (s : List Nat) : strncpy s 0 = [] := by
  simp [strncpy]

theorem strncpy_group (saslname : List Nat) (sr_strings : List regmatch_t) (d : Nat)
    (hs : ∀ c ∈ saslname, c ≠ 0) (hok : Spec.match_ok saslname sr_strings) :
    strncpy (saslname.drop (sr_string sr_strings d).rm_so.toNat)
        ((sr_string sr_strings d).rm_eo - (sr_string sr_strings d).rm_so).toNat
      = Spec.group saslname sr_strings d := by
  rcases hok d with ⟨h1, h2⟩ | ⟨h1, h2, h3⟩
  · have : ¬ (0 : Int) ≤ -1 := by decide
    simp [Spec.group, h1, h2, strncpy_zero]
  · have hlt : ¬ (sr_string sr_strings d).rm_so < 0 := by omega
    simp only [Spec.group, hlt, if_false]
    apply strncpy_take
    · intro c hc
      exact hs c (List.mem_of_mem_drop hc)
    · simp only [List.length_drop]
      omega

theorem Spec.group_length (saslname : List Nat) (sr_strings : List regmatch_t) (d : Nat)
    (hok : Spec.match_ok saslname sr_strings) :
    ((Spec.group saslname sr_strings d).length : Int)
      = (sr_string sr_strings d).rm_eo - (sr_string sr_strings d).rm_so := by
  rcases hok d with ⟨h1, h2⟩ | ⟨h1, h2, h3⟩
  · simp [Spec.group, h1, h2]
  · have hlt : ¬ (sr_string sr_strings d).rm_so < 0 := by omega
    simp only [Spec.group, hlt, if_false, List.length_take, List.length_drop]
    omega

theorem sr_offset_tail_head (t : List Nat) (pos : Nat) (T : List Nat) :
    ∃ next tl, (Spec.placeholders t pos).map Int.ofNat ++ [Int.ofNat T.length, -1] = next :: tl ∧
      0 ≤ next := by
  cases h : Spec.placeholders t pos with
  | nil => exact ⟨Int.ofNat T.length, [-1], rfl, Int.ofNat_nonneg _⟩
  | cons p ps => exact ⟨Int.ofNat p, _, rfl, Int.ofNat_nonneg _⟩

theorem template_getD (A B : List Nat) (c x : Nat) (rest : List Nat) :
    (A ++ B ++ c :: x :: rest).getD (A.length + B.length + 1) 0 = x := by
  have h : A ++ B ++ c :: x :: rest = (A ++ B ++ [c]) ++ x :: rest := by simp
  have hl : (A ++ B ++ [c]).length = A.length + B.length + 1 := by simp; omega
  rw [h, List.getD_eq_getElem?_getD, List.getElem?_append_right (by omega), hl]
  simp

theorem template_drop (A B t : List Nat) (h : ∀ c ∈ A ++ B ++ t, c ≠ 0) :
    strncpy ((A ++ B ++ t).drop A.length) B.length = B := by
  have hd : (A ++ B ++ t).drop A.length = B ++ t := by
    rw [List.append_assoc, List.drop_left]
  rw [hd, strncpy_take _ _ (fun c hc => h c (by simp at hc ⊢; tauto)) (by simp)]
  simp

theorem slap_sasl_regexp_fill_bounded (saslname : List Nat) (sr_strings : List regmatch_t)
    (hs : ∀ c ∈ saslname, c ≠ 0) (hok : Spec.match_ok saslname sr_strings) (k : Nat) :
    ∀ (t : List Nat), t.length ≤ k →
    ∀ (T A B : List Nat) (pos : Nat) (prev : Int) (out : List Nat),
      T = A ++ B ++ t → pos = A.length + B.length → prev = (A.length : Int) - 2 →
      Spec.digits_follow t = true → (∀ c ∈ T, c ≠ 0) →
      slap_sasl_regexp_fill T saslname sr_strings prev
          ((Spec.placeholders t pos).map Int.ofNat ++ [Int.ofNat T.length, -1]) out
        = some (out ++ B ++ Spec.expand (Spec.group saslname sr_strings) t) := by
  induction k with
  | zero =>
    intro t ht T A B pos prev out hT hpos hprev _ hnul
    have : t = [] := List.length_eq_zero.mp (Nat.le_zero.mp ht)
    subst this
    have h1 : ¬ (Int.ofNat T.length < 0) := by simp
    have h2 : ¬ (Int.ofNat T.length - prev - 2 < 0) := by
      subst hT hprev; simp
    have h3 : (prev + 2).toNat = A.length := by omega
    have h4 : (Int.ofNat T.length - prev - 2).toNat = B.length := by
      subst hT hprev; simp
    simp only [Spec.placeholders, List.map_nil, List.nil_append, slap_sasl_regexp_fill, h1, h2,
      if_false, h3, h4, Spec.expand, List.append_nil]
    have h5 : (-1 : Int) < 0 := by decide
    simp only [h5, if_true]
    subst hT
    rw [template_drop A B [] hnul]
  | succ k ih =>
    intro t ht T A B pos prev out hT hpos hprev hdig hnul
    match t, ht, hT, hdig with
    | [], ht, hT, hdig => exact ih [] (by simp) T A B pos prev out hT hpos hprev hdig hnul
    | [c], _, hT, hdig =>
      have hc : c ≠ 36 := by simpa [Spec.digits_follow] using hdig
      have := ih [] (by simp) T A (B ++ [c]) (pos + 1) prev out (by simp [hT])
        (by simp [hpos]; omega) hprev rfl hnul
      simp only [Spec.placeholders, hc, if_false, Spec.expand] at this ⊢
      rw [this]
      simp
    | c :: x :: rest, ht, hT, hdig =>
      have hlen1 : (x :: rest).length ≤ k := by simp at ht ⊢; omega
      have hlen2 : rest.length ≤ k := by simp at ht ⊢; omega
      by_cases hb : c = 92
      · have hdig2 : Spec.digits_follow rest = true := by
          simpa [Spec.digits_follow, hb] using hdig
        have := ih rest hlen2 T A (B ++ [c, x]) (pos + 2) prev out (by simp [hT])
          (by simp [hpos]; omega) hprev hdig2 hnul
        simp only [Spec.placeholders, hb, if_true, Spec.expand] at this ⊢
        rw [this]
        simp
      · by_cases hc : c = 36
        · subst hc
          have hx : (48 ≤ x ∧ x ≤ 57) ∧ Spec.digits_follow rest = true := by
            simpa [Spec.digits_follow] using hdig
          obtain ⟨⟨hx1, hx2⟩, hdig2⟩ := hx
          have hpl : Spec.placeholders (36 :: x :: rest) pos
              = pos :: Spec.placeholders rest (pos + 2) := by
            simp [Spec.placeholders,
              Spec.placeholders_skip x rest (pos + 1) (by omega) (by omega)]
          have hex : Spec.expand (Spec.group saslname sr_strings) (36 :: x :: rest)
              = Spec.group saslname sr_strings (x - 48)
                ++ Spec.expand (Spec.group saslname sr_strings) rest := by
            simp [Spec.expand]
          obtain ⟨next, tl, hL, hnext⟩ := sr_offset_tail_head rest (pos + 2) T
          have hget : T.getD (pos + 1) 0 = x := by
            subst hT hpos; exact template_getD A B 36 x rest
          have ih2 := ih rest hlen2 T (A ++ B ++ [36, x]) [] (pos + 2) (Int.ofNat pos)
            (out ++ B ++ Spec.group saslname sr_strings (x - 48)) (by simp [hT])
            (by simp [hpos]; omega) (by simp [hpos]; omega) hdig2 hnul
          rw [hL] at ih2
          rw [hpl, List.map_cons, List.cons_append, hL, slap_sasl_regexp_fill]
          have h1 : ¬ (Int.ofNat pos < 0) := by simp
          have h2 : ¬ (Int.ofNat pos - prev - 2 < 0) := by
            subst hpos hprev; simp
          have h3 : ¬ (next < 0) := by omega
          have hcur : (Int.ofNat pos).toNat = pos := by simp
          have hdigit : ¬ (((x : Nat) : Int) - 48 < 0 ∨
              ((SASLREGEX_REPLACE : Nat) : Int) ≤ ((x : Nat) : Int) - 48) := by
            simp only [SASLREGEX_REPLACE]; omega
          have hgrp : ¬ ((sr_string sr_strings (x - 48)).rm_eo
              - (sr_string sr_strings (x - 48)).rm_so < 0) := by
            rcases hok (x - 48) with ⟨e1, e2⟩ | ⟨e1, e2, e3⟩
            · rw [e1, e2]; decide
            · omega
          have hsec : strncpy (T.drop (prev + 2).toNat) (Int.ofNat pos - prev - 2).toNat = B := by
            have a1 : (prev + 2).toNat = A.length := by omega
            have a2 : (Int.ofNat pos - prev - 2).toNat = B.length := by
              subst hpos hprev; simp
            rw [a1, a2]
            subst hT
            exact template_drop A B _ hnul
          simp only [h1, h2, h3, if_false, hcur, hget, hdigit, hgrp, hsec,
            strncpy_group saslname sr_strings (x - 48) hs hok]
          rw [ih2, hex]
          simp
        · have hdig2 : Spec.digits_follow (x :: rest) = true := by
            simpa [Spec.digits_follow, hb, hc] using hdig
          have := ih (x :: rest) hlen1 T A (B ++ [c]) (pos + 1) prev out (by simp [hT])
            (by simp [hpos]; omega) hprev hdig2 hnul
          simp only [Spec.placeholders, hb, hc, if_false, Spec.expand] at this ⊢
          rw [this]
          simp

theorem slap_sasl_regexp_len_bounded (saslname : List Nat) (sr_strings : List regmatch_t)
    (hok : Spec.match_ok saslname sr_strings) (k : Nat) :
    ∀ (t : List Nat), t.length ≤ k →
    ∀ (T A B : List Nat) (pos : Nat) (prev len : Int),
      T = A ++ B ++ t → pos = A.length + B.length → prev = (A.length : Int) - 2 →
      Spec.digits_follow t = true →
      slap_sasl_regexp_len T sr_strings prev
          ((Spec.placeholders t pos).map Int.ofNat ++ [Int.ofNat T.length, -1]) len
        = some (len + B.length
            + (Spec.expand (Spec.group saslname sr_strings) t).length) := by
  induction k with
  | zero =>
    intro t ht T A B pos prev len hT hpos hprev _
    have : t = [] := List.length_eq_zero.mp (Nat.le_zero.mp ht)
    subst this
    have h1 : ¬ (Int.ofNat T.length < 0) := by simp
    have h5 : (-1 : Int) < 0 := by decide
    have h4 : Int.ofNat T.length - prev - 2 = B.length := by
      subst hT hprev; simp
    simp only [Spec.placeholders, List.map_nil, List.nil_append, slap_sasl_regexp_len, h1,
      if_false, h5, if_true, h4, Spec.expand, List.length_nil, Nat.cast_zero, add_zero]
  | succ k ih =>
    intro t ht T A B pos prev len hT hpos hprev hdig
    match t, ht, hT, hdig with
    | [], ht, hT, hdig => exact ih [] (by simp) T A B pos prev len hT hpos hprev hdig
    | [c], _, hT, hdig =>
      have hc : c ≠ 36 := by simpa [Spec.digits_follow] using hdig
      have := ih [] (by simp) T A (B ++ [c]) (pos + 1) prev len (by simp [hT])
        (by simp [hpos]; omega) hprev rfl
      simp only [Spec.placeholders, hc, if_false, Spec.expand] at this ⊢
      rw [this]
      simp; omega
    | c :: x :: rest, ht, hT, hdig =>
      have hlen1 : (x :: rest).length ≤ k := by simp at ht ⊢; omega
      have hlen2 : rest.length ≤ k := by simp at ht ⊢; omega
      by_cases hb : c = 92
      · have hdig2 : Spec.digits_follow rest = true := by
          simpa [Spec.digits_follow, hb] using hdig
        have := ih rest hlen2 T A (B ++ [c, x]) (pos + 2) prev len (by simp [hT])
          (by simp [hpos]; omega) hprev hdig2
        simp only [Spec.placeholders, hb, if_true, Spec.expand] at this ⊢
        rw [this]
        simp; omega
      · by_cases hc : c = 36
        · subst hc
          have hx : (48 ≤ x ∧ x ≤ 57) ∧ Spec.digits_follow rest = true := by
            simpa [Spec.digits_follow] using hdig
          obtain ⟨⟨hx1, hx2⟩, hdig2⟩ := hx
          have hpl : Spec.placeholders (36 :: x :: rest) pos
              = pos :: Spec.placeholders rest (pos + 2) := by
            simp [Spec.placeholders,
              Spec.placeholders_skip x rest (pos + 1) (by omega) (by omega)]
          have hex : Spec.expand (Spec.group saslname sr_strings) (36 :: x :: rest)
              = Spec.group saslname sr_strings (x - 48)
                ++ Spec.expand (Spec.group saslname sr_strings) rest := by
            simp [Spec.expand]
          obtain ⟨next, tl, hL, hnext⟩ := sr_offset_tail_head rest (pos + 2) T
          have hget : T.getD (pos + 1) 0 = x := by
            subst hT hpos; exact template_getD A B 36 x rest
          have ih2 := ih rest hlen2 T (A ++ B ++ [36, x]) [] (pos + 2) (Int.ofNat pos)
            (len + (Int.ofNat pos - prev - 2)
              + ((sr_string sr_strings (x - 48)).rm_eo - (sr_string sr_strings (x - 48)).rm_so))
            (by simp [hT]) (by simp [hpos]; omega) (by simp [hpos]; omega) hdig2
          rw [hL] at ih2
          rw [hpl, List.map_cons, List.cons_append, hL, slap_sasl_regexp_len]
          have h1 : ¬ (Int.ofNat pos < 0) := by simp
          have h3 : ¬ (next < 0) := by omega
          have hcur : (Int.ofNat pos).toNat = pos := by simp
          have hdigit : ¬ (((x : Nat) : Int) - 48 < 0 ∨
              ((SASLREGEX_REPLACE : Nat) : Int) ≤ ((x : Nat) : Int) - 48) := by
            simp only [SASLREGEX_REPLACE]; omega
          simp only [h1, h3, if_false, hcur, hget, hdigit]
          rw [ih2, hex, List.length_append, Nat.cast_add,
            Spec.group_length saslname sr_strings (x - 48) hok]
          have a2 : Int.ofNat pos - prev - 2 = B.length := by
            subst hpos hprev; simp
          rw [a2]
          simp only [List.length_nil, Nat.cast_zero, add_zero, add_assoc]
        · have hdig2 : Spec.digits_follow (x :: rest) = true := by
            simpa [Spec.digits_follow, hb, hc] using hdig
          have := ih (x :: rest) hlen1 T A (B ++ [c]) (pos + 1) prev len (by simp [hT])
            (by simp [hpos]; omega) hprev hdig2
          simp only [Spec.placeholders, hb, hc, if_false, Spec.expand] at this ⊢
          rw [this]
          simp; omega

theorem slap_sasl_regexp_config_rule (E : Env) (SaslRegexp : List SaslRegexp_t)
    (mtch replace : List Nat) (reg : SaslRegexp_t)
    (h : slap_sasl_regexp_config E SaslRegexp mtch replace
      = (LDAP_SUCCESS, SaslRegexp ++ [reg])) :
    (∀ c ∈ reg.sr_replace, c ≠ 0) ∧
    slap_sasl_regexp_scan reg.sr_replace 0 [-2] = some reg.sr_offset := by
  have hne : ∀ (rc : Nat), (rc, SaslRegexp) ≠ (LDAP_SUCCESS, SaslRegexp ++ [reg]) := by
    intro rc hrc
    have := congrArg (fun p => p.2.length) hrc
    simp at this
  simp only [slap_sasl_regexp_config] at h
  split_ifs at h with h1 h2 h3
  · exact absurd h (hne _)
  · exact absurd h (hne _)
  · exact absurd h (hne _)
  · split at h
    · exact absurd h (hne _)
    · rename_i sr_offset hscan
      have h2 := (Prod.mk.inj h).2
      have h3 := List.append_cancel_left h2
      have h4 := (List.cons.inj h3).1
      subst h4
      exact ⟨cstr_ne_zero _, hscan⟩

theorem slap_sasl_regexp_expand_eq (reg : SaslRegexp_t) (saslname : List Nat)
    (sr_strings : List regmatch_t) (hnul : ∀ c ∈ reg.sr_replace, c ≠ 0)
    (hscan : slap_sasl_regexp_scan reg.sr_replace 0 [-2] = some reg.sr_offset)
    (hdig : Spec.digits_follow reg.sr_replace = true)
    (hs : ∀ c ∈ saslname, c ≠ 0) (hok : Spec.match_ok saslname sr_strings) :
    slap_sasl_regexp_expand reg saslname sr_strings =
      some (1,
        { bv_len := (Spec.expand (Spec.group saslname sr_strings) reg.sr_replace).length,
          bv_val := some (Spec.expand (Spec.group saslname sr_strings) reg.sr_replace) }) := by
  rw [slap_sasl_regexp_scan_eq] at hscan
  split_ifs at hscan with hle
  have hoff := (Option.some.inj hscan).symm
  have hlen := slap_sasl_regexp_len_bounded saslname sr_strings hok reg.sr_replace.length
    reg.sr_replace (Nat.le_refl _) reg.sr_replace [] [] 0 (-2) 0 (by simp) (by simp) (by simp)
    hdig
  have hfill := slap_sasl_regexp_fill_bounded saslname sr_strings hs hok reg.sr_replace.length
    reg.sr_replace (Nat.le_refl _) reg.sr_replace [] [] 0 (-2) [] (by simp) (by simp) (by simp)
    hdig hnul
  simp only [slap_sasl_regexp_expand, hoff, hlen, hfill]
  simp

/-- C14: template expansion.  Let `reg` be the rule that a successful
`slap_sasl_regexp_config` appended, with every unescaped `$` of its template
followed by a digit, let no earlier rule match the principal and let `reg`
match it, the match array being as `regexec` fills it.  Then
`slap_sasl_regexp` returns 1 and the template with each `$d` replaced by group
`d` of the principal (empty when the group did not take part) and every other
character copied in order; `bv_len`, from the first pass, is the number of
characters the second pass wrote. -/
theorem template_expansion (E : Env) (SaslRegexp : List SaslRegexp_t) (mtch replace : List Nat)
    (reg : SaslRegexp_t) (n : Nat) (saslname : List Nat) (sr_strings : List regmatch_t)
    (hcfg : slap_sasl_regexp_config E SaslRegexp mtch replace
      = (LDAP_SUCCESS, SaslRegexp ++ [reg]))
    (hdig : Spec.digits_follow reg.sr_replace = true)
    (hnone : ∀ p ∈ SaslRegexp,
      E.regexec p.sr_workspace (cstr saslname) SASLREGEX_REPLACE = none)
    (hmatch : E.regexec reg.sr_workspace (cstr saslname) SASLREGEX_REPLACE = some sr_strings)
    (hok : Spec.match_ok (cstr saslname) sr_strings) :
    slap_sasl_regexp E (SaslRegexp ++ [reg]) { bv_len := n, bv_val := some saslname } =
      some (1,
        { bv_len :=
            (Spec.expand (Spec.group (cstr saslname) sr_strings) reg.sr_replace).length,
          bv_val :=
            some (Spec.expand (Spec.group (cstr saslname) sr_strings) reg.sr_replace) }) ∧
    slap_sasl_regexp_fill reg.sr_replace (cstr saslname) sr_strings (-2)
        (reg.sr_offset.drop 1) []
      = some (Spec.expand (Spec.group (cstr saslname) sr_strings) reg.sr_replace) ∧
    slap_sasl_regexp_len reg.sr_replace sr_strings (-2) (reg.sr_offset.drop 1) 0
      = some ((Spec.expand (Spec.group (cstr saslname) sr_strings)
          reg.sr_replace).length : Int) := by
  obtain ⟨hnul, hscan⟩ := slap_sasl_regexp_config_rule E SaslRegexp mtch replace reg hcfg
  have hex := slap_sasl_regexp_expand_eq reg (cstr saslname) sr_strings hnul hscan hdig
    (cstr_ne_zero saslname) hok
  refine ⟨?_, ?_, ?_⟩
  · have hfind := slap_sasl_regexp_find_first E (cstr saslname) SaslRegexp reg [] sr_strings
      hnone hmatch
    simp only [slap_sasl_regexp, List.length_append, List.length_singleton, Nat.add_one_ne_zero,
      if_false, hfind, hex]
  · rw [slap_sasl_regexp_scan_eq] at hscan
    split_ifs at hscan with hle
    have hoff := (Option.some.inj hscan).symm
    have hfill := slap_sasl_regexp_fill_bounded (cstr saslname) sr_strings
      (cstr_ne_zero saslname) hok reg.sr_replace.length
      reg.sr_replace (Nat.le_refl _) reg.sr_replace [] [] 0 (-2) [] (by simp) (by simp)
      (by simp) hdig hnul
    rw [hoff]
    simpa using hfill
  · rw [slap_sasl_regexp_scan_eq] at hscan
    split_ifs at hscan with hle
    have hoff := (Option.some.inj hscan).symm
    have hlen := slap_sasl_regexp_len_bounded (cstr saslname) sr_strings hok
      reg.sr_replace.length
      reg.sr_replace (Nat.le_refl _) reg.sr_replace [] [] 0 (-2) 0 (by simp) (by simp)
      (by simp) hdig
    rw [hoff]
    simpa using hlen

theorem Sample.match_ok_example :
    Spec.match_ok (cstr (cs "uid=bob,cn=EXAMPLE,cn=AUTH"))
      [{ rm_so := 0, rm_eo := 26 }, { rm_so := 4, rm_eo := 7 }] := by
  intro d
  match d with
  | 0 => exact Or.inr (by decide)
  | 1 => exact Or.inr (by decide)
  | d + 2 => exact Or.inl (by simp [sr_string])

/-- The example rule on the principal `uid=bob,cn=EXAMPLE,cn=AUTH`: group 1
is `bob`, the output is the template with `$1` replaced by it, 39 characters. -/
theorem template_expansion_witness :
    Spec.expand
        (Spec.group (cstr (cs "uid=bob,cn=EXAMPLE,cn=AUTH"))
          [{ rm_so := 0, rm_eo := 26 }, { rm_so := 4, rm_eo := 7 }])
        (cs "ldap:///uid=$1,dc=example,dc=com??base")
      = cs "ldap:///uid=bob,dc=example,dc=com??base" ∧
    slap_sasl_regexp Sample.env
        ([] ++ [{ sr_match := cs "uid=([^,]+),cn=EXAMPLE,cn=AUTH",
                  sr_replace := cs "ldap:///uid=$1,dc=example,dc=com??base",
                  sr_workspace := { re_pattern := cs "uid=([^,]+),cn=EXAMPLE,cn=AUTH",
                                    re_cflags := 3 },
                  sr_offset := [-2, 12, 38, -1] }])
        { bv_len := 26, bv_val := some (cs "uid=bob,cn=EXAMPLE,cn=AUTH") }
      = some (1,
          { bv_len := (Spec.expand
              (Spec.group (cstr (cs "uid=bob,cn=EXAMPLE,cn=AUTH"))
                [{ rm_so := 0, rm_eo := 26 }, { rm_so := 4, rm_eo := 7 }])
              (cs "ldap:///uid=$1,dc=example,dc=com??base")).length,
            bv_val := some (Spec.expand
              (Spec.group (cstr (cs "uid=bob,cn=EXAMPLE,cn=AUTH"))
                [{ rm_so := 0, rm_eo := 26 }, { rm_so := 4, rm_eo := 7 }])
              (cs "ldap:///uid=$1,dc=example,dc=com??base")) }) :=
  ⟨by decide,
   (template_expansion Sample.env [] (cs "uid=([^,]+),cn=EXAMPLE,cn=AUTH")
      (cs "ldap:///uid=$1,dc=example,dc=com??base")
      { sr_match := cs "uid=([^,]+),cn=EXAMPLE,cn=AUTH",
        sr_replace := cs "ldap:///uid=$1,dc=example,dc=com??base",
        sr_workspace := { re_pattern := cs "uid=([^,]+),cn=EXAMPLE,cn=AUTH",
                          re_cflags := 3 },
        sr_offset := [-2, 12, 38, -1] }
      26 (cs "uid=bob,cn=EXAMPLE,cn=AUTH")
      [{ rm_so := 0, rm_eo := 26 }, { rm_so := 4, rm_eo := 7 }]
      (by decide) (by decide) (by decide) (by decide) Sample.match_ok_example).1⟩

end Sasl

namespace Chain

/-! ## Responses that are not referrals -/

/-- C20: pass-through.  When the outcome code of the response is not Referral
and its reply kind is not a referral entry, `ldap_chain_response` returns
Continue, records no call of a remote-client entry point (nor of any other
collaborator) and leaves the operation and the response, every field of
them, as they were. -/
theorem pass_through (X : Env) (lip : ldapinfo) (op : Operation) (rs : SlapReply)
    (herr : rs.sr_err ≠ LDAP_REFERRAL) (htype : rs.sr_type ≠ slap_reply_t.REP_SEARCHREF) :
    ldap_chain_response X lip op rs
      = some { rc := SLAP_CB_CONTINUE, op := op, rs := rs, calls := [] } := by
  simp [ldap_chain_response, herr, htype]

/-- A search result with outcome success passes through, its referral list
included. -/
theorem pass_through_witness :
    ldap_chain_response Sample.env { url := none, rest := 0 } Sample.op Sample.rs
      = some { rc := SLAP_CB_CONTINUE, op := Sample.op, rs := Sample.rs, calls := [] } :=
  pass_through Sample.env { url := none, rest := 0 } Sample.op Sample.rs
    (by decide) (by decide)

end Chain

/-! ## Failure of `slap_bv2ad` -/

theorem slap_bv2ad_parse_error_text (S : Schema) (bv : Option (List Nat)) (e : String)
    (h : slap_bv2ad_parse S bv = .error e) :
    e = "empty attribute description" ∨
    e = "attribute description contains inappropriate characters" ∨
    e = "attribute type undefined" ∨
    e = "option \"binary\" specified multiple times" ∨
    e = "option \"binary\" with type not supported" ∨
    e = "multiple language tag options specified" ∨
    e = "unrecognized option" := by
  unfold slap_bv2ad_parse at h
  split at h
  · simp at h; simp [← h]
  · split_ifs at h with h1 h2
    · simp at h; simp [← h]
    · simp at h; simp [← h]
    · simp only at h
      split at h
      · simp at h; simp [← h]
      · have := slap_bv2ad_options_error S _ _ e h
        tauto

/-- C28: failure atomicity of `slap_bv2ad`.  A call that does not return
success returns `LDAP_UNDEFINED_TYPE` with one of the seven diagnostics (empty
description, inappropriate characters, undefined type, or one of the four
option errors), leaves the registry as it was, so the intern list of every
attribute type is unchanged, and leaves `*ad` NULL, as it was on entry. -/
theorem failure_atomicity (S : Schema) (reg : Registry) (bv : Option (List Nat))
    (h : (slap_bv2ad S reg bv).rtn ≠ LDAP_SUCCESS) :
    (slap_bv2ad S reg bv).reg = reg ∧
    (∀ t : AttributeType, (slap_bv2ad S reg bv).reg.sat_ad t = reg.sat_ad t) ∧
    (slap_bv2ad S reg bv).ad = none ∧
    (slap_bv2ad S reg bv).rtn = LDAP_UNDEFINED_TYPE ∧
    ∃ e, (slap_bv2ad S reg bv).text = some e ∧
      (e = "empty attribute description" ∨
       e = "attribute description contains inappropriate characters" ∨
       e = "attribute type undefined" ∨
       e = "option \"binary\" specified multiple times" ∨
       e = "option \"binary\" with type not supported" ∨
       e = "multiple language tag options specified" ∨
       e = "unrecognized option") := by
  cases hp : slap_bv2ad_parse S bv with
  | ok d => exact absurd ((slap_bv2ad_rtn_success_iff S reg bv).2 ⟨d, hp⟩) h
  | error e =>
    rw [slap_bv2ad_of_parse_error S reg bv e hp]
    exact ⟨rfl, fun _ => rfl, rfl, rfl, e, rfl, slap_bv2ad_parse_error_text S bv e hp⟩

/-- After `cn` and `cn;lang-en` are interned, the empty description, a
description with a blank, an undefined type and each option error fail and
leave the two nodes of `cn` as they were. -/
theorem failure_atomicity_witness :
    (∀ bv ∈ [none, some [], some (cs "c n"), some (cs "nosuchtype"), some (cs "cn;binary"),
        some (cs "userCertificate;binary;binary"), some (cs "cn;lang-en;lang-fr"),
        some (cs "cn;wat")],
      (slap_bv2ad Sample.schema
        (slap_bv2ad_seq Sample.schema Registry.empty [some (cs "cn"), some (cs "cn;lang-en")])
        bv).rtn ≠ LDAP_SUCCESS) ∧
    (slap_bv2ad Sample.schema
        (slap_bv2ad_seq Sample.schema Registry.empty [some (cs "cn"), some (cs "cn;lang-en")])
        (some (cs "cn;wat"))).reg.sat_ad Sample.at_cn
      = (slap_bv2ad_seq Sample.schema Registry.empty
          [some (cs "cn"), some (cs "cn;lang-en")]).sat_ad Sample.at_cn ∧
    (slap_bv2ad Sample.schema
        (slap_bv2ad_seq Sample.schema Registry.empty [some (cs "cn"), some (cs "cn;lang-en")])
        (some (cs "cn;wat"))).ad = none :=
  ⟨by decide,
   (failure_atomicity Sample.schema
      (slap_bv2ad_seq Sample.schema Registry.empty [some (cs "cn"), some (cs "cn;lang-en")])
      (some (cs "cn;wat")) (by decide)).2.1 Sample.at_cn,
   (failure_atomicity Sample.schema
      (slap_bv2ad_seq Sample.schema Registry.empty [some (cs "cn"), some (cs "cn;lang-en")])
      (some (cs "cn;wat")) (by decide)).2.2.1⟩

namespace Sasl

/-! ## Bounds of the offset array -/

theorem slap_sasl_regexp_scan_writes_bounded (k : Nat) : ∀ (t : List Nat), t.length ≤ k →
    ∀ (pos : Nat) (off : List Int), off.length ≤ SASLREGEX_REPLACE →
    (slap_sasl_regexp_scan_writes t pos off).length ≤ SASLREGEX_REPLACE + 2 ∧
    ∀ w, slap_sasl_regexp_scan t pos off = some w →
      w = slap_sasl_regexp_scan_writes t pos off := by
  induction k with
  | zero =>
    intro t ht pos off hoff
    have : t = [] := List.length_eq_zero.mp (Nat.le_zero.mp ht)
    subst this
    simp only [SASLREGEX_REPLACE] at hoff ⊢
    constructor
    · simp [slap_sasl_regexp_scan_writes]; omega
    · intro w hw
      simpa [slap_sasl_regexp_scan, slap_sasl_regexp_scan_writes, eq_comm] using hw
  | succ k ih =>
    intro t ht pos off hoff
    match t, ht with
    | [], _ => exact ih [] (by simp) pos off hoff
    | [c], _ =>
      by_cases hc : c = 36
      · by_cases hn : off.length = SASLREGEX_REPLACE
        · simp [slap_sasl_regexp_scan, slap_sasl_regexp_scan_writes, hc, hn]
        · have hoff2 : (off ++ [(pos : Int)]).length ≤ SASLREGEX_REPLACE := by
            simp only [List.length_append, List.length_singleton]; omega
          simp only [slap_sasl_regexp_scan, slap_sasl_regexp_scan_writes, hc, hn, if_true,
            if_false]
          exact ih [] (by simp) (pos + 1) _ hoff2
      · simp only [slap_sasl_regexp_scan, slap_sasl_regexp_scan_writes, hc, if_false]
        exact ih [] (by simp) (pos + 1) off hoff
    | c :: x :: rest, ht =>
      have hlen1 : (x :: rest).length ≤ k := by simp at ht ⊢; omega
      have hlen2 : rest.length ≤ k := by simp at ht ⊢; omega
      by_cases hb : c = 92
      · simp only [slap_sasl_regexp_scan, slap_sasl_regexp_scan_writes, hb, if_true]
        exact ih rest hlen2 (pos + 2) off hoff
      · by_cases hc : c = 36
        · by_cases hn : off.length = SASLREGEX_REPLACE
          · simp [slap_sasl_regexp_scan, slap_sasl_regexp_scan_writes, hb, hc, hn]
          · have hoff2 : (off ++ [(pos : Int)]).length ≤ SASLREGEX_REPLACE := by
              simp only [List.length_append, List.length_singleton]; omega
            simp only [slap_sasl_regexp_scan, slap_sasl_regexp_scan_writes, hb, hc, hn, if_true,
              if_false]
            exact ih (x :: rest) hlen1 (pos + 1) _ hoff2
        · simp only [slap_sasl_regexp_scan, slap_sasl_regexp_scan_writes, hb, hc, if_false]
          exact ih (x :: rest) hlen1 (pos + 1) off hoff

theorem slap_sasl_regexp_reads_bounded (L : Int) (hL : 0 ≤ L) (ps : List Nat) :
    ∀ (n : Nat), ∀ i ∈ slap_sasl_regexp_reads n (ps.map Int.ofNat ++ [L, -1]),
      i ≤ n + ps.length + 1 := by
  induction ps with
  | nil =>
    intro n i hi
    have h1 : ¬ (L < 0) := by omega
    simp [slap_sasl_regexp_reads, h1] at hi
    omega
  | cons p ps ih =>
    intro n i hi
    have h1 : ¬ (Int.ofNat p < 0) := by simp
    simp only [List.map_cons, List.cons_append, slap_sasl_regexp_reads, h1, if_false,
      List.mem_cons] at hi
    rcases hi with h | h | h | h
    · omega
    · omega
    · simp only [List.length_cons]; omega
    · cases ps with
      | nil =>
        have h2 : ¬ (L < 0) := by omega
        simp only [List.map_nil, List.nil_append, h2, if_false] at h
        have h3 : i ∈ slap_sasl_regexp_reads (n + 1) [L, -1] := by
          simp [hL] at h
          exact h
        have := ih (n + 1) i h3
        simp only [List.length_cons, List.length_nil] at this ⊢
        omega
      | cons q qs =>
        have h2 : ¬ (Int.ofNat q < 0) := by simp
        simp only [List.map_cons, List.cons_append, h2, if_false] at h
        have := ih (n + 1) i (by simpa using h)
        simp only [List.length_cons] at this ⊢
        omega

/-! ## The placeholders of a template -/

theorem Spec.placeholders_bounds (k : Nat) : ∀ (t : List Nat), t.length ≤ k →
    ∀ (pos : Nat), ∀ p ∈ Spec.placeholders t pos,
      pos ≤ p ∧ p < pos + t.length ∧ t.getD (p - pos) 0 = 36 := by
  induction k with
  | zero =>
    intro t ht pos p hp
    have : t = [] := List.length_eq_zero.mp (Nat.le_zero.mp ht)
    subst this
    simp [Spec.placeholders] at hp
  | succ k ih =>
    intro t ht pos p hp
    match t, ht, hp with
    | [], _, hq => simp [Spec.placeholders] at hq
    | [c], _, hq =>
      by_cases hc : c = 36
      · simp [Spec.placeholders, hc] at hq
        subst hq
        simp [hc]
      · simp [Spec.placeholders, hc] at hq
    | c :: x :: rest, ht, hq =>
      have hlen1 : (x :: rest).length ≤ k := by simp at ht ⊢; omega
      have hlen2 : rest.length ≤ k := by simp at ht ⊢; omega
      have h3692 : ¬ ((36 : Nat) = 92) := by decide
      by_cases hb : c = 92
      · simp only [Spec.placeholders, hb, if_true] at hq
        obtain ⟨h1, h2, h3⟩ := ih rest hlen2 (pos + 2) p hq
        refine ⟨by omega, by simp only [List.length_cons]; omega, ?_⟩
        have e : p - pos = (p - (pos + 2)) + 1 + 1 := by omega
        rw [e]
        simpa using h3
      · by_cases hc : c = 36
        · subst hc
          simp only [Spec.placeholders, h3692, if_true, if_false, List.mem_cons] at hq
          rcases hq with hq | hq
          · subst hq
            simp
          · obtain ⟨h1, h2, h3⟩ := ih (x :: rest) hlen1 (pos + 1) p hq
            refine ⟨by omega, by simp only [List.length_cons] at h2 ⊢; omega, ?_⟩
            have e : p - pos = (p - (pos + 1)) + 1 := by omega
            rw [e]
            simpa using h3
        · simp only [Spec.placeholders, hb, hc, if_false] at hq
          obtain ⟨h1, h2, h3⟩ := ih (x :: rest) hlen1 (pos + 1) p hq
          refine ⟨by omega, by simp only [List.length_cons] at h2 ⊢; omega, ?_⟩
          have e : p - pos = (p - (pos + 1)) + 1 := by omega
          rw [e]
          simpa using h3

theorem Spec.placeholders_pairwise (k : Nat) : ∀ (t : List Nat), t.length ≤ k →
    ∀ (pos : Nat), (Spec.placeholders t pos).Pairwise (fun a b => a < b) := by
  induction k with
  | zero =>
    intro t ht pos
    have : t = [] := List.length_eq_zero.mp (Nat.le_zero.mp ht)
    subst this
    simp [Spec.placeholders]
  | succ k ih =>
    intro t ht pos
    match t, ht with
    | [], _ => simp [Spec.placeholders]
    | [c], _ =>
      by_cases hc : c = 36 <;> simp [Spec.placeholders, hc]
    | c :: x :: rest, ht =>
      have hlen1 : (x :: rest).length ≤ k := by simp at ht ⊢; omega
      have hlen2 : rest.length ≤ k := by simp at ht ⊢; omega
      by_cases hb : c = 92
      · simp only [Spec.placeholders, hb, if_true]
        exact ih rest hlen2 (pos + 2)
      · by_cases hc : c = 36
        · subst hc
          have h3692 : ¬ ((36 : Nat) = 92) := by decide
          simp only [Spec.placeholders, h3692, if_true, if_false, List.pairwise_cons]
          refine ⟨?_, ih (x :: rest) hlen1 (pos + 1)⟩
          intro q hq
          have := (Spec.placeholders_bounds (x :: rest).length (x :: rest) (Nat.le_refl _)
            (pos + 1) q hq).1
          omega
        · simp only [Spec.placeholders, hb, hc, if_false]
          exact ih (x :: rest) hlen1 (pos + 1)

theorem Spec.backslashes_before_prefix (A t : List Nat) :
    Spec.backslashes_before (A ++ t) A.length = Spec.backslashes_before A A.length := by
  simp [Spec.backslashes_before]

theorem Spec.backslashes_before_snoc (A : List Nat) (c : Nat) :
    Spec.backslashes_before (A ++ [c]) (A.length + 1) =
      if c = 92 then Spec.backslashes_before A A.length + 1 else 0 := by
  have h : (A ++ [c]).take (A.length + 1) = A ++ [c] := by
    apply List.take_of_length_le; simp
  simp only [Spec.backslashes_before, h, List.reverse_append, List.reverse_singleton,
    List.singleton_append, List.take_length, List.takeWhile_cons]
  by_cases hc : c = 92 <;> simp [hc]

theorem getD_append_length (A : List Nat) (c : Nat) (rest : List Nat) :
    (A ++ c :: rest)[A.length]?.getD 0 = c := by
  rw [List.getElem?_append_right (Nat.le_refl _)]
  simp

theorem Spec.placeholders_filter (k : Nat) : ∀ (t : List Nat), t.length ≤ k →
    ∀ (T A : List Nat), T = A ++ t → Spec.backslashes_before A A.length % 2 = 0 →
    Spec.placeholders t A.length =
      (List.range' A.length t.length).filter
        (fun i => T.getD i 0 == 36 && Spec.backslashes_before T i % 2 == 0) := by
  induction k with
  | zero =>
    intro t ht T A _ _
    have : t = [] := List.length_eq_zero.mp (Nat.le_zero.mp ht)
    subst this
    simp [Spec.placeholders]
  | succ k ih =>
    intro t ht T A hT hA
    match t, ht, hT with
    | [], _, _ => simp [Spec.placeholders]
    | [c], _, hT =>
      have e0 : T[A.length]?.getD 0 = c := by rw [hT]; exact getD_append_length A c _
      have b0 : Spec.backslashes_before T A.length = Spec.backslashes_before A A.length := by
        subst hT; exact Spec.backslashes_before_prefix A [c]
      by_cases hc : c = 36
      · simp [Spec.placeholders, hc, List.range', e0, b0, hA]
      · simp [Spec.placeholders, hc, List.range', e0, b0]
    | c :: x :: rest, ht, hT =>
      have hlen1 : (x :: rest).length ≤ k := by simp at ht ⊢; omega
      have hlen2 : rest.length ≤ k := by simp at ht ⊢; omega
      have e0 : T[A.length]?.getD 0 = c := by rw [hT]; exact getD_append_length A c _
      have b0 : Spec.backslashes_before T A.length = Spec.backslashes_before A A.length := by
        subst hT; exact Spec.backslashes_before_prefix A _
      have hT1 : T = (A ++ [c]) ++ (x :: rest) := by simp [hT]
      have hT2 : T = (A ++ [c, x]) ++ rest := by simp [hT]
      have hl1 : (A ++ [c]).length = A.length + 1 := by simp
      have hl2 : (A ++ [c, x]).length = A.length + 2 := by simp
      by_cases hb : c = 92
      · have e1 : T[A.length + 1]?.getD 0 = x := by
          rw [hT1, ← hl1]; exact getD_append_length (A ++ [c]) x rest
        have b1 : Spec.backslashes_before T (A.length + 1)
            = Spec.backslashes_before A A.length + 1 := by
          rw [hT1, ← hl1, Spec.backslashes_before_prefix, hl1, Spec.backslashes_before_snoc]
          simp [hb]
        have hA2 : Spec.backslashes_before (A ++ [c, x]) (A ++ [c, x]).length % 2 = 0 := by
          have h2 : A ++ [c, x] = (A ++ [c]) ++ [x] := by simp
          rw [h2, List.length_append, List.length_singleton, Spec.backslashes_before_snoc,
            hl1, Spec.backslashes_before_snoc]
          by_cases hx : x = 92
          · simp [hx, hb]; omega
          · simp [hx]
        have := ih rest hlen2 T (A ++ [c, x]) hT2 hA2
        rw [hl2] at this
        have hodd : ¬ ((Spec.backslashes_before A A.length + 1) % 2 = 0) := by omega
        simp only [Spec.placeholders, hb, if_true, this, List.length_cons, List.range'_succ,
          List.filter_cons, List.getD_eq_getElem?_getD, e0, e1, b0, b1]
        simp [hodd]
      · have hA1 : Spec.backslashes_before (A ++ [c]) (A ++ [c]).length % 2 = 0 := by
          rw [hl1, Spec.backslashes_before_snoc]
          simp [hb]
        have := ih (x :: rest) hlen1 T (A ++ [c]) hT1 hA1
        rw [hl1] at this
        by_cases hc : c = 36
        · subst hc
          have h3692 : ¬ ((36 : Nat) = 92) := by decide
          simp only [Spec.placeholders, h3692, if_true, if_false, this, List.length_cons,
            List.range'_succ, List.filter_cons, List.getD_eq_getElem?_getD, e0, b0]
          simp [hA]
        · simp only [Spec.placeholders, hb, hc, if_false, this, List.length_cons,
            List.range'_succ, List.filter_cons, List.getD_eq_getElem?_getD, e0, b0]
          simp [hc]

theorem Spec.placeholders_eq_unescaped_dollars (t : List Nat) :
    Spec.placeholders t 0 = Spec.unescaped_dollars t := by
  have := Spec.placeholders_filter t.length t (Nat.le_refl _) t [] rfl (by decide)
  simpa [Spec.unescaped_dollars, List.range_eq_range'] using this

theorem slap_sasl_regexp_config_offset (E : Env) (SaslRegexp : List SaslRegexp_t)
    (mtch replace : List Nat) (reg : SaslRegexp_t)
    (h : slap_sasl_regexp_config E SaslRegexp mtch replace
      = (LDAP_SUCCESS, SaslRegexp ++ [reg])) :
    (Spec.placeholders reg.sr_replace 0).length + 1 ≤ SASLREGEX_REPLACE ∧
    reg.sr_offset = -2 :: ((Spec.placeholders reg.sr_replace 0).map Int.ofNat
      ++ [Int.ofNat reg.sr_replace.length, -1]) := by
  have hscan := (slap_sasl_regexp_config_rule E SaslRegexp mtch replace reg h).2
  rw [slap_sasl_regexp_scan_eq] at hscan
  split_ifs at hscan with hle
  exact ⟨hle, (Option.some.inj hscan).symm⟩

/-- C26: the placeholder index.  The rule that a successful
`slap_sasl_regexp_config` appends has the offset array -2, then the positions
of the unescaped `$` of its template, then the length of the template, then
-1.  The positions are strictly increasing, each lies inside the template and
holds a `$`, and they are exactly the positions of the `$` that have an even
number of backslashes immediately before them (a backslash escapes the
character after it, an escaped backslash escapes nothing, and so does a
backslash at the end). -/
theorem placeholder_index (E : Env) (SaslRegexp : List SaslRegexp_t)
    (mtch replace : List Nat) (reg : SaslRegexp_t)
    (hcfg : slap_sasl_regexp_config E SaslRegexp mtch replace
      = (LDAP_SUCCESS, SaslRegexp ++ [reg])) :
    reg.sr_offset = -2 :: ((Spec.placeholders reg.sr_replace 0).map Int.ofNat
      ++ [Int.ofNat reg.sr_replace.length, -1]) ∧
    (Spec.placeholders reg.sr_replace 0).Pairwise (fun a b => a < b) ∧
    (∀ p ∈ Spec.placeholders reg.sr_replace 0,
      p < reg.sr_replace.length ∧ reg.sr_replace.getD p 0 = 36) ∧
    Spec.placeholders reg.sr_replace 0 = Spec.unescaped_dollars reg.sr_replace ∧
    (∀ p, p ∈ Spec.placeholders reg.sr_replace 0 ↔
      p < reg.sr_replace.length ∧ reg.sr_replace.getD p 0 = 36 ∧
        Spec.backslashes_before reg.sr_replace p % 2 = 0) := by
  refine ⟨(slap_sasl_regexp_config_offset E SaslRegexp mtch replace reg hcfg).2,
    Spec.placeholders_pairwise _ _ (Nat.le_refl _) 0, ?_,
    Spec.placeholders_eq_unescaped_dollars _, ?_⟩
  · intro p hp
    have := Spec.placeholders_bounds _ _ (Nat.le_refl _) 0 p hp
    simpa using this.2
  · intro p
    rw [Spec.placeholders_eq_unescaped_dollars]
    simp [Spec.unescaped_dollars]

/-- The template `x\$1$2\` (a backslash at its end): the first `$` is escaped,
the second is at position 4, the length is 7. -/
theorem placeholder_index_witness :
    Spec.placeholders (cs "x\\$1$2\\") 0 = [4] ∧
    ({ sr_match := cs "uid=(.*),cn=AUTH", sr_replace := cs "x\\$1$2\\",
       sr_workspace := { re_pattern := cs "uid=(.*),cn=AUTH", re_cflags := 3 },
       sr_offset := [-2, 4, 7, -1] } : SaslRegexp_t).sr_offset
      = -2 :: ((Spec.placeholders (cs "x\\$1$2\\") 0).map Int.ofNat
          ++ [Int.ofNat (cs "x\\$1$2\\").length, -1]) :=
  ⟨by decide,
   (placeholder_index Sample.env [] (cs "uid=(.*),cn=AUTH") (cs "x\\$1$2\\")
      { sr_match := cs "uid=(.*),cn=AUTH", sr_replace := cs "x\\$1$2\\",
        sr_workspace := { re_pattern := cs "uid=(.*),cn=AUTH", re_cflags := 3 },
        sr_offset := [-2, 4, 7, -1] }
      (by decide)).1⟩

/-! ## The offset array stays inside its bounds -/

/-- C29: bounds of the offset array.  For every replace template the scan of
`slap_sasl_regexp_config` writes at most `SASLREGEX_REPLACE + 2` entries, in
index order from 0, so every index written is at most `SASLREGEX_REPLACE + 1`
(for an accepted template the entries written are the stored array).  For the
rule of an accepted template the array ends with -1, and every index that a
loop of `slap_sasl_regexp` reads is at most the index of that -1. -/
theorem offset_array_bounds :
    (∀ t : List Nat,
      (slap_sasl_regexp_scan_writes t 0 [-2]).length ≤ SASLREGEX_REPLACE + 2 ∧
      (∀ k, k < (slap_sasl_regexp_scan_writes t 0 [-2]).length → k ≤ SASLREGEX_REPLACE + 1) ∧
      ∀ w, slap_sasl_regexp_scan t 0 [-2] = some w →
        w = slap_sasl_regexp_scan_writes t 0 [-2]) ∧
    (∀ (E : Env) (SaslRegexp : List SaslRegexp_t) (mtch replace : List Nat)
        (reg : SaslRegexp_t),
      slap_sasl_regexp_config E SaslRegexp mtch replace
        = (LDAP_SUCCESS, SaslRegexp ++ [reg]) →
      reg.sr_offset = slap_sasl_regexp_scan_writes reg.sr_replace 0 [-2] ∧
      reg.sr_offset.length ≤ SASLREGEX_REPLACE + 2 ∧
      reg.sr_offset.getLast? = some (-1) ∧
      ∀ i ∈ slap_sasl_regexp_reads 1 (reg.sr_offset.drop 1), i + 1 ≤ reg.sr_offset.length) ∧
    (slap_sasl_regexp_scan_writes (cs "$1$2$3$4$5$6$7$8$9") 0 [-2]).length = 12 ∧
    (slap_sasl_regexp_scan_writes (cs "$1$2$3$4$5$6$7$8$9$0$1$2") 0 [-2]).length = 10 := by
  have hw : ∀ t : List Nat,
      (slap_sasl_regexp_scan_writes t 0 [-2]).length ≤ SASLREGEX_REPLACE + 2 ∧
      ∀ w, slap_sasl_regexp_scan t 0 [-2] = some w →
        w = slap_sasl_regexp_scan_writes t 0 [-2] := fun t =>
    slap_sasl_regexp_scan_writes_bounded t.length t (Nat.le_refl _) 0 [-2] (by decide)
  refine ⟨fun t => ⟨(hw t).1, fun k hk => by have := (hw t).1; omega, (hw t).2⟩, ?_,
    by decide, by decide⟩
  intro E SaslRegexp mtch replace reg hcfg
  have hscan := (slap_sasl_regexp_config_rule E SaslRegexp mtch replace reg hcfg).2
  obtain ⟨hle, hoff⟩ := slap_sasl_regexp_config_offset E SaslRegexp mtch replace reg hcfg
  have heq := (hw reg.sr_replace).2 _ hscan
  refine ⟨heq, by rw [heq]; exact (hw reg.sr_replace).1, ?_, ?_⟩
  · rw [hoff]
    have e : (-2 : Int) :: ((Spec.placeholders reg.sr_replace 0).map Int.ofNat
          ++ [Int.ofNat reg.sr_replace.length, -1])
        = ((-2 : Int) :: ((Spec.placeholders reg.sr_replace 0).map Int.ofNat
          ++ [Int.ofNat reg.sr_replace.length])) ++ [-1] := by simp
    rw [e, List.getLast?_concat]
  · intro i hi
    rw [hoff] at hi ⊢
    simp only [List.drop_succ_cons, List.drop_zero] at hi
    have := slap_sasl_regexp_reads_bounded (Int.ofNat reg.sr_replace.length)
      (Int.ofNat_nonneg _) (Spec.placeholders reg.sr_replace 0) 1 i hi
    simp only [List.length_cons, List.length_append, List.length_map, List.length_nil]
    omega

end Sasl

namespace Chain

/-! ## The callback of a chained search -/

theorem ldap_chain_cb_strip_eq_eraseP
    (ad_cmp : AttributeDescription → AttributeDescription → Int)
    (si_ad_entryDN : AttributeDescription) (attrs : List Attribute) :
    ldap_chain_cb_strip ad_cmp si_ad_entryDN attrs
      = attrs.eraseP (Spec.is_entryDN ad_cmp si_ad_entryDN) := by
  induction attrs with
  | nil => rfl
  | cons a rest ih =>
    by_cases h : ad_cmp a.a_desc si_ad_entryDN = 0
    · simp [ldap_chain_cb_strip, Spec.is_entryDN, h]
    · simp [ldap_chain_cb_strip, Spec.is_entryDN, h, ih]

theorem ldap_chain_cb_strip_first
    (ad_cmp : AttributeDescription → AttributeDescription → Int)
    (si_ad_entryDN : AttributeDescription) (pre : List Attribute) (a : Attribute)
    (post : List Attribute)
    (hpre : ∀ b ∈ pre, ad_cmp b.a_desc si_ad_entryDN ≠ 0)
    (ha : ad_cmp a.a_desc si_ad_entryDN = 0) :
    ldap_chain_cb_strip ad_cmp si_ad_entryDN (pre ++ a :: post) = pre ++ post := by
  induction pre with
  | nil => simp [ldap_chain_cb_strip, ha]
  | cons b rest ih =>
    have hb : ad_cmp b.a_desc si_ad_entryDN ≠ 0 := hpre b (by simp)
    have h := ih (fun c hc => hpre c (by simp [hc]))
    simp only [List.cons_append, ldap_chain_cb_strip, hb, if_false]
    exact congrArg (fun l => b :: l) h

theorem ldap_chain_cb_strip_none
    (ad_cmp : AttributeDescription → AttributeDescription → Int)
    (si_ad_entryDN : AttributeDescription) (attrs : List Attribute)
    (h : ∀ b ∈ attrs, ad_cmp b.a_desc si_ad_entryDN ≠ 0) :
    ldap_chain_cb_strip ad_cmp si_ad_entryDN attrs = attrs := by
  induction attrs with
  | nil => rfl
  | cons b rest ih =>
    have hb : ad_cmp b.a_desc si_ad_entryDN ≠ 0 := h b (by simp)
    simp only [ldap_chain_cb_strip, hb, if_false]
    rw [ih (fun c hc => h c (by simp [hc]))]

theorem ldap_chain_cb_strip_clean
    (ad_cmp : AttributeDescription → AttributeDescription → Int)
    (si_ad_entryDN : AttributeDescription) (attrs : List Attribute)
    (h : attrs.countP (Spec.is_entryDN ad_cmp si_ad_entryDN) ≤ 1) :
    ∀ b ∈ ldap_chain_cb_strip ad_cmp si_ad_entryDN attrs,
      ad_cmp b.a_desc si_ad_entryDN ≠ 0 := by
  induction attrs with
  | nil => simp [ldap_chain_cb_strip]
  | cons a rest ih =>
    by_cases ha : ad_cmp a.a_desc si_ad_entryDN = 0
    · simp only [ldap_chain_cb_strip, ha, if_true]
      intro b hb hz
      have h0 : rest.countP (Spec.is_entryDN ad_cmp si_ad_entryDN) = 0 := by
        simpa [List.countP_cons, Spec.is_entryDN, ha] using h
      have := List.countP_eq_zero.mp h0 b hb
      simp [Spec.is_entryDN, hz] at this
    · simp only [ldap_chain_cb_strip, ha, if_false, List.mem_cons]
      have h1 : rest.countP (Spec.is_entryDN ad_cmp si_ad_entryDN) ≤ 1 := by
        simpa [List.countP_cons, Spec.is_entryDN, ha] using h
      intro b hb
      rcases hb with hb | hb
      · rw [hb]; exact ha
      · exact ih h1 b hb

/-- C25: search entry cleanup.  Called on a search operation,
`ldap_chain_cb_response` answers a search-entry reply with Continue and leaves
the entry with its attribute list less the first attribute whose description
compares equal to `entryDN` (`ad_cmp` gives 0): the attributes before it and
after it stay, in order; without such an attribute the list is unchanged, and
when there was at most one none is left.  For any other reply kind it returns
0 and changes nothing. -/
theorem search_entry_cleanup (ad_cmp : AttributeDescription → AttributeDescription → Int)
    (si_ad_entryDN : AttributeDescription) (op : Operation) (rs : SlapReply)
    (htag : op.o_tag = LDAP_REQ_SEARCH) :
    (∀ e : Entry, rs.sr_type = slap_reply_t.REP_SEARCH → rs.sr_entry = some e →
      ldap_chain_cb_response ad_cmp si_ad_entryDN op rs
        = some
          { rc := SLAP_CB_CONTINUE, op := op,
            rs := { rs with
                    sr_entry := some
                      { e with
                        e_attrs := e.e_attrs.eraseP (Spec.is_entryDN ad_cmp si_ad_entryDN) } } } ∧
      (∀ (pre : List Attribute) (a : Attribute) (post : List Attribute),
        e.e_attrs = pre ++ a :: post →
        (∀ b ∈ pre, ad_cmp b.a_desc si_ad_entryDN ≠ 0) →
        ad_cmp a.a_desc si_ad_entryDN = 0 →
        e.e_attrs.eraseP (Spec.is_entryDN ad_cmp si_ad_entryDN) = pre ++ post) ∧
      ((∀ b ∈ e.e_attrs, ad_cmp b.a_desc si_ad_entryDN ≠ 0) →
        e.e_attrs.eraseP (Spec.is_entryDN ad_cmp si_ad_entryDN) = e.e_attrs) ∧
      (e.e_attrs.countP (Spec.is_entryDN ad_cmp si_ad_entryDN) ≤ 1 →
        ∀ b ∈ e.e_attrs.eraseP (Spec.is_entryDN ad_cmp si_ad_entryDN),
          ad_cmp b.a_desc si_ad_entryDN ≠ 0)) ∧
    (rs.sr_type ≠ slap_reply_t.REP_SEARCH →
      ldap_chain_cb_response ad_cmp si_ad_entryDN op rs = some { rc := 0, op := op, rs := rs }) := by
  constructor
  · intro e htype hentry
    refine ⟨?_, ?_, ?_, ?_⟩
    · simp [ldap_chain_cb_response, htag, htype, hentry, ldap_chain_cb_strip_eq_eraseP]
    · intro pre a post he hpre ha
      rw [← ldap_chain_cb_strip_eq_eraseP, he]
      exact ldap_chain_cb_strip_first ad_cmp si_ad_entryDN pre a post hpre ha
    · intro h
      rw [← ldap_chain_cb_strip_eq_eraseP]
      exact ldap_chain_cb_strip_none ad_cmp si_ad_entryDN _ h
    · intro h
      rw [← ldap_chain_cb_strip_eq_eraseP]
      exact ldap_chain_cb_strip_clean ad_cmp si_ad_entryDN _ h
  · intro htype
    simp [ldap_chain_cb_response, htag, htype]

/-- The entry of the examples loses its `entryDN` and keeps `cn` and `name`
in order; a result reply is left alone. -/
theorem search_entry_cleanup_witness :
    ldap_chain_cb_response Sample.ad_cmp Sample.ad_entryDN Sample.op
        { Sample.rs with sr_type := slap_reply_t.REP_SEARCH, sr_entry := some Sample.entry }
      = some
        { rc := SLAP_CB_CONTINUE, op := Sample.op,
          rs := { Sample.rs with
                  sr_type := slap_reply_t.REP_SEARCH,
                  sr_entry := some
                    { Sample.entry with
                      e_attrs :=
                        [{ a_desc := Slapd.Sample.ad_cn, a_vals := [Sasl.Sample.bv "alice"] },
                         { a_desc := Slapd.Sample.ad_name,
                           a_vals := [Sasl.Sample.bv "Alice"] }] } } } ∧
    ldap_chain_cb_response Sample.ad_cmp Sample.ad_entryDN Sample.op Sample.rs
      = some { rc := 0, op := Sample.op, rs := Sample.rs } :=
  ⟨((search_entry_cleanup Sample.ad_cmp Sample.ad_entryDN Sample.op
      { Sample.rs with sr_type := slap_reply_t.REP_SEARCH, sr_entry := some Sample.entry }
      (by decide)).1 Sample.entry rfl rfl).1.trans (by decide),
   (search_entry_cleanup Sample.ad_cmp Sample.ad_entryDN Sample.op Sample.rs
      (by decide)).2 (by decide)⟩

/-! ## The restoration after the switch -/

theorem ldap_chain_finish_some (X : Env) (lip info : ldapinfo) (op0 op : Operation)
    (rs : SlapReply) (ref : Option (List Sasl.berval)) (d : Dispatch)
    (h : ldap_chain_dispatch X lip info op rs ref = some d) :
    ldap_chain_finish X lip info op0 op rs ref
      = some
        { rc := d.rc,
          op := { d.op with o_do_not_cache := op0.o_do_not_cache,
                            be_private := op0.be_private,
                            o_callback := op0.o_callback, o_ndn := op0.o_ndn },
          rs := { d.rs with sr_ref := d.ref },
          calls := d.calls } := by
  simp [ldap_chain_finish, h]

theorem ldap_chain_finish_none (X : Env) (lip info : ldapinfo) (op0 op : Operation)
    (rs : SlapReply) (ref : Option (List Sasl.berval))
    (h : ldap_chain_dispatch X lip info op rs ref = none) :
    ldap_chain_finish X lip info op0 op rs ref = none := by
  simp [ldap_chain_finish, h]

theorem ldap_chain_dispatch_bind (X : Env) (lip info : ldapinfo) (op : Operation)
    (rs : SlapReply) (ref : Option (List Sasl.berval)) (htag : op.o_tag = LDAP_REQ_BIND) :
    ldap_chain_dispatch X lip info op rs ref
      = some
        { rc := (X.lback EntryPoint.bi_op_bind info
            { op with o_req_ndn := slap_empty_bv, o_conn := none } rs).1,
          op := { (X.lback EntryPoint.bi_op_bind info
                    { op with o_req_ndn := slap_empty_bv, o_conn := none } rs).2.1 with
                  o_req_ndn := op.o_req_ndn, o_conn := op.o_conn },
          rs := (X.lback EntryPoint.bi_op_bind info
            { op with o_req_ndn := slap_empty_bv, o_conn := none } rs).2.2,
          ref := ref,
          calls := [Call.lback EntryPoint.bi_op_bind info
            { op with o_req_ndn := slap_empty_bv, o_conn := none } rs] } := by
  simp [ldap_chain_dispatch, htag]

/-! ## A chained bind -/

/-- C24: chained bind.  For a bind whose response has the outcome Referral,
when the chain can start (the overlay has a URL of its own, or the first
referral parses and can be written out again), `ldap_chain_response` returns
after exactly one call of a collaborator, the remote bind, made on the
operation with its normalized target DN set to the empty value and its
connection pointer set to NULL; the return value is that of the remote bind,
and on return the normalized target DN and the connection pointer are those
of the entry (whatever the remote bind left there). -/
theorem chained_bind (X : Env) (lip : ldapinfo) (op : Operation) (rs : SlapReply)
    (htag : op.o_tag = LDAP_REQ_BIND) (herr : rs.sr_err = LDAP_REFERRAL)
    (hparse : lip.url = none → rs.sr_type ≠ slap_reply_t.REP_SEARCHREF →
      ∃ refs srv url, rs.sr_ref = some refs ∧
        X.ldap_url_parse_ext ((refs.head?).bind (fun r => r.bv_val)) = .ok srv ∧
        X.ldap_url_desc2str { srv with lud_dn := some [], lud_scope := LDAP_SCOPE_DEFAULT }
          = some url) :
    ∃ (info : ldapinfo) (opc : Operation) (r : Response),
      ldap_chain_response X lip op rs = some r ∧
      r.calls = [Call.lback EntryPoint.bi_op_bind info opc { rs with sr_ref := none }] ∧
      opc.o_req_ndn = slap_empty_bv ∧ opc.o_conn = none ∧
      opc.o_tag = op.o_tag ∧ opc.o_req_dn = op.o_req_dn ∧ opc.o_ndn = op.o_ndn ∧
      r.rc = (X.lback EntryPoint.bi_op_bind info opc { rs with sr_ref := none }).1 ∧
      r.rs = { (X.lback EntryPoint.bi_op_bind info opc { rs with sr_ref := none }).2.2 with
               sr_ref := rs.sr_ref } ∧
      r.op.o_req_ndn = op.o_req_ndn ∧ r.op.o_conn = op.o_conn := by
  have hguard : ¬ (rs.sr_err ≠ LDAP_REFERRAL ∧ rs.sr_type ≠ slap_reply_t.REP_SEARCHREF) := by
    simp [herr]
  cases hurl : lip.url with
  | some u =>
    have h1 : ldap_chain_response X lip op rs
        = ldap_chain_finish X lip lip op
          { op with o_callback := slap_callback_p.null, be_private := be_private_t.bi_private }
          { rs with sr_ref := none } rs.sr_ref := by
      rw [ldap_chain_response, if_neg hguard]
      simp only [hurl]
    have h2 := ldap_chain_finish_some X lip lip op _ _ _ _
      (ldap_chain_dispatch_bind X lip lip
        { op with o_callback := slap_callback_p.null, be_private := be_private_t.bi_private }
        { rs with sr_ref := none } rs.sr_ref htag)
    exact ⟨_, _, _, h1.trans h2, rfl, rfl, rfl, rfl, rfl, rfl, rfl, rfl, rfl, rfl⟩
  | none =>
    by_cases htype : rs.sr_type = slap_reply_t.REP_SEARCHREF
    · have h1 : ldap_chain_response X lip op rs
          = ldap_chain_finish X lip lip op
            { op with o_callback := slap_callback_p.null, o_do_not_cache := 1,
                      be_private := be_private_t.li }
            { rs with sr_ref := none } rs.sr_ref := by
        rw [ldap_chain_response, if_neg hguard]
        simp only [hurl, htype, ne_eq, not_true_eq_false, if_false]
      have h2 := ldap_chain_finish_some X lip lip op _ _ _ _
        (ldap_chain_dispatch_bind X lip lip
          { op with o_callback := slap_callback_p.null, o_do_not_cache := 1,
                    be_private := be_private_t.li }
          { rs with sr_ref := none } rs.sr_ref htag)
      exact ⟨_, _, _, h1.trans h2, rfl, rfl, rfl, rfl, rfl, rfl, rfl, rfl, rfl, rfl⟩
    · obtain ⟨refs, srv, url, href, hp, hd⟩ := hparse hurl htype
      have h1 : ldap_chain_response X lip op rs
          = ldap_chain_finish X lip { lip with url := some url } op
            { op with o_callback := slap_callback_p.null, o_do_not_cache := 1,
                      be_private := be_private_t.li }
            { rs with sr_ref := none } rs.sr_ref := by
        rw [ldap_chain_response, if_neg hguard]
        simp only [hurl, htype, ne_eq, not_false_eq_true, if_true, href, hp, hd]
      have h2 := ldap_chain_finish_some X lip { lip with url := some url } op _ _ _ _
        (ldap_chain_dispatch_bind X lip { lip with url := some url }
          { op with o_callback := slap_callback_p.null, o_do_not_cache := 1,
                    be_private := be_private_t.li }
          { rs with sr_ref := none } rs.sr_ref htag)
      exact ⟨_, _, _, h1.trans h2, rfl, rfl, rfl, rfl, rfl, rfl, rfl, rfl, rfl, rfl⟩

/-- The bind of the specification: the target `uid=alice,dc=a`, the referral
`ldap://peer.example/dc=a`, a remote client that answers with success.  The
remote bind is called once, with the empty normalized DN and no connection,
for the URL `ldap://peer.example/`; the caller sees return code 0, outcome
success, and the operation as it was. -/
theorem chained_bind_witness :
    ldap_chain_response Sample.env { url := none, rest := 0 }
        { Sample.op with o_tag := LDAP_REQ_BIND, o_req_dn := Sasl.Sample.bv "uid=alice,dc=a",
                         o_req_ndn := Sasl.Sample.bv "uid=alice,dc=a" }
        { Sample.rs with sr_err := LDAP_REFERRAL }
      = some
        { rc := 0,
          op := { Sample.op with o_tag := LDAP_REQ_BIND,
                                 o_req_dn := Sasl.Sample.bv "uid=alice,dc=a",
                                 o_req_ndn := Sasl.Sample.bv "uid=alice,dc=a" },
          rs := { Sample.rs with sr_err := 0 },
          calls := [Call.lback EntryPoint.bi_op_bind
            { url := some (cs "ldap://peer.example/"), rest := 0 }
            { Sample.op with o_tag := LDAP_REQ_BIND, o_callback := slap_callback_p.null,
                             o_do_not_cache := 1, be_private := be_private_t.li,
                             o_req_dn := Sasl.Sample.bv "uid=alice,dc=a",
                             o_req_ndn := slap_empty_bv, o_conn := none }
            { Sample.rs with sr_err := LDAP_REFERRAL, sr_ref := none }] } ∧
    ∃ (info : ldapinfo) (opc : Operation) (r : Response),
      ldap_chain_response Sample.env { url := none, rest := 0 }
          { Sample.op with o_tag := LDAP_REQ_BIND, o_req_dn := Sasl.Sample.bv "uid=alice,dc=a",
                           o_req_ndn := Sasl.Sample.bv "uid=alice,dc=a" }
          { Sample.rs with sr_err := LDAP_REFERRAL } = some r ∧
        r.calls = [Call.lback EntryPoint.bi_op_bind info opc
          { Sample.rs with sr_err := LDAP_REFERRAL, sr_ref := none }] ∧
        opc.o_req_ndn = slap_empty_bv ∧ opc.o_conn = none :=
  ⟨by decide,
   by
    obtain ⟨info, opc, r, h1, h2, h3, h4, _⟩ :=
      chained_bind Sample.env { url := none, rest := 0 }
        { Sample.op with o_tag := LDAP_REQ_BIND, o_req_dn := Sasl.Sample.bv "uid=alice,dc=a",
                         o_req_ndn := Sasl.Sample.bv "uid=alice,dc=a" }
        { Sample.rs with sr_err := LDAP_REFERRAL } (by decide) (by decide)
        (fun _ _ => ⟨[Sasl.Sample.bv "ldap://peer.example/dc=a"], _, _, rfl, rfl, rfl⟩)
    exact ⟨info, opc, r, h1, h2, h3, h4⟩⟩

/-! ## The exits of `ldap_chain_response` -/

theorem ldap_chain_finish_restores (X : Env) (lip info : ldapinfo) (op0 op : Operation)
    (rs : SlapReply) (ref : Option (List Sasl.berval)) (r : Response)
    (h : ldap_chain_finish X lip info op0 op rs ref = some r) :
    r.op.be_private = op0.be_private ∧ r.op.o_callback = op0.o_callback ∧
    r.op.o_do_not_cache = op0.o_do_not_cache ∧ r.op.o_ndn = op0.o_ndn := by
  cases hd : ldap_chain_dispatch X lip info op rs ref with
  | none => rw [ldap_chain_finish_none X lip info op0 op rs ref hd] at h; cases h
  | some d =>
    rw [ldap_chain_finish_some X lip info op0 op rs ref d hd] at h
    cases h
    exact ⟨rfl, rfl, rfl, rfl⟩

/-- C23 (failing input): with no URL of its own, the overlay parses the first
referral of a response that is not a referral entry.  When it does not parse,
or cannot be written out again, `ldap_chain_response` returns 1 at once: the
callback chain stays NULL, the do-not-cache flag stays 1, the backend private
pointer stays the address of the local `li`, and the referral list stays out
of the response (`sr_ref` is NULL).  On the sample environment this happens
for a compare with the referral `not a url`, and for the referral
`ldap://peer.example/dc=a` when the URL cannot be written out; with that
referral and a working library the four values are those of the entry. -/
theorem restoration_skipped :
    (∀ (X : Env) (lip : ldapinfo) (op : Operation) (rs : SlapReply)
        (refs : List Sasl.berval),
      lip.url = none → rs.sr_err = LDAP_REFERRAL →
      rs.sr_type ≠ slap_reply_t.REP_SEARCHREF → rs.sr_ref = some refs →
      ((∃ e, X.ldap_url_parse_ext ((refs.head?).bind (fun r => r.bv_val)) = .error e) ∨
        ∃ srv, X.ldap_url_parse_ext ((refs.head?).bind (fun r => r.bv_val)) = .ok srv ∧
          X.ldap_url_desc2str { srv with lud_dn := some [], lud_scope := LDAP_SCOPE_DEFAULT }
            = none) →
      ldap_chain_response X lip op rs
        = some
          { rc := 1,
            op := { op with o_callback := slap_callback_p.null, o_do_not_cache := 1,
                            be_private := be_private_t.li },
            rs := { rs with sr_ref := none }, calls := [] }) ∧
    ldap_chain_response Sample.env { url := none, rest := 0 }
        { Sample.op with o_tag := LDAP_REQ_COMPARE }
        { Sample.rs with sr_err := LDAP_REFERRAL,
                         sr_ref := some [Sasl.Sample.bv "not a url"] }
      = some
        { rc := 1,
          op := { Sample.op with o_tag := LDAP_REQ_COMPARE,
                                 o_callback := slap_callback_p.null, o_do_not_cache := 1,
                                 be_private := be_private_t.li },
          rs := { Sample.rs with sr_err := LDAP_REFERRAL, sr_ref := none }, calls := [] } ∧
    ldap_chain_response { Sample.env with ldap_url_desc2str := fun _ => none }
        { url := none, rest := 0 }
        { Sample.op with o_tag := LDAP_REQ_COMPARE }
        { Sample.rs with sr_err := LDAP_REFERRAL }
      = some
        { rc := 1,
          op := { Sample.op with o_tag := LDAP_REQ_COMPARE,
                                 o_callback := slap_callback_p.null, o_do_not_cache := 1,
                                 be_private := be_private_t.li },
          rs := { Sample.rs with sr_err := LDAP_REFERRAL, sr_ref := none }, calls := [] } ∧
    Sample.op.o_callback ≠ slap_callback_p.null ∧ Sample.op.o_do_not_cache ≠ 1 ∧
    Sample.op.be_private ≠ be_private_t.li ∧ Sample.rs.sr_ref ≠ none ∧
    (ldap_chain_response Sample.env { url := none, rest := 0 }
        { Sample.op with o_tag := LDAP_REQ_COMPARE }
        { Sample.rs with sr_err := LDAP_REFERRAL }).map
        (fun r => (r.op.be_private, r.op.o_callback, r.op.o_do_not_cache, r.rs.sr_ref))
      = some (Sample.op.be_private, Sample.op.o_callback, Sample.op.o_do_not_cache,
          Sample.rs.sr_ref) := by
  refine ⟨?_, by decide, by decide, by decide, by decide, by decide, by decide, by decide⟩
  intro X lip op rs refs hurl herr htype href hfail
  have hguard : ¬ (rs.sr_err ≠ LDAP_REFERRAL ∧ rs.sr_type ≠ slap_reply_t.REP_SEARCHREF) := by
    simp [herr]
  rw [ldap_chain_response, if_neg hguard]
  rcases hfail with ⟨e, he⟩ | ⟨srv, hs, hd⟩
  · simp only [hurl, htype, ne_eq, not_false_eq_true, if_true, href, he]
  · simp only [hurl, htype, ne_eq, not_false_eq_true, if_true, href, hs, hd]

/-! ## The target DN -/

theorem ldap_chain_call_req_dn (X : Env) (hk : Spec.keeps_req_dn X) (f : EntryPoint)
    (info : ldapinfo) (op : Operation) (rs : SlapReply) (ref : Option (List Sasl.berval)) :
    (ldap_chain_call X f info op rs ref).op.o_req_dn = op.o_req_dn ∧
    (ldap_chain_call X f info op rs ref).op.o_req_ndn = op.o_req_ndn :=
  hk.1 f info op rs

theorem ldap_chain_dispatch_req_dn (X : Env) (hk : Spec.keeps_req_dn X) (lip info : ldapinfo)
    (op : Operation) (rs : SlapReply) (ref : Option (List Sasl.berval)) (d : Dispatch)
    (h : ldap_chain_dispatch X lip info op rs ref = some d) :
    d.op.o_req_dn = op.o_req_dn ∧ d.op.o_req_ndn = op.o_req_ndn := by
  unfold ldap_chain_dispatch at h
  by_cases h1 : op.o_tag = LDAP_REQ_BIND
  · rw [if_pos h1] at h
    have hd := Option.some.inj h
    subst hd
    exact ⟨(hk.1 _ _ _ _).1, rfl⟩
  rw [if_neg h1] at h
  by_cases h2 : op.o_tag = LDAP_REQ_ADD
  · rw [if_pos h2] at h
    by_cases h2a : op.ora_e.e_attrs = []
    · rw [if_pos h2a] at h
      by_cases h2b : (X.slap_mods2entry op.ora_modlist op.ora_e rs.sr_text).1
          ≠ (LDAP_SUCCESS : Int)
      · simp only [h2b, ne_eq, not_false_eq_true, if_true] at h
        have hd := Option.some.inj h
        subst hd
        exact hk.2.1 _ _
      · simp only [h2b, if_false] at h
        have hd := Option.some.inj h
        subst hd
        exact hk.1 _ _ _ _
    · rw [if_neg h2a] at h
      have hd := Option.some.inj h
      subst hd
      exact hk.1 _ _ _ _
  rw [if_neg h2] at h
  by_cases h3 : op.o_tag = LDAP_REQ_DELETE
  · rw [if_pos h3] at h
    have hd := Option.some.inj h
    subst hd
    exact hk.1 _ _ _ _
  rw [if_neg h3] at h
  by_cases h4 : op.o_tag = LDAP_REQ_MODRDN
  · rw [if_pos h4] at h
    have hd := Option.some.inj h
    subst hd
    exact hk.1 _ _ _ _
  rw [if_neg h4] at h
  by_cases h5 : op.o_tag = LDAP_REQ_MODIFY
  · rw [if_pos h5] at h
    have hd := Option.some.inj h
    subst hd
    exact hk.1 _ _ _ _
  rw [if_neg h5] at h
  by_cases h6 : op.o_tag = LDAP_REQ_COMPARE
  · rw [if_pos h6] at h
    have hd := Option.some.inj h
    subst hd
    exact hk.1 _ _ _ _
  rw [if_neg h6] at h
  by_cases h7 : op.o_tag = LDAP_REQ_SEARCH
  · rw [if_pos h7] at h
    by_cases h7a : rs.sr_type = slap_reply_t.REP_SEARCHREF
    · rw [if_pos h7a] at h
      cases href : ref with
      | none => rw [href] at h; simp [ldap_chain_search_ref] at h
      | some refs =>
        rw [href] at h
        simp only [ldap_chain_search_ref] at h
        have hd := Option.some.inj h
        subst hd
        exact ⟨rfl, rfl⟩
    · rw [if_neg h7a] at h
      have hd := Option.some.inj h
      subst hd
      exact hk.1 _ _ _ _
  rw [if_neg h7] at h
  by_cases h8 : op.o_tag = LDAP_REQ_EXTENDED
  · rw [if_pos h8] at h
    by_cases h8a : (ldap_chain_call X EntryPoint.bi_extended info op rs ref).rc ≠ SLAPD_ABANDON
    · simp only [h8a, ne_eq, not_false_eq_true, if_true] at h
      have hd := Option.some.inj h
      subst hd
      exact ⟨((hk.2.2 _ _).1).trans (hk.1 _ _ _ _).1, ((hk.2.2 _ _).2).trans (hk.1 _ _ _ _).2⟩
    · simp only [h8a, if_false] at h
      have hd := Option.some.inj h
      subst hd
      exact hk.1 _ _ _ _
  rw [if_neg h8] at h
  have hd := Option.some.inj h
  subst hd
  exact ⟨rfl, rfl⟩

theorem ldap_chain_dispatch_some (X : Env) (lip info : ldapinfo) (op : Operation)
    (rs : SlapReply) (refs : List Sasl.berval) :
    ∃ d, ldap_chain_dispatch X lip info op rs (some refs) = some d := by
  unfold ldap_chain_dispatch
  by_cases h1 : op.o_tag = LDAP_REQ_BIND
  · rw [if_pos h1]; exact ⟨_, rfl⟩
  rw [if_neg h1]
  by_cases h2 : op.o_tag = LDAP_REQ_ADD
  · rw [if_pos h2]
    by_cases h2a : op.ora_e.e_attrs = []
    · rw [if_pos h2a]
      by_cases h2b : (X.slap_mods2entry op.ora_modlist op.ora_e rs.sr_text).1
          ≠ (LDAP_SUCCESS : Int)
      · simp only [h2b, ne_eq, not_false_eq_true, if_true]; exact ⟨_, rfl⟩
      · simp only [h2b, if_false]; exact ⟨_, rfl⟩
    · rw [if_neg h2a]; exact ⟨_, rfl⟩
  rw [if_neg h2]
  by_cases h3 : op.o_tag = LDAP_REQ_DELETE
  · rw [if_pos h3]; exact ⟨_, rfl⟩
  rw [if_neg h3]
  by_cases h4 : op.o_tag = LDAP_REQ_MODRDN
  · rw [if_pos h4]; exact ⟨_, rfl⟩
  rw [if_neg h4]
  by_cases h5 : op.o_tag = LDAP_REQ_MODIFY
  · rw [if_pos h5]; exact ⟨_, rfl⟩
  rw [if_neg h5]
  by_cases h6 : op.o_tag = LDAP_REQ_COMPARE
  · rw [if_pos h6]; exact ⟨_, rfl⟩
  rw [if_neg h6]
  by_cases h7 : op.o_tag = LDAP_REQ_SEARCH
  · rw [if_pos h7]
    by_cases h7a : rs.sr_type = slap_reply_t.REP_SEARCHREF
    · rw [if_pos h7a]; exact ⟨_, rfl⟩
    · rw [if_neg h7a]; exact ⟨_, rfl⟩
  rw [if_neg h7]
  by_cases h8 : op.o_tag = LDAP_REQ_EXTENDED
  · rw [if_pos h8]
    by_cases h8a : (ldap_chain_call X EntryPoint.bi_extended info op rs (some refs)).rc
        ≠ SLAPD_ABANDON
    · simp only [h8a, ne_eq, not_false_eq_true, if_true]; exact ⟨_, rfl⟩
    · simp only [h8a, if_false]; exact ⟨_, rfl⟩
  rw [if_neg h8]; exact ⟨_, rfl⟩

theorem ldap_chain_finish_req_dn (X : Env) (hk : Spec.keeps_req_dn X) (lip info : ldapinfo)
    (op0 op : Operation) (rs : SlapReply) (ref : Option (List Sasl.berval)) (r : Response)
    (h : ldap_chain_finish X lip info op0 op rs ref = some r) :
    r.op.o_req_dn = op.o_req_dn ∧ r.op.o_req_ndn = op.o_req_ndn := by
  cases hd : ldap_chain_dispatch X lip info op rs ref with
  | none => rw [ldap_chain_finish_none X lip info op0 op rs ref hd] at h; cases h
  | some d =>
    rw [ldap_chain_finish_some X lip info op0 op rs ref d hd] at h
    have hr := Option.some.inj h
    subst hr
    exact ldap_chain_dispatch_req_dn X hk lip info op rs ref d hd

theorem ldap_chain_finish_is_some (X : Env) (lip info : ldapinfo) (op0 op : Operation)
    (rs : SlapReply) (refs : List Sasl.berval) :
    ∃ r, ldap_chain_finish X lip info op0 op rs (some refs) = some r := by
  obtain ⟨d, hd⟩ := ldap_chain_dispatch_some X lip info op rs refs
  exact ⟨_, ldap_chain_finish_some X lip info op0 op rs (some refs) d hd⟩

/-- C22: the target DN round trip.  With collaborators that leave the target
DN of the operation they are handed alone, whatever the tag, the response,
the outcome of parsing and the return values: when `ldap_chain_response`
returns, `o_req_dn` and `o_req_ndn` are those of the entry.  It does return
when the response carries a referral list. -/
theorem target_dn_round_trip (X : Env) (lip : ldapinfo) (op : Operation) (rs : SlapReply)
    (hk : Spec.keeps_req_dn X) :
    (∀ r, ldap_chain_response X lip op rs = some r →
      r.op.o_req_dn = op.o_req_dn ∧ r.op.o_req_ndn = op.o_req_ndn) ∧
    (rs.sr_ref ≠ none → ∃ r, ldap_chain_response X lip op rs = some r) := by
  constructor
  · intro r h
    rw [ldap_chain_response] at h
    by_cases hguard : rs.sr_err ≠ LDAP_REFERRAL ∧ rs.sr_type ≠ slap_reply_t.REP_SEARCHREF
    · rw [if_pos hguard] at h
      have hr := Option.some.inj h
      subst hr
      exact ⟨rfl, rfl⟩
    rw [if_neg hguard] at h
    cases hurl : lip.url with
    | some u =>
      simp only [hurl] at h
      have hdn := ldap_chain_finish_req_dn X hk _ _ _ _ _ _ r h
      exact hdn
    | none =>
      simp only [hurl] at h
      by_cases htype : rs.sr_type = slap_reply_t.REP_SEARCHREF
      · simp only [htype, ne_eq, not_true_eq_false, if_false] at h
        have hdn := ldap_chain_finish_req_dn X hk _ _ _ _ _ _ r h
        exact hdn
      · simp only [htype, ne_eq, not_false_eq_true, if_true] at h
        cases href : rs.sr_ref with
        | none => simp only [href] at h; cases h
        | some refs =>
          simp only [href] at h
          cases hp : X.ldap_url_parse_ext ((refs.head?).bind (fun r => r.bv_val)) with
          | error e =>
            simp only [hp] at h
            have hr := Option.some.inj h
            subst hr
            exact ⟨rfl, rfl⟩
          | ok srv =>
            simp only [hp] at h
            cases hd : X.ldap_url_desc2str
                { srv with lud_dn := some [], lud_scope := LDAP_SCOPE_DEFAULT } with
            | none =>
              simp only [hd] at h
              have hr := Option.some.inj h
              subst hr
              exact ⟨rfl, rfl⟩
            | some url =>
              simp only [hd] at h
              have hdn := ldap_chain_finish_req_dn X hk _ _ _ _ _ _ r h
              exact hdn
  · intro href
    obtain ⟨refs, hrefs⟩ := Option.ne_none_iff_exists'.mp href
    rw [ldap_chain_response]
    by_cases hguard : rs.sr_err ≠ LDAP_REFERRAL ∧ rs.sr_type ≠ slap_reply_t.REP_SEARCHREF
    · rw [if_pos hguard]; exact ⟨_, rfl⟩
    rw [if_neg hguard]
    cases hurl : lip.url with
    | some u =>
      simp only [hrefs]
      exact ldap_chain_finish_is_some X lip _ _ _ _ refs
    | none =>
      simp only [hrefs]
      by_cases htype : rs.sr_type = slap_reply_t.REP_SEARCHREF
      · simp only [htype, ne_eq, not_true_eq_false, if_false]
        exact ldap_chain_finish_is_some X lip _ _ _ _ refs
      · simp only [htype, ne_eq, not_false_eq_true, if_true]
        cases hp : X.ldap_url_parse_ext ((refs.head?).bind (fun r => r.bv_val)) with
        | error e => exact ⟨_, rfl⟩
        | ok srv =>
          simp only []
          cases hd : X.ldap_url_desc2str
              { srv with lud_dn := some [], lud_scope := LDAP_SCOPE_DEFAULT } with
          | none => exact ⟨_, rfl⟩
          | some url =>
            simp only []
            exact ldap_chain_finish_is_some X lip _ _ _ _ refs

/-- The search of the examples, two references, a remote client that leaves
the operation alone: the target DN `dc=a` comes back. -/
theorem target_dn_round_trip_witness :
    ∃ r, ldap_chain_response Sample.env { url := none, rest := 0 } Sample.op
        { Sample.rs with sr_type := slap_reply_t.REP_SEARCHREF,
                         sr_ref := some [Sasl.Sample.bv "ldap://p1/dc=b",
                                         Sasl.Sample.bv "ldap://p2/dc=c"] } = some r ∧
      r.op.o_req_dn = Sasl.Sample.bv "dc=a" ∧ r.op.o_req_ndn = Sasl.Sample.bv "dc=a" ∧
      r.calls.length = 2 := by
  have hk : Spec.keeps_req_dn Sample.env :=
    ⟨fun _ _ _ _ => ⟨rfl, rfl⟩, fun _ _ => ⟨rfl, rfl⟩, fun _ _ => ⟨rfl, rfl⟩⟩
  obtain ⟨r, hr⟩ := (target_dn_round_trip Sample.env { url := none, rest := 0 } Sample.op
    { Sample.rs with sr_type := slap_reply_t.REP_SEARCHREF,
                     sr_ref := some [Sasl.Sample.bv "ldap://p1/dc=b",
                                     Sasl.Sample.bv "ldap://p2/dc=c"] } hk).2 (by decide)
  have h := (target_dn_round_trip Sample.env { url := none, rest := 0 } Sample.op
    { Sample.rs with sr_type := slap_reply_t.REP_SEARCHREF,
                     sr_ref := some [Sasl.Sample.bv "ldap://p1/dc=b",
                                     Sasl.Sample.bv "ldap://p2/dc=c"] } hk).1 r hr
  refine ⟨r, hr, h.1, h.2, ?_⟩
  have hlen : (ldap_chain_response Sample.env { url := none, rest := 0 } Sample.op
      { Sample.rs with sr_type := slap_reply_t.REP_SEARCHREF,
                       sr_ref := some [Sasl.Sample.bv "ldap://p1/dc=b",
                                       Sasl.Sample.bv "ldap://p2/dc=c"] }).map
      (fun r => r.calls.length) = some 2 := by decide
  rw [hr] at hlen
  exact Option.some.inj hlen

/-! ## The loop over the references -/

theorem ber_dupbv_of_some (u : Sasl.berval) (s : List Nat) (h : u.bv_val = some s) :
    Sasl.ber_dupbv u = u := by
  cases u with
  | mk len val =>
    simp only at h
    subst h
    rfl

theorem ldap_chain_searchref_spec (X : Env) (lip : ldapinfo) (refs : List Sasl.berval) :
    ∀ (op : Operation) (rs : SlapReply) (newref : List Sasl.berval) (calls : List Call),
    (∀ u ∈ refs, ∃ s srv url, u.bv_val = some s ∧
      X.ldap_url_parse_ext (some s) = .ok srv ∧
      X.ldap_url_desc2str { srv with lud_dn := some [], lud_scope := LDAP_SCOPE_DEFAULT }
        = some url) →
    ∃ calls2, (ldap_chain_searchref X lip refs op rs newref calls).calls = calls ++ calls2 ∧
      calls2.length ≤ refs.length ∧
      ((∀ c ∈ calls2, Spec.call_rc X c = 0) →
        (ldap_chain_searchref X lip refs op rs newref calls).rc = 0 ∧
        calls2.length = refs.length ∧
        (ldap_chain_searchref X lip refs op rs newref calls).newref
          = newref ++ Spec.kept X refs calls2) := by
  induction refs with
  | nil =>
    intro op rs newref calls _
    exact ⟨[], by simp [ldap_chain_searchref], by simp,
      fun _ => by simp [ldap_chain_searchref, Spec.kept]⟩
  | cons u rest ih =>
    intro op rs newref calls h
    obtain ⟨s, srv, url, hs, hp, hd⟩ := h u (by simp)
    have hrest : ∀ v ∈ rest, ∃ s srv url, v.bv_val = some s ∧
        X.ldap_url_parse_ext (some s) = .ok srv ∧
        X.ldap_url_desc2str { srv with lud_dn := some [], lud_scope := LDAP_SCOPE_DEFAULT }
          = some url := fun v hv => h v (by simp [hv])
    rw [ldap_chain_searchref]
    simp only [hs, hp, hd]
    by_cases hrc : (X.lback EntryPoint.bi_op_search (searchref_info lip url)
        (searchref_op srv op) rs).1 ≠ 0
    · rw [if_pos hrc]
      refine ⟨[Call.lback EntryPoint.bi_op_search (searchref_info lip url)
        (searchref_op srv op) rs], rfl, by simp, ?_⟩
      intro hall
      have h0 : Spec.call_rc X (Call.lback EntryPoint.bi_op_search (searchref_info lip url)
          (searchref_op srv op) rs) = 0 := hall _ (List.mem_singleton.mpr rfl)
      exact absurd h0 hrc
    · rw [if_neg hrc]
      obtain ⟨calls3, h1, h2, h3⟩ := ih
        (X.lback EntryPoint.bi_op_search (searchref_info lip url) (searchref_op srv op) rs).2.1
        (X.lback EntryPoint.bi_op_search (searchref_info lip url) (searchref_op srv op) rs).2.2
        (if (X.lback EntryPoint.bi_op_search (searchref_info lip url)
              (searchref_op srv op) rs).2.2.sr_err ≠ (LDAP_SUCCESS : Int)
          then newref ++ [Sasl.ber_dupbv u] else newref)
        (calls ++ [Call.lback EntryPoint.bi_op_search (searchref_info lip url)
          (searchref_op srv op) rs]) hrest
      refine ⟨Call.lback EntryPoint.bi_op_search (searchref_info lip url)
        (searchref_op srv op) rs :: calls3, ?_, ?_, ?_⟩
      · rw [h1]; simp
      · simp only [List.length_cons]; omega
      · intro hall
        obtain ⟨g1, g2, g3⟩ := h3 (fun c hc => hall c (by simp [hc]))
        refine ⟨g1, by simp only [List.length_cons]; omega, ?_⟩
        rw [g3, ber_dupbv_of_some u s hs]
        by_cases hf : (X.lback EntryPoint.bi_op_search (searchref_info lip url)
            (searchref_op srv op) rs).2.2.sr_err ≠ (LDAP_SUCCESS : Int)
        · simp [Spec.kept, Spec.call_failed, hf]
        · simp [Spec.kept, Spec.call_failed, hf]

theorem Spec.kept_sublist (X : Env) (refs : List Sasl.berval) :
    ∀ calls, (Spec.kept X refs calls).Sublist refs := by
  induction refs with
  | nil => intro calls; simp [Spec.kept]
  | cons u rest ih =>
    intro calls
    cases calls with
    | nil => simp [Spec.kept]
    | cons c cs =>
      simp only [Spec.kept]
      split_ifs
      · exact (ih cs).cons₂ u
      · exact (ih cs).cons u

theorem Spec.kept_eq_nil (X : Env) (refs : List Sasl.berval) :
    ∀ calls, (∀ c ∈ calls, Spec.call_failed X c = false) → Spec.kept X refs calls = [] := by
  induction refs with
  | nil => intro calls _; simp [Spec.kept]
  | cons u rest ih =>
    intro calls h
    cases calls with
    | nil => simp [Spec.kept]
    | cons c cs =>
      simp only [Spec.kept, h c (by simp), Bool.false_eq_true, if_false]
      exact ih cs (fun c hc => h c (by simp [hc]))

theorem Spec.kept_ne_nil (X : Env) (refs : List Sasl.berval) :
    ∀ calls, calls.length = refs.length → (∃ c ∈ calls, Spec.call_failed X c = true) →
      Spec.kept X refs calls ≠ [] := by
  induction refs with
  | nil =>
    intro calls hlen h
    have : calls = [] := List.length_eq_zero.mp hlen
    subst this
    simp at h
  | cons u rest ih =>
    intro calls hlen h
    cases calls with
    | nil => simp at hlen
    | cons c cs =>
      by_cases hc : Spec.call_failed X c = true
      · simp [Spec.kept, hc]
      · simp only [Spec.kept, hc, if_false]
        apply ih cs (by simpa using hlen)
        obtain ⟨c2, hm, hf⟩ := h
        rcases List.mem_cons.mp hm with e | e
        · subst e; exact absurd hf hc
        · exact ⟨c2, e, hf⟩

theorem ldap_chain_dispatch_searchref (X : Env) (lip info : ldapinfo) (op : Operation)
    (rs : SlapReply) (ref : Option (List Sasl.berval))
    (htag : op.o_tag = LDAP_REQ_SEARCH) (htype : rs.sr_type = slap_reply_t.REP_SEARCHREF) :
    ldap_chain_dispatch X lip info op rs ref = ldap_chain_search_ref X lip op rs ref := by
  unfold ldap_chain_dispatch
  rw [if_neg (by rw [htag]; decide), if_neg (by rw [htag]; decide),
    if_neg (by rw [htag]; decide), if_neg (by rw [htag]; decide),
    if_neg (by rw [htag]; decide), if_neg (by rw [htag]; decide), if_pos htag, if_pos htype]

theorem ldap_chain_finish_searchref (X : Env) (lip info : ldapinfo) (op0 op : Operation)
    (rs : SlapReply) (refs : List Sasl.berval)
    (htag : op.o_tag = LDAP_REQ_SEARCH) (htype : rs.sr_type = slap_reply_t.REP_SEARCHREF)
    (hparse : ∀ u ∈ refs, ∃ s srv url, u.bv_val = some s ∧
      X.ldap_url_parse_ext (some s) = .ok srv ∧
      X.ldap_url_desc2str { srv with lud_dn := some [], lud_scope := LDAP_SCOPE_DEFAULT }
        = some url) :
    ∃ r, ldap_chain_finish X lip info op0 op rs (some refs) = some r ∧
      r.rs.sr_type = slap_reply_t.REP_SEARCHREF ∧ r.rs.sr_entry = none ∧
      r.calls.length ≤ refs.length ∧
      ((∀ c ∈ r.calls, Spec.call_rc X c = 0) →
        r.calls.length = refs.length ∧
        ((∃ c ∈ r.calls, Spec.call_failed X c = true) →
          r.rc = SLAP_CB_CONTINUE ∧ r.rs.sr_ref = some (Spec.kept X refs r.calls)) ∧
        ((∀ c ∈ r.calls, Spec.call_failed X c = false) →
          r.rc = 0 ∧ r.rs.sr_ref = some refs)) := by
  obtain ⟨calls2, h1, h2, h3⟩ := ldap_chain_searchref_spec X lip refs
    { op with o_callback := slap_callback_p.sc2 }
    { rs with sr_type := slap_reply_t.REP_SEARCH } [] [] hparse
  have hd : ldap_chain_dispatch X lip info op rs (some refs)
      = ldap_chain_search_ref X lip op rs (some refs) :=
    ldap_chain_dispatch_searchref X lip info op rs (some refs) htag htype
  simp only [ldap_chain_search_ref] at hd
  refine ⟨_, ldap_chain_finish_some X lip info op0 op rs (some refs) _ hd, rfl, rfl, ?_, ?_⟩
  · simp only [h1, List.nil_append]
    exact h2
  · simp only [h1, List.nil_append]
    intro hall
    obtain ⟨g1, g2, g3⟩ := h3 hall
    simp only [List.nil_append] at g3
    refine ⟨g2, ?_, ?_⟩
    · intro hf
      have hne : Spec.kept X refs calls2 ≠ [] := Spec.kept_ne_nil X refs calls2 g2 hf
      simp [g1, g3, hne]
    · intro hnf
      have he : Spec.kept X refs calls2 = [] := Spec.kept_eq_nil X refs calls2 hnf
      simp [g1, g3, he]

theorem ldap_chain_response_searchref (X : Env) (lip : ldapinfo) (op : Operation)
    (rs : SlapReply) (refs : List Sasl.berval)
    (htag : op.o_tag = LDAP_REQ_SEARCH) (htype : rs.sr_type = slap_reply_t.REP_SEARCHREF)
    (href : rs.sr_ref = some refs)
    (hparse : ∀ u ∈ refs, ∃ s srv url, u.bv_val = some s ∧
      X.ldap_url_parse_ext (some s) = .ok srv ∧
      X.ldap_url_desc2str { srv with lud_dn := some [], lud_scope := LDAP_SCOPE_DEFAULT }
        = some url) :
    ∃ r, ldap_chain_response X lip op rs = some r ∧
      r.rs.sr_type = slap_reply_t.REP_SEARCHREF ∧ r.rs.sr_entry = none ∧
      r.calls.length ≤ refs.length ∧
      ((∀ c ∈ r.calls, Spec.call_rc X c = 0) →
        r.calls.length = refs.length ∧
        ((∃ c ∈ r.calls, Spec.call_failed X c = true) →
          r.rc = SLAP_CB_CONTINUE ∧ r.rs.sr_ref = some (Spec.kept X refs r.calls)) ∧
        ((∀ c ∈ r.calls, Spec.call_failed X c = false) →
          r.rc = 0 ∧ r.rs.sr_ref = some refs)) := by
  have hguard : ¬ (rs.sr_err ≠ LDAP_REFERRAL ∧ rs.sr_type ≠ slap_reply_t.REP_SEARCHREF) := by
    simp [htype]
  rw [ldap_chain_response, if_neg hguard, href]
  cases hurl : lip.url with
  | some u =>
    simp only []
    exact ldap_chain_finish_searchref X lip lip op _ _ refs htag htype hparse
  | none =>
    simp only [htype, ne_eq, not_true_eq_false, if_false]
    exact ldap_chain_finish_searchref X lip lip op _ _ refs htag rfl hparse

theorem ldap_chain_searchref_calls (X : Env) (lip : ldapinfo) (refs : List Sasl.berval) :
    ∀ (op : Operation) (rs : SlapReply) (newref : List Sasl.berval) (calls : List Call),
    (∀ u ∈ refs, ∃ s srv url, u.bv_val = some s ∧
      X.ldap_url_parse_ext (some s) = .ok srv ∧
      X.ldap_url_desc2str { srv with lud_dn := some [], lud_scope := LDAP_SCOPE_DEFAULT }
        = some url) →
    ∃ calls2, (ldap_chain_searchref X lip refs op rs newref calls).calls = calls ++ calls2 ∧
      List.Forall₂ (Spec.search_of X lip) (refs.take calls2.length) calls2 := by
  induction refs with
  | nil =>
    intro op rs newref calls _
    exact ⟨[], by simp [ldap_chain_searchref], by simp⟩
  | cons u rest ih =>
    intro op rs newref calls h
    obtain ⟨s, srv, url, hs, hp, hd⟩ := h u (by simp)
    have hrest : ∀ v ∈ rest, ∃ s srv url, v.bv_val = some s ∧
        X.ldap_url_parse_ext (some s) = .ok srv ∧
        X.ldap_url_desc2str { srv with lud_dn := some [], lud_scope := LDAP_SCOPE_DEFAULT }
          = some url := fun v hv => h v (by simp [hv])
    have hsearch : Spec.search_of X lip u (Call.lback EntryPoint.bi_op_search
        (searchref_info lip url) (searchref_op srv op) rs) :=
      ⟨s, srv, url, op, rs, hs, hp, hd, rfl⟩
    rw [ldap_chain_searchref]
    simp only [hs, hp, hd]
    by_cases hrc : (X.lback EntryPoint.bi_op_search (searchref_info lip url)
        (searchref_op srv op) rs).1 ≠ 0
    · rw [if_pos hrc]
      refine ⟨[Call.lback EntryPoint.bi_op_search (searchref_info lip url)
        (searchref_op srv op) rs], rfl, ?_⟩
      simp only [List.length_singleton, List.take_succ_cons, List.take_zero]
      exact List.Forall₂.cons hsearch List.Forall₂.nil
    · rw [if_neg hrc]
      obtain ⟨calls3, h1, h2⟩ := ih
        (X.lback EntryPoint.bi_op_search (searchref_info lip url) (searchref_op srv op) rs).2.1
        (X.lback EntryPoint.bi_op_search (searchref_info lip url) (searchref_op srv op) rs).2.2
        (if (X.lback EntryPoint.bi_op_search (searchref_info lip url)
              (searchref_op srv op) rs).2.2.sr_err ≠ (LDAP_SUCCESS : Int)
          then newref ++ [Sasl.ber_dupbv u] else newref)
        (calls ++ [Call.lback EntryPoint.bi_op_search (searchref_info lip url)
          (searchref_op srv op) rs]) hrest
      refine ⟨Call.lback EntryPoint.bi_op_search (searchref_info lip url)
        (searchref_op srv op) rs :: calls3, ?_, ?_⟩
      · rw [h1]; simp
      · simp only [List.length_cons, List.take_succ_cons]
        exact List.Forall₂.cons hsearch h2

theorem ldap_chain_response_searchref_calls (X : Env) (lip : ldapinfo) (op : Operation)
    (rs : SlapReply) (refs : List Sasl.berval) (r : Response)
    (htag : op.o_tag = LDAP_REQ_SEARCH) (htype : rs.sr_type = slap_reply_t.REP_SEARCHREF)
    (href : rs.sr_ref = some refs)
    (hparse : ∀ u ∈ refs, ∃ s srv url, u.bv_val = some s ∧
      X.ldap_url_parse_ext (some s) = .ok srv ∧
      X.ldap_url_desc2str { srv with lud_dn := some [], lud_scope := LDAP_SCOPE_DEFAULT }
        = some url)
    (hr : ldap_chain_response X lip op rs = some r) :
    List.Forall₂ (Spec.search_of X lip) (refs.take r.calls.length) r.calls := by
  have hguard : ¬ (rs.sr_err ≠ LDAP_REFERRAL ∧ rs.sr_type ≠ slap_reply_t.REP_SEARCHREF) := by
    simp [htype]
  have key : ∀ (info : ldapinfo) (op1 : Operation) (rs1 : SlapReply),
      op1.o_tag = LDAP_REQ_SEARCH → rs1.sr_type = slap_reply_t.REP_SEARCHREF →
      ldap_chain_finish X lip info op op1 rs1 (some refs) = some r →
      List.Forall₂ (Spec.search_of X lip) (refs.take r.calls.length) r.calls := by
    intro info op1 rs1 ht hty hfin
    obtain ⟨calls2, h1, h2⟩ := ldap_chain_searchref_calls X lip refs
      { op1 with o_callback := slap_callback_p.sc2 }
      { rs1 with sr_type := slap_reply_t.REP_SEARCH } [] [] hparse
    have hd : ldap_chain_dispatch X lip info op1 rs1 (some refs)
        = ldap_chain_search_ref X lip op1 rs1 (some refs) :=
      ldap_chain_dispatch_searchref X lip info op1 rs1 (some refs) ht hty
    simp only [ldap_chain_search_ref] at hd
    rw [ldap_chain_finish_some X lip info op op1 rs1 (some refs) _ hd] at hfin
    have hr2 := Option.some.inj hfin
    subst hr2
    simp only [h1, List.nil_append]
    exact h2
  rw [ldap_chain_response, if_neg hguard, href] at hr
  cases hurl : lip.url with
  | some u =>
    simp only [hurl] at hr
    exact key _ _ _ (by exact htag) (by exact htype) hr
  | none =>
    simp only [hurl, htype, ne_eq, not_true_eq_false, if_false] at hr
    exact key _ _ _ (by exact htag) (by rfl) hr

/-! ## The referrals of a search -/

/-- C21: referral filtering on partial success.  For a search whose reply is
a referral entry with references that all parse and can be written out,
`ldap_chain_response` returns, the reply kind is again referral entry and the
entry is NULL; the recorded calls are the searches of the references, in
order, at most one per reference.  When every search returned 0, there is
exactly one search per reference, the `i`-th call being the search of the
`i`-th reference; when moreover at least one of them ended with an outcome
other than success, the return value is Continue and the referral list of
the response is the list of the references whose search ended without
success, in their order: a sublist of the original list, and not empty. -/
theorem referral_filtering (X : Env) (lip : ldapinfo) (op : Operation) (rs : SlapReply)
    (refs : List Sasl.berval)
    (htag : op.o_tag = LDAP_REQ_SEARCH) (htype : rs.sr_type = slap_reply_t.REP_SEARCHREF)
    (href : rs.sr_ref = some refs)
    (hparse : ∀ u ∈ refs, ∃ s srv url, u.bv_val = some s ∧
      X.ldap_url_parse_ext (some s) = .ok srv ∧
      X.ldap_url_desc2str { srv with lud_dn := some [], lud_scope := LDAP_SCOPE_DEFAULT }
        = some url) :
    ∃ r, ldap_chain_response X lip op rs = some r ∧
      r.rs.sr_type = slap_reply_t.REP_SEARCHREF ∧ r.rs.sr_entry = none ∧
      r.calls.length ≤ refs.length ∧
      List.Forall₂ (Spec.search_of X lip) (refs.take r.calls.length) r.calls ∧
      ((∀ c ∈ r.calls, Spec.call_rc X c = 0) →
        r.calls.length = refs.length ∧
        List.Forall₂ (Spec.search_of X lip) refs r.calls ∧
        ((∃ c ∈ r.calls, Spec.call_failed X c = true) →
          r.rc = SLAP_CB_CONTINUE ∧
          r.rs.sr_ref = some (Spec.kept X refs r.calls) ∧
          (Spec.kept X refs r.calls).Sublist refs ∧
          Spec.kept X refs r.calls ≠ [])) := by
  obtain ⟨r, hr, h1, h2, h3, h4⟩ :=
    ldap_chain_response_searchref X lip op rs refs htag htype href hparse
  have hcalls :=
    ldap_chain_response_searchref_calls X lip op rs refs r htag htype href hparse hr
  refine ⟨r, hr, h1, h2, h3, hcalls, ?_⟩
  intro hall
  obtain ⟨g1, g2, _⟩ := h4 hall
  refine ⟨g1, ?_, ?_⟩
  · have ht : refs.take r.calls.length = refs := by
      rw [g1]; exact List.take_length refs
    rw [ht] at hcalls
    exact hcalls
  · intro hf
    exact ⟨(g2 hf).1, (g2 hf).2, Spec.kept_sublist X refs r.calls,
      Spec.kept_ne_nil X refs r.calls g1 hf⟩

/-- The example of the specification: the references `ldap://p1/` and
`ldap://p2/`, of which `p1` answers with success and `p2` does not: two
searches, Continue, and `ldap://p2/` alone is left. -/
theorem referral_filtering_witness :
    (ldap_chain_response Sample.env_p2 { url := none, rest := 0 } Sample.op
        Sample.rs_p1_p2).map
        (fun r => (r.rc, r.rs.sr_type, r.rs.sr_entry, r.rs.sr_ref))
      = some (SLAP_CB_CONTINUE, slap_reply_t.REP_SEARCHREF, none,
          some [Sasl.Sample.bv "ldap://p2/"]) ∧
    (ldap_chain_response Sample.env_p2 { url := none, rest := 0 } Sample.op
        Sample.rs_p1_p2).map
        (fun r => (r.calls.map (Spec.call_rc Sample.env_p2),
          r.calls.map (Spec.call_failed Sample.env_p2),
          Spec.kept Sample.env_p2
            [Sasl.Sample.bv "ldap://p1/", Sasl.Sample.bv "ldap://p2/"] r.calls))
      = some ([0, 0], [false, true], [Sasl.Sample.bv "ldap://p2/"]) ∧
    ∃ r, ldap_chain_response Sample.env_p2 { url := none, rest := 0 } Sample.op
          Sample.rs_p1_p2 = some r ∧
      ((∀ c ∈ r.calls, Spec.call_rc Sample.env_p2 c = 0) →
        r.calls.length = 2 ∧
        ((∃ c ∈ r.calls, Spec.call_failed Sample.env_p2 c = true) →
          r.rc = SLAP_CB_CONTINUE ∧
          r.rs.sr_ref = some (Spec.kept Sample.env_p2
            [Sasl.Sample.bv "ldap://p1/", Sasl.Sample.bv "ldap://p2/"] r.calls))) :=
  ⟨by decide, by decide,
   by
    obtain ⟨r, hr, _, _, _, _, h⟩ :=
      referral_filtering Sample.env_p2 { url := none, rest := 0 }
        Sample.op Sample.rs_p1_p2 [Sasl.Sample.bv "ldap://p1/", Sasl.Sample.bv "ldap://p2/"]
        (by decide) rfl rfl
        (by
          intro u hu
          simp only [List.mem_cons, List.mem_singleton, List.not_mem_nil, or_false] at hu
          rcases hu with rfl | rfl
          · exact ⟨_, _, _, rfl, rfl, rfl⟩
          · exact ⟨_, _, _, rfl, rfl, rfl⟩)
    exact ⟨r, hr, fun h1 => ⟨(h h1).1, fun h2 => ⟨((h h1).2.2 h2).1, ((h h1).2.2 h2).2.1⟩⟩⟩⟩

/-- C27 (counterexample): the references `ldap://p1/` and `ldap://p2/` both
parse, both searches return 0 with the outcome success, and
`ldap_chain_response` returns 0 with the referral list of the response equal
to the original list: both original URIs are in it. -/
theorem all_referrals_chased_counterexample :
    (ldap_chain_response Sample.env { url := none, rest := 0 } Sample.op
        Sample.rs_p1_p2).map
        (fun r => (r.rc, r.rs.sr_ref, r.calls.map (Spec.call_rc Sample.env),
          r.calls.map (Spec.call_failed Sample.env)))
      = some (0, some [Sasl.Sample.bv "ldap://p1/", Sasl.Sample.bv "ldap://p2/"],
          [0, 0], [false, false]) ∧
    Sample.rs_p1_p2.sr_ref
      = some [Sasl.Sample.bv "ldap://p1/", Sasl.Sample.bv "ldap://p2/"] ∧
    Sasl.Sample.bv "ldap://p1/"
      ∈ [Sasl.Sample.bv "ldap://p1/", Sasl.Sample.bv "ldap://p2/"] := by
  refine ⟨by decide, rfl, by simp⟩

/-- C27 (amended): all referrals chased with success.  For a search whose
reply is a referral entry with references that all parse and can be written
out, when every remote search returned 0 and ended with the outcome success,
`ldap_chain_response` returns 0, not Continue; there was one search per
reference; the reply kind is referral entry with a NULL entry, and the
referral list taken from the response is handed back as it was. -/
theorem all_referrals_chased (X : Env) (lip : ldapinfo) (op : Operation) (rs : SlapReply)
    (refs : List Sasl.berval)
    (htag : op.o_tag = LDAP_REQ_SEARCH) (htype : rs.sr_type = slap_reply_t.REP_SEARCHREF)
    (href : rs.sr_ref = some refs)
    (hparse : ∀ u ∈ refs, ∃ s srv url, u.bv_val = some s ∧
      X.ldap_url_parse_ext (some s) = .ok srv ∧
      X.ldap_url_desc2str { srv with lud_dn := some [], lud_scope := LDAP_SCOPE_DEFAULT }
        = some url) :
    ∃ r, ldap_chain_response X lip op rs = some r ∧
      ((∀ c ∈ r.calls, Spec.call_rc X c = 0) →
        (∀ c ∈ r.calls, Spec.call_failed X c = false) →
        r.rc = 0 ∧ r.rc ≠ SLAP_CB_CONTINUE ∧ r.calls.length = refs.length ∧
        r.rs.sr_type = slap_reply_t.REP_SEARCHREF ∧ r.rs.sr_entry = none ∧
        r.rs.sr_ref = some refs) := by
  obtain ⟨r, hr, h1, h2, _, h4⟩ :=
    ldap_chain_response_searchref X lip op rs refs htag htype href hparse
  refine ⟨r, hr, ?_⟩
  intro hall hnf
  obtain ⟨g1, _, g3⟩ := h4 hall
  have h0 := (g3 hnf).1
  exact ⟨h0, by rw [h0]; decide, g1, h1, h2, (g3 hnf).2⟩

/-- On the sample environment, where every search succeeds, the two
references come back in the response and the return value is 0. -/
theorem all_referrals_chased_witness :
    ∃ r, ldap_chain_response Sample.env { url := none, rest := 0 } Sample.op
          Sample.rs_p1_p2 = some r ∧
      ((∀ c ∈ r.calls, Spec.call_rc Sample.env c = 0) →
        (∀ c ∈ r.calls, Spec.call_failed Sample.env c = false) →
        r.rc = 0 ∧
        r.rs.sr_ref = some [Sasl.Sample.bv "ldap://p1/", Sasl.Sample.bv "ldap://p2/"]) := by
  obtain ⟨r, hr, h⟩ := all_referrals_chased Sample.env { url := none, rest := 0 }
    Sample.op Sample.rs_p1_p2 [Sasl.Sample.bv "ldap://p1/", Sasl.Sample.bv "ldap://p2/"]
    (by decide) rfl rfl
    (by
      intro u hu
      simp only [List.mem_cons, List.mem_singleton, List.not_mem_nil, or_false] at hu
      rcases hu with rfl | rfl
      · exact ⟨_, _, _, rfl, rfl, rfl⟩
      · exact ⟨_, _, _, rfl, rfl, rfl⟩)
  exact ⟨r, hr, fun h1 h2 => ⟨(h h1 h2).1, (h h1 h2).2.2.2.2.2⟩⟩

end Chain

end Slapd
